import Mathlib

set_option linter.unusedVariables false

set_option linter.unusedSectionVars false

/-!
Verification of the ECMAScript code generator in
`src/ecmascript/codegen/src/lib.rs` (crate `swc_ecma_codegen`).

The file shallowly embeds the emitter: the writer sink, the comment
store, the source map and the `ListFormat` bitset are modelled from the
specification (those modules are not part of `src/`), while every
emitter routine of `lib.rs` is translated function by function.  The
writer is modelled with an optional write budget so that sink (`io`)
errors are expressible; Rust panics (`assert!`, `unreachable!`,
out-of-bounds indexing) are an explicit error value, and recursion over
the AST is paid for with an explicit fuel counter (running out of fuel
is a third error value, distinct from both).
-/

namespace Swc

set_option maxHeartbeats 0

set_option maxRecDepth 4000

/-- Byte span in the original source plus a syntactic-context tag
(`swc_common::Span`; `ctxt = 0` is the empty `SyntaxContext`). -/
structure Span where
  lo : Nat
  hi : Nat
  ctxt : Nat
  deriving DecidableEq

/-- The dummy span `DUMMY_SP`. -/
def dummySpan : Span := ⟨0, 0, 0⟩

/-- Modelled from the spec: `Span::is_dummy` — both ends at byte 0. -/
def Span.isDummy (s : Span) : Bool := s.lo == 0 && s.hi == 0

/-- Modelled from the spec: `util::SpanExt::is_synthesized` — a node is
synthetic iff `lo == hi == 0` or its context is non-empty (spec section 3). -/
def Span.isSynthesized (s : Span) : Bool := (s.lo == 0 && s.hi == 0) || s.ctxt != 0

/-- Replace the upper end of a span (`Span::with_hi`). -/
def Span.withHi (s : Span) (h : Nat) : Span := ⟨s.lo, h, s.ctxt⟩

/-- A token handed to the writer sink.  Each constructor corresponds to
one write operation of the `WriteJs` trait (`write_punct`,
`write_keyword`, `write_operator`, `write_str_lit`, `write_symbol`,
`write_space`, `write_line`) plus comment text materialised by the
comment helpers. -/
inductive WTok where
  | punct (s : String)
  | keyword (sp : Option Span) (s : String)
  | operator (s : String)
  | strLit (sp : Span) (s : String)
  | symbol (sp : Span) (s : String)
  | space
  | line
  | comment (s : String)
  deriving DecidableEq

/-- The text a token contributes to the output stream. -/
def WTok.text : WTok → String
  | .punct s => s
  | .keyword _ s => s
  | .operator s => s
  | .strLit _ s => s
  | .symbol _ s => s
  | .space => " "
  | .line => "\n"
  | .comment s => s

/-- Concatenated text of a token list. -/
def emittedText (l : List WTok) : String := (l.map WTok.text).foldl (· ++ ·) ""

/-- Errors a run can end in: a sink (`io`) error from the writer, a Rust
panic (`assert!`, `unreachable!`, out-of-bounds indexing), or fuel
exhaustion of the embedding. -/
inductive Err where
  | sink
  | panicked
  | fuel
  deriving DecidableEq

/-- Mutable state of an emission run: the tokens written to the sink so
far, everything printed to stdout (`println!`), the writer's indent
depth, the remaining write budget (`none` = the sink never fails), and
the emitter's `pos_of_leading_comments` set. -/
structure St where
  out : List WTok
  stdout : List String
  indent : Int
  budget : Option Nat
  posSet : List Nat
  deriving DecidableEq

/-- The emission monad: state plus short-circuiting errors.  The state
is threaded through errors as well, mirroring the fact that the Rust
`Emitter` owns its writer and survives an early `?` return. -/
def EmitM (α : Type) : Type := St → Except Err α × St

instance : Monad EmitM where
  pure := fun a s => (.ok a, s)
  bind := fun m f s =>
    match m s with
    | (.ok a, s1) => f a s1
    | (.error e, s1) => (.error e, s1)

/-- Read the current state. -/
def getSt : EmitM St := fun s => (.ok s, s)

/-- Fail with a Rust panic. -/
def throwPanic {α : Type} : EmitM α := fun s => (.error .panicked, s)

/-- Fail because the embedding ran out of fuel. -/
def throwFuel {α : Type} : EmitM α := fun s => (.error .fuel, s)

/-- Append one token to the sink.  With a finite budget each write
consumes one unit, and a write with no budget left is the modelled sink
(`io`) error. -/
def wput (t : WTok) : EmitM Unit := fun s =>
  match s.budget with
  | some 0 => (.error .sink, s)
  | some (n+1) => (.ok (), { s with out := s.out ++ [t], budget := some n })
  | none => (.ok (), { s with out := s.out ++ [t] })

/-- Modelled from the spec: the writer's `write_punct`. -/
def write_punct (p : String) : EmitM Unit := wput (.punct p)

/-- Modelled from the spec: the writer's `write_keyword` (the span is
present only for the `keyword!(span, kw)` form of the macro). -/
def write_keyword (sp : Option Span) (k : String) : EmitM Unit := wput (.keyword sp k)

/-- Modelled from the spec: the writer's `write_operator`. -/
def write_operator (o : String) : EmitM Unit := wput (.operator o)

/-- Modelled from the spec: the writer's `write_str_lit`. -/
def write_str_lit (sp : Span) (s : String) : EmitM Unit := wput (.strLit sp s)

/-- Modelled from the spec: the writer's `write_symbol`. -/
def write_symbol (sp : Span) (s : String) : EmitM Unit := wput (.symbol sp s)

/-- Modelled from the spec: the writer's `write_space`. -/
def write_space : EmitM Unit := wput .space

/-- Modelled from the spec: the writer's `write_line`. -/
def write_line : EmitM Unit := wput .line

/-- Modelled from the spec: `increase_indent` only bumps the writer's
indent counter; it performs no I/O and cannot fail. -/
def increase_indent : EmitM Unit := fun s => (.ok (), { s with indent := s.indent + 1 })

/-- Modelled from the spec: `decrease_indent`, dual of `increase_indent`. -/
def decrease_indent : EmitM Unit := fun s => (.ok (), { s with indent := s.indent - 1 })

/-- A `println!` call: a line sent to stdout, not to the sink. -/
def printStdout (msg : String) : EmitM Unit := fun s =>
  (.ok (), { s with stdout := s.stdout ++ [msg] })

/-- Record a byte position in `pos_of_leading_comments`. -/
def recordPos (pos : Nat) : EmitM Unit := fun s =>
  (.ok (), { s with posSet := pos :: s.posSet })

/-!  ## ListFormat

Modelled from the spec (section 4.2): `list::ListFormat` is a closed
bitset.  `SingleLine` and `None` are the zero values of their groups, as
the source's mask-equality tests require.  `contains` and `intersects`
follow the semantics of the `bitflags` crate: `contains` demands every
bit of its argument, `intersects` at least one. -/

/-- A `ListFormat` value is a bitset. -/
abbrev LF := Nat

def lfNone : LF := 0
def lfSingleLine : LF := 0
def lfMultiLine : LF := 1
def lfPreferNewLine : LF := 2
def lfLinesMask : LF := 3
def lfBarDelimited : LF := 4
def lfAmpersandDelimited : LF := 8
def lfCommaDelimited : LF := 16
def lfDelimitersMask : LF := 28
def lfAllowTrailingComma : LF := 32
def lfIndented : LF := 64
def lfSpaceBetweenBraces : LF := 128
def lfSpaceBetweenSiblings : LF := 256
def lfParenthesis : LF := 512
def lfSquareBrackets : LF := 1024
def lfCurlyBraces : LF := 2048
def lfAngleBrackets : LF := 4096
def lfBracketsMask : LF := 7680
def lfOptionalIfUndefined : LF := 8192
def lfOptionalIfEmpty : LF := 16384
def lfNoSpaceIfEmpty : LF := 32768
def lfNoInterveningComments : LF := 65536

/-- `bitflags` `contains`: all bits of `m` are present in `f`. -/
def lfContains (f m : LF) : Bool := f &&& m == m

/-- `bitflags` `intersects`: at least one bit of `m` is present in `f`. -/
def lfIntersects (f m : LF) : Bool := f &&& m != 0

/-- Clear the bits of `m` in `f` (Rust `f &= !m`). -/
def lfErase (f m : LF) : LF := f - (f &&& m)

/-- Modelled from the spec: preset `SourceFileStatements` (multi-line,
no delimiter, no brackets, not indented). -/
def lfSourceFileStatements : LF := lfMultiLine

/-- Modelled from the spec: preset `CommaListElements`. -/
def lfCommaListElements : LF := lfCommaDelimited ||| lfSpaceBetweenSiblings ||| lfSingleLine

/-- Modelled from the spec: preset `CallExpressionArguments`
(`CallArguments` row of the preset table). -/
def lfCallExpressionArguments : LF :=
  lfCommaDelimited ||| lfParenthesis ||| lfSpaceBetweenSiblings ||| lfSingleLine

/-- Modelled from the spec: preset `NewExpressionArguments` — the
`CallArguments` row; the argument list of `new` is optional. -/
def lfNewExpressionArguments : LF := lfCallExpressionArguments ||| lfOptionalIfUndefined

/-- Modelled from the spec: preset `ArrayLiteralExpressionElements`. -/
def lfArrayLiteralExpressionElements : LF :=
  lfCommaDelimited ||| lfSquareBrackets ||| lfSpaceBetweenSiblings |||
    lfAllowTrailingComma ||| lfSingleLine

/-- Modelled from the spec: preset `ObjectLiteralExpressionProperties`. -/
def lfObjectLiteralExpressionProperties : LF :=
  lfCommaDelimited ||| lfCurlyBraces ||| lfMultiLine ||| lfIndented |||
    lfSpaceBetweenBraces ||| lfAllowTrailingComma

/-- Modelled from the spec: preset `NamedImportsOrExportsElements`. -/
def lfNamedImportsOrExportsElements : LF :=
  lfCommaDelimited ||| lfCurlyBraces ||| lfSpaceBetweenBraces ||| lfSingleLine

/-- Modelled from the spec: preset `ClassMembers`. -/
def lfClassMembers : LF := lfCurlyBraces ||| lfMultiLine ||| lfIndented

/-- Modelled from the spec: preset `CaseBlockClauses`. -/
def lfCaseBlockClauses : LF := lfMultiLine ||| lfIndented

/-- Modelled from the spec: preset `CaseOrDefaultClauseStatements`. -/
def lfCaseOrDefaultClauseStatements : LF := lfMultiLine ||| lfIndented

/-- Modelled from the spec: preset `MultiLineBlockStatements`. -/
def lfMultiLineBlockStatements : LF := lfCurlyBraces ||| lfMultiLine ||| lfIndented

/-- Modelled from the spec: preset `ArrayBindingPatternElements` — the
`ArrayLiteralElements` row. -/
def lfArrayBindingPatternElements : LF := lfArrayLiteralExpressionElements

/-- Modelled from the spec: preset `ObjectBindingPatternElements` — the
`NamedImportsOrExportsElements` row. -/
def lfObjectBindingPatternElements : LF := lfNamedImportsOrExportsElements

/-- Modelled from the spec: `ListFormat::opening_bracket`. -/
def lfOpeningBracket (f : LF) : String :=
  if lfContains f lfParenthesis then "("
  else if lfContains f lfSquareBrackets then "["
  else if lfContains f lfCurlyBraces then "\x7b"
  else if lfContains f lfAngleBrackets then "<"
  else ""

/-- Modelled from the spec: `ListFormat::closing_bracket`. -/
def lfClosingBracket (f : LF) : String :=
  if lfContains f lfParenthesis then ")"
  else if lfContains f lfSquareBrackets then "]"
  else if lfContains f lfCurlyBraces then "\x7d"
  else if lfContains f lfAngleBrackets then ">"
  else ""

/-!  ## External collaborators

The configuration, source map and comment store are external
collaborators of the core (spec sections 3 and 6); they are modelled as
a record of pure functions. -/

/-- Modelled from the spec: emission configuration plus the read-only
source map (`span_to_snippet`, `span_to_string`, the three line
terminator questions, `is_on_same_line`) and the comment store
(`leadingCommentsAt`, `trailingCommentsAt`). -/
structure Ctx where
  minify : Bool
  snippet : Span → String
  spanToString : Span → String
  shouldLeadingLT : Span → List Span → LF → Bool
  shouldSepLT : Option Span → Option Span → LF → Bool
  shouldClosingLT : Span → List Span → LF → Bool
  isOnSameLine : Nat → Nat → Bool
  leadingAt : Nat → List String
  trailingAt : Nat → List String

/-- Write a list of comments to the sink. -/
def writeComments : List String → EmitM Unit
  | [] => pure ()
  | c :: r => do wput (.comment c); writeComments r

/-- Modelled from the spec: `comments.rs`'s
`emit_leading_comments_of_pos` — materialise the leading comments at a
byte position once, recording the position in
`pos_of_leading_comments` so later calls skip it (spec section 4.5). -/
def emit_leading_comments_of_pos (ctx : Ctx) (pos : Nat) : EmitM Unit := do
  let s ← getSt
  if s.posSet.contains pos then pure ()
  else
    match ctx.leadingAt pos with
    | [] => pure ()
    | cs => do writeComments cs; recordPos pos

/-- Modelled from the spec: `comments.rs`'s
`emit_trailing_comments_of_pos` — materialise the trailing comments at
a byte position. -/
def emit_trailing_comments_of_pos (ctx : Ctx) (pos : Nat) (_isTrailing : Bool) :
    EmitM Unit :=
  writeComments (ctx.trailingAt pos)

/-!  ## Macro expansions

`macros.rs` is not under `src/`; the token macros used by the emitters
are modelled from the spec's writer contract (section 4.1): `punct!`,
`keyword!`, `operator!`, `space!` (a hard space), `formatting_space!`
(elided under `minify`), and `semi!`. -/

/-- Modelled from the spec: the `punct!` macro. -/
def punctM (p : String) : EmitM Unit := write_punct p

/-- Modelled from the spec: the span-less `keyword!` macro. -/
def keywordM (k : String) : EmitM Unit := write_keyword none k

/-- Modelled from the spec: the `keyword!(span, kw)` macro. -/
def keywordSpM (sp : Span) (k : String) : EmitM Unit := write_keyword (some sp) k

/-- Modelled from the spec: the `operator!` macro. -/
def operatorM (o : String) : EmitM Unit := write_operator o

/-- Modelled from the spec: the `space!` macro — a hard space. -/
def spaceM : EmitM Unit := write_space

/-- Modelled from the spec: the `formatting_space!` macro — a
formatting space, elided when `minify` is set. -/
def formattingSpaceM (ctx : Ctx) : EmitM Unit :=
  if ctx.minify then pure () else write_space

/-- Modelled from the spec: the `semi!` macro (rule R3). -/
def semiM : EmitM Unit := write_punct ";"

/-!  ## The AST

The AST crate (`swc_ecma_ast`) is an external collaborator; the node
types below carry exactly the fields `lib.rs` consumes.  Non-recursive
nodes are plain structures; recursive node structs are flattened into
the constructor arguments of their parent sum type. -/

/-- `Ident`. -/
structure Ident where
  span : Span
  sym : String

/-- `Str` (string literal). -/
structure Str where
  span : Span
  value : String

/-- The `f64` payload of a numeric literal, abstracted: whether it is
infinite, its sign, and the text `format!` produces for it.  (Floating
point itself is not modelled; the emitter only queries these.) -/
structure FVal where
  isInfinite : Bool
  isNegative : Bool
  repr : String

/-- `Number` (numeric literal). -/
structure Number where
  span : Span
  value : FVal

/-- `Regex` literal: expression word and optional flags word. -/
structure RegexVal where
  expSpan : Span
  expValue : String
  flags : Option (Span × String)

/-- `Lit`. -/
inductive Lit where
  | boolL (span : Span) (value : Bool)
  | nullL (span : Span)
  | strL (s : Str)
  | numL (n : Number)
  | regex (r : RegexVal)

/-- `TplElement` (template literal quasi). -/
structure TplElement where
  span : Span
  raw : String

/-- `UnaryOp`. -/
inductive UnaryOp where
  | voidOp | typeofOp | deleteOp | plus | minus | bang | tilde
  deriving DecidableEq

/-- `UnaryOp::as_str`. -/
def UnaryOp.as_str : UnaryOp → String
  | .voidOp => "void"
  | .typeofOp => "typeof"
  | .deleteOp => "delete"
  | .plus => "+"
  | .minus => "-"
  | .bang => "!"
  | .tilde => "~"

/-- `UpdateOp`. -/
inductive UpdateOp where
  | plusPlus | minusMinus
  deriving DecidableEq

/-- `UpdateOp::as_str`. -/
def UpdateOp.as_str : UpdateOp → String
  | .plusPlus => "++"
  | .minusMinus => "\x2d\x2d"

/-- `ClassMethodKind`. -/
inductive ClassMethodKind where
  | constructorK | methodK | getterK | setterK

/-- `ImportSpecific` (a named import specifier `orig as local`). -/
structure ImportSpecific where
  span : Span
  lcl : Ident
  imported : Option Ident

/-- `ImportSpecifier`. -/
inductive ImportSpecifier where
  | specific (s : ImportSpecific)
  | defaultS (lcl : Ident)
  | nsSpec (span : Span) (lcl : Ident)

/-- `ImportDecl`. -/
structure ImportDecl where
  span : Span
  specifiers : List ImportSpecifier
  src : Str

/-- `ExportSpecifier`. -/
structure ExportSpecifier where
  span : Span
  orig : Ident
  exported : Option Ident

/-- `NamedExport`. -/
structure NamedExport where
  span : Span
  specifiers : List ExportSpecifier
  src : Option Str

/-- `ExportAll`. -/
structure ExportAll where
  span : Span
  src : Str

mutual

/-- `Expr`.  Recursive node structs (`MemberExpr`, `CallExpr`, …) are
flattened into the constructor arguments. -/
inductive Expr where
  | array (span : Span) (elems : List (Option ExprOrSpread))
  | arrow (span : Span) (params : List Pat) (body : BlockStmtOrExpr)
      (asyncTok genTok : Option Span)
  | assign (span : Span) (left : PatOrExpr) (op : String) (right : Expr)
  | await (span : Span) (arg : Expr)
  | bin (span : Span) (op : String) (left right : Expr)
  | cls (ident : Option Ident) (k : ClassDef)
  | call (span : Span) (callee : ExprOrSuper) (args : List ExprOrSpread)
  | cond (span : Span) (test cons alt : Expr)
  | fnE (ident : Option Ident) (fn : FunctionDef)
  | ident (i : Ident)
  | lit (l : Lit)
  | member (span : Span) (obj : ExprOrSuper) (prop : Expr) (computed : Bool)
  | metaProp (span : Span) (meta prop : Ident)
  | newE (span : Span) (callee : Expr) (args : Option (List ExprOrSpread))
  | object (span : Span) (props : List PropOrSpread)
  | paren (span : Span) (e : Expr)
  | seq (span : Span) (exprs : List Expr)
  | this (span : Span)
  | tpl (span : Span) (tag : Option Expr) (exprs : List Expr) (quasis : List TplElement)
  | unary (span : Span) (op : UnaryOp) (arg : Expr)
  | update (span : Span) (op : UpdateOp) (pfx : Bool) (arg : Expr)
  | yieldE (span : Span) (arg : Option Expr) (delegate : Bool)

/-- `ExprOrSuper`. -/
inductive ExprOrSuper where
  | superE (span : Span)
  | expr (e : Expr)

/-- `ExprOrSpread`. -/
inductive ExprOrSpread where
  | mk (spread : Option Span) (e : Expr)

/-- `BlockStmtOrExpr`. -/
inductive BlockStmtOrExpr where
  | block (b : BlockStmt)
  | expr (e : Expr)

/-- `PatOrExpr`. -/
inductive PatOrExpr where
  | expr (e : Expr)
  | pat (p : Pat)

/-- `Class`. -/
inductive ClassDef where
  | mk (span : Span) (superClass : Option Expr) (body : List ClassMethod)

/-- `ClassMethod`. -/
inductive ClassMethod where
  | mk (span : Span) (staticTok : Option Span) (kind : ClassMethodKind)
      (key : PropName) (fn : FunctionDef)

/-- `Function`. -/
inductive FunctionDef where
  | mk (span : Span) (params : List Pat) (body : BlockStmt)
      (asyncTok genTok : Option Span)

/-- `PropName`. -/
inductive PropName where
  | ident (i : Ident)
  | str (s : Str)
  | num (n : Number)
  | computed (e : Expr)

/-- `Prop`. -/
inductive PropJs where
  | shorthand (i : Ident)
  | keyValue (key : PropName) (value : Expr)
  | assign (key : Ident) (value : Expr)
  | getter (span : Span) (key : PropName) (body : BlockStmt)
  | setter (span : Span) (key : PropName) (param : Pat) (body : BlockStmt)
  | methodP (key : PropName) (fn : FunctionDef)

/-- `PropOrSpread`. -/
inductive PropOrSpread where
  | prop (p : PropJs)
  | spread (span : Span) (e : Expr)

/-- `Pat`. -/
inductive Pat where
  | array (span : Span) (elems : List (Option Pat))
  | assign (span : Span) (left : Pat) (right : Expr)
  | expr (e : Expr)
  | ident (i : Ident)
  | object (span : Span) (props : List ObjectPatProp)
  | rest (span : Span) (arg : Pat)

/-- `ObjectPatProp`. -/
inductive ObjectPatProp where
  | keyValue (key : PropName) (value : Pat)
  | assign (key : Ident) (value : Option Expr)
  | rest (span : Span) (arg : Pat)

/-- `Stmt`. -/
inductive Stmt where
  | exprS (e : Expr)
  | block (b : BlockStmt)
  | empty (span : Span)
  | debugger (span : Span)
  | withS (span : Span) (obj : Expr) (body : Stmt)
  | ret (span : Span) (arg : Option Expr)
  | labeled (span : Span) (label : Ident) (body : Stmt)
  | brk (span : Span) (label : Option Ident)
  | cont (span : Span) (label : Option Ident)
  | ifS (span : Span) (test : Expr) (cons : Stmt) (alt : Option Stmt)
  | switch (span : Span) (disc : Expr) (cases : List SwitchCase)
  | throwS (span : Span) (arg : Expr)
  | tryS (span : Span) (blk : BlockStmt) (handler : Option CatchClause)
      (finalizer : Option BlockStmt)
  | whileS (span : Span) (test : Expr) (body : Stmt)
  | doWhile (span : Span) (body : Stmt) (test : Expr)
  | forS (span : Span) (init : Option VarDeclOrExpr) (test upd : Option Expr)
      (body : Stmt)
  | forIn (span : Span) (left : VarDeclOrPat) (right : Expr) (body : Stmt)
  | forOf (span : Span) (left : VarDeclOrPat) (right : Expr) (body : Stmt)
  | decl (d : Decl)

/-- `BlockStmt`. -/
inductive BlockStmt where
  | mk (span : Span) (stmts : List Stmt)

/-- `SwitchCase`. -/
inductive SwitchCase where
  | mk (span : Span) (test : Option Expr) (cons : List Stmt)

/-- `CatchClause`. -/
inductive CatchClause where
  | mk (span : Span) (param : Pat) (body : BlockStmt)

/-- `VarDeclOrPat`. -/
inductive VarDeclOrPat where
  | varDecl (v : VarDecl)
  | pat (p : Pat)

/-- `VarDeclOrExpr`. -/
inductive VarDeclOrExpr where
  | expr (e : Expr)
  | varDecl (v : VarDecl)

/-- `Decl` (its emitters live in the missing `decl.rs`). -/
inductive Decl where
  | cls (ident : Ident) (k : ClassDef)
  | fnD (ident : Ident) (fn : FunctionDef)
  | var (v : VarDecl)

/-- `VarDecl`. -/
inductive VarDecl where
  | mk (span : Span) (kind : String) (decls : List VarDeclarator)

/-- `VarDeclarator`. -/
inductive VarDeclarator where
  | mk (span : Span) (name : Pat) (init : Option Expr)

end

/-- `ExportDefaultDecl`. -/
inductive ExportDefaultDecl where
  | cls (ident : Option Ident) (k : ClassDef)
  | fnD (ident : Option Ident) (fn : FunctionDef)
  | var (v : VarDecl)

/-- `ModuleDecl`. -/
inductive ModuleDecl where
  | importD (d : ImportDecl)
  | exportDecl (d : Decl)
  | exportNamed (d : NamedExport)
  | exportDefaultDecl (d : ExportDefaultDecl)
  | exportDefaultExpr (e : Expr)
  | exportAll (d : ExportAll)

/-- `ModuleItem`. -/
inductive ModuleItem where
  | stmt (s : Stmt)
  | moduleDecl (d : ModuleDecl)

/-- `Module`. -/
structure Module where
  span : Span
  body : List ModuleItem

/-!  ## Spans of nodes

`Spanned::span()` for each node type (the AST crate derives these; they
are modelled here and only feed the source-map questions and the
sibling bookkeeping of the list emitter). -/

/-- Span of a `Function`. -/
def FunctionDef.span : FunctionDef → Span
  | .mk sp _ _ _ _ => sp

/-- Parameters of a `Function`. -/
def FunctionDef.params : FunctionDef → List Pat
  | .mk _ ps _ _ _ => ps

/-- Body of a `Function`. -/
def FunctionDef.body : FunctionDef → BlockStmt
  | .mk _ _ b _ _ => b

/-- The optional `async` token of a `Function`. -/
def FunctionDef.asyncTok : FunctionDef → Option Span
  | .mk _ _ _ a _ => a

/-- The optional generator token of a `Function`. -/
def FunctionDef.genTok : FunctionDef → Option Span
  | .mk _ _ _ _ g => g

/-- Span of a `Class`. -/
def ClassDef.span : ClassDef → Span
  | .mk sp _ _ => sp

/-- Super class of a `Class`. -/
def ClassDef.superClass : ClassDef → Option Expr
  | .mk _ sc _ => sc

/-- Members of a `Class`. -/
def ClassDef.body : ClassDef → List ClassMethod
  | .mk _ _ b => b

/-- Span of a `ClassMethod`. -/
def ClassMethod.span : ClassMethod → Span
  | .mk sp _ _ _ _ => sp

/-- Static token of a `ClassMethod`. -/
def ClassMethod.staticTok : ClassMethod → Option Span
  | .mk _ st _ _ _ => st

/-- Kind of a `ClassMethod`. -/
def ClassMethod.kind : ClassMethod → ClassMethodKind
  | .mk _ _ k _ _ => k

/-- Key of a `ClassMethod`. -/
def ClassMethod.key : ClassMethod → PropName
  | .mk _ _ _ k _ => k

/-- Function of a `ClassMethod`. -/
def ClassMethod.fn : ClassMethod → FunctionDef
  | .mk _ _ _ _ f => f

/-- Span of a `BlockStmt`. -/
def BlockStmt.span : BlockStmt → Span
  | .mk sp _ => sp

/-- Statements of a `BlockStmt`. -/
def BlockStmt.stmts : BlockStmt → List Stmt
  | .mk _ ss => ss

/-- Span of a `SwitchCase`. -/
def SwitchCase.span : SwitchCase → Span
  | .mk sp _ _ => sp

/-- Test of a `SwitchCase`. -/
def SwitchCase.test : SwitchCase → Option Expr
  | .mk _ t _ => t

/-- Consequent of a `SwitchCase`. -/
def SwitchCase.cons : SwitchCase → List Stmt
  | .mk _ _ c => c

/-- Span of a `CatchClause`. -/
def CatchClause.span : CatchClause → Span
  | .mk sp _ _ => sp

/-- Parameter of a `CatchClause`. -/
def CatchClause.param : CatchClause → Pat
  | .mk _ p _ => p

/-- Body of a `CatchClause`. -/
def CatchClause.body : CatchClause → BlockStmt
  | .mk _ _ b => b

/-- Span of a `VarDecl`. -/
def VarDecl.span : VarDecl → Span
  | .mk sp _ _ => sp

/-- Kind keyword of a `VarDecl`. -/
def VarDecl.kind : VarDecl → String
  | .mk _ k _ => k

/-- Declarators of a `VarDecl`. -/
def VarDecl.decls : VarDecl → List VarDeclarator
  | .mk _ _ d => d

/-- Span of a `VarDeclarator`. -/
def VarDeclarator.span : VarDeclarator → Span
  | .mk sp _ _ => sp

/-- Name of a `VarDeclarator`. -/
def VarDeclarator.name : VarDeclarator → Pat
  | .mk _ n _ => n

/-- Initialiser of a `VarDeclarator`. -/
def VarDeclarator.init : VarDeclarator → Option Expr
  | .mk _ _ i => i

/-- Span of a `Lit`. -/
def Lit.span : Lit → Span
  | .boolL sp _ => sp
  | .nullL sp => sp
  | .strL s => s.span
  | .numL n => n.span
  | .regex r => r.expSpan

/-- Span of an `Expr`. -/
def Expr.span : Expr → Span
  | .array sp _ => sp
  | .arrow sp _ _ _ _ => sp
  | .assign sp _ _ _ => sp
  | .await sp _ => sp
  | .bin sp _ _ _ => sp
  | .cls _ k => k.span
  | .call sp _ _ => sp
  | .cond sp _ _ _ => sp
  | .fnE _ fn => fn.span
  | .ident i => i.span
  | .lit l => l.span
  | .member sp _ _ _ => sp
  | .metaProp sp _ _ => sp
  | .newE sp _ _ => sp
  | .object sp _ => sp
  | .paren sp _ => sp
  | .seq sp _ => sp
  | .this sp => sp
  | .tpl sp _ _ _ => sp
  | .unary sp _ _ => sp
  | .update sp _ _ _ => sp
  | .yieldE sp _ _ => sp

/-- Span of an `ExprOrSpread` (union of the spread token and the
expression when the spread is present). -/
def ExprOrSpread.span : ExprOrSpread → Span
  | .mk (some sp) e => ⟨sp.lo, (Expr.span e).hi, (Expr.span e).ctxt⟩
  | .mk none e => Expr.span e

/-- Span of a `Pat`. -/
def Pat.span : Pat → Span
  | .array sp _ => sp
  | .assign sp _ _ => sp
  | .expr e => e.span
  | .ident i => i.span
  | .object sp _ => sp
  | .rest sp _ => sp

/-- Span of a `PropName`. -/
def PropName.span : PropName → Span
  | .ident i => i.span
  | .str s => s.span
  | .num n => n.span
  | .computed e => e.span

/-- Span of a `Prop` (derived union for the key/value forms). -/
def PropJs.span : PropJs → Span
  | .shorthand i => i.span
  | .keyValue k v => ⟨(PropName.span k).lo, (Expr.span v).hi, 0⟩
  | .assign k v => ⟨k.span.lo, (Expr.span v).hi, 0⟩
  | .getter sp _ _ => sp
  | .setter sp _ _ _ => sp
  | .methodP k fn => ⟨(PropName.span k).lo, fn.span.hi, 0⟩

/-- Span of a `PropOrSpread`. -/
def PropOrSpread.span : PropOrSpread → Span
  | .prop p => p.span
  | .spread sp e => ⟨sp.lo, (Expr.span e).hi, 0⟩

/-- Span of an `ObjectPatProp`. -/
def ObjectPatProp.span : ObjectPatProp → Span
  | .keyValue k v => ⟨(PropName.span k).lo, (Pat.span v).hi, 0⟩
  | .assign k (some v) => ⟨k.span.lo, (Expr.span v).hi, 0⟩
  | .assign k none => k.span
  | .rest sp _ => sp

/-- Span of a `Decl`. -/
def Decl.span : Decl → Span
  | .cls _ k => k.span
  | .fnD _ fn => fn.span
  | .var v => v.span

/-- Span of a `Stmt`. -/
def Stmt.span : Stmt → Span
  | .exprS e => e.span
  | .block b => b.span
  | .empty sp => sp
  | .debugger sp => sp
  | .withS sp _ _ => sp
  | .ret sp _ => sp
  | .labeled sp _ _ => sp
  | .brk sp _ => sp
  | .cont sp _ => sp
  | .ifS sp _ _ _ => sp
  | .switch sp _ _ => sp
  | .throwS sp _ => sp
  | .tryS sp _ _ _ => sp
  | .whileS sp _ _ => sp
  | .doWhile sp _ _ => sp
  | .forS sp _ _ _ _ => sp
  | .forIn sp _ _ _ => sp
  | .forOf sp _ _ _ => sp
  | .decl d => d.span

/-- Span of an optional node (`Spanned` for `Option`: dummy if absent). -/
def optSpan (f : α → Span) : Option α → Span
  | none => dummySpan
  | some x => f x

/-!  ## Lexical safety helpers (`util.rs` and `lib.rs`) -/

/-- Whether a string contains a character (Rust `str::contains(char)`),
written over the character list so concrete runs reduce. -/
def strContainsChar (s : String) (c : Char) : Bool := s.data.contains c

/-- Whether a string starts with an alphanumeric character. -/
def strHeadAlphanum (s : String) : Bool :=
  match s.data with
  | [] => false
  | c :: _ => c.isAlphanum

mutual

/-- Modelled from the spec: `util::StartsWithAlphaNum` for expressions
(`util.rs` is not under `src/`) — whether the text emitted for the
expression starts with an alphanumeric character (rule R1's side
condition). -/
def startsWithAlphaNum : Expr → Bool
  | .ident i => strHeadAlphanum i.sym
  | .lit l =>
    match l with
    | .boolL _ _ => true
    | .nullL _ => true
    | .numL _ => true
    | .strL _ => false
    | .regex _ => false
  | .member _ obj _ _ => sosStartsWithAlphaNum obj
  | .call _ callee _ => sosStartsWithAlphaNum callee
  | .newE _ _ _ => true
  | .this _ => true
  | .metaProp _ _ _ => true
  | .yieldE _ _ _ => true
  | .await _ _ => true
  | .cls _ _ => true
  | .fnE _ _ => true
  | .unary _ op _ =>
    match op with
    | .voidOp => true
    | .typeofOp => true
    | .deleteOp => true
    | _ => false
  | .update _ _ pfx arg => if pfx then false else startsWithAlphaNum arg
  | .bin _ _ l _ => startsWithAlphaNum l
  | .assign _ l _ _ => poeStartsWithAlphaNum l
  | .cond _ t _ _ => startsWithAlphaNum t
  | .seq _ es =>
    match es with
    | [] => false
    | e :: _ => startsWithAlphaNum e
  | .tpl _ tag _ _ =>
    match tag with
    | some t => startsWithAlphaNum t
    | none => false
  | .paren _ _ => false
  | .array _ _ => false
  | .object _ _ => false
  | .arrow _ _ _ _ _ => false

/-- `StartsWithAlphaNum` through `ExprOrSuper`. -/
def sosStartsWithAlphaNum : ExprOrSuper → Bool
  | .superE _ => true
  | .expr e => startsWithAlphaNum e

/-- `StartsWithAlphaNum` through `PatOrExpr`. -/
def poeStartsWithAlphaNum : PatOrExpr → Bool
  | .expr e => startsWithAlphaNum e
  | .pat p => patStartsWithAlphaNum p

/-- `StartsWithAlphaNum` for patterns. -/
def patStartsWithAlphaNum : Pat → Bool
  | .ident i => strHeadAlphanum i.sym
  | .expr e => startsWithAlphaNum e
  | _ => false

end

/-- `get_text_of_node` (lib.rs:1481): `None` for dummy spans, non-empty
syntactic contexts and empty snippets; otherwise the source snippet. -/
def get_text_of_node (ctx : Ctx) (sp : Span) : Option String :=
  if sp.isDummy || sp.ctxt != 0 then none
  else
    let s := ctx.snippet sp
    if s == "" then none else some s

/-- `needs_2dots_for_property_access` (lib.rs:405): a numeric-literal
object needs a second dot exactly when its original text
(`span_to_string`) contains no dot. -/
def needs_2dots_for_property_access (ctx : Ctx) (e : ExprOrSuper) : Bool :=
  match e with
  | .expr (.lit (.numL n)) => !(strContainsChar (ctx.spanToString n.span) '.')
  | _ => false

/-- `should_emit_whitespace_before_operand` (lib.rs:1528). -/
def should_emit_whitespace_before_operand (op : UnaryOp) (arg : Expr) : Bool :=
  match op with
  | .voidOp => startsWithAlphaNum arg
  | .typeofOp => startsWithAlphaNum arg
  | .deleteOp => startsWithAlphaNum arg
  | _ =>
    match op, arg with
    | .plus, .update _ .plusPlus true _ => true
    | .plus, .unary _ .plus _ => true
    | .minus, .update _ .minusMinus true _ => true
    | .minus, .unary _ .minus _ => true
    | _, _ => false

/-!  ## The generic list emitter (`emit_list5`, lib.rs:856) -/

/-- The emptiness test of `emit_list5` (lib.rs:868):
`children.is_none() || start > children.unwrap().len() || count == 0`. -/
def list_is_empty (children : Option (List α)) (start count : Nat) : Bool :=
  match children with
  | none => true
  | some cs => decide (start > cs.length) || count == 0

/-- `write_delim` (lib.rs:1454); two delimiter bits at once hit the
`unreachable!` arm. -/
def write_delim (f : LF) : EmitM Unit :=
  let d := f &&& lfDelimitersMask
  if d == lfNone then pure ()
  else if d == lfCommaDelimited then write_punct ","
  else if d == lfBarDelimited then do
    write_space
    write_punct "|"
  else if d == lfAmpersandDelimited then do
    write_space
    write_punct "&"
  else throwPanic

/-- The `has_trailing_comma` computation of `emit_list5` (lib.rs:990):
`format.contains(AllowTrailingComma)` and-ed with the hardcoded `false`
standing for the unrecorded `children.hasTrailingComma` bit. -/
def list5_has_trailing_comma (f : LF) : Bool :=
  lfContains f lfAllowTrailingComma && false

/-- The trailing-comma write of `emit_list5` (lib.rs:994). -/
def emit_trailing_comma_step (f : LF) : EmitM Unit :=
  if lfContains f lfCommaDelimited && list5_has_trailing_comma f then write_punct ","
  else pure ()

/-- The delimiter-and-separator step of `emit_list5`'s child loop
(lib.rs:932-969), run when the child has a previous sibling: comments
at the sibling's end, the delimiter, then either a separating line
terminator (possibly after `increase_indent`, flagged in the first
component for `should_decrease_indent_after_emit`) or a sibling space.
The second component is the updated
`should_emit_intervening_comments`. -/
def list5_sep_step (ctx : Ctx) (childSp : Span) (parent_node : Span) (format : LF)
    (prev : Option Span) (sEIC : Bool) : EmitM (Bool × Bool) :=
  match prev with
  | none => pure (false, sEIC)
  | some p => do
    (if lfContains format lfDelimitersMask && p.hi != parent_node.hi then
      emit_leading_comments_of_pos ctx p.hi
    else pure ())
    write_delim format
    if ctx.shouldSepLT (some p) (some childSp) format then do
      let d ← (if (format &&& (lfLinesMask ||| lfIndented)) == lfSingleLine then do
          increase_indent
          pure true
        else pure false)
      write_line
      pure (d, false)
    else do
      (if lfContains format lfSpaceBetweenSiblings then write_space else pure ())
      pure (false, sEIC)

/-- The child loop of `emit_list5` (lib.rs:929-987).  `i` is the loop
index, the second argument the remaining iteration count, then the
`previous_sibling` and `should_emit_intervening_comments` state; the
final `previous_sibling` is returned for the post-loop code. -/
def list5_loop (ctx : Ctx) (emitChild : α → EmitM Unit) (childSpan : α → Span)
    (parent_node : Span) (format : LF) (cs : List α) (start : Nat) (mayEIC : Bool) :
    Nat → Nat → Option Span → Bool → EmitM (Option Span)
  | _, 0, prev, _ => pure prev
  | i, rem+1, prev, sEIC => do
    match cs.get? (start + i) with
    | none => throwPanic
    | some child => do
      let st ← list5_sep_step ctx (childSpan child) parent_node format prev sEIC
      let sEIC2 ← (if st.2 then do
          emit_trailing_comments_of_pos ctx (childSpan child).hi false
          pure st.2
        else pure mayEIC)
      emitChild child
      (if st.1 then decrease_indent else pure ())
      list5_loop ctx emitChild childSpan parent_node format cs start mayEIC
        (i+1) rem (some (childSpan child)) sEIC2

/-- `emit_list5` (lib.rs:856-1054), parametric in the child emitter and
the children's `span()`. -/
def emit_list5 (ctx : Ctx) (emitChild : α → EmitM Unit) (childSpan : α → Span)
    (parent_node : Span) (children : Option (List α)) (format : LF)
    (start count : Nat) : EmitM Unit :=
  if children.isNone && lfContains format lfOptionalIfUndefined then pure ()
  else
    let is_empty := list_is_empty children start count
    if is_empty && lfContains format lfOptionalIfEmpty then pure ()
    else do
      (if lfContains format lfBracketsMask then do
        write_punct (lfOpeningBracket format)
        (if is_empty then emit_trailing_comments_of_pos ctx parent_node.lo true
        else pure ())
      else pure ())
      (if is_empty then
        (if lfContains format lfMultiLine then write_line
        else if lfContains format lfSpaceBetweenBraces
            && !(lfContains format lfNoSpaceIfEmpty) then
          write_space
        else pure ())
      else do
        let cs := children.getD []
        let mayEIC := !(lfIntersects format lfNoInterveningComments)
        let sEIC ← (if ctx.shouldLeadingLT parent_node (cs.map childSpan) format then do
            write_line
            pure false
          else do
            (if lfContains format lfSpaceBetweenBraces then write_space else pure ())
            pure mayEIC)
        (if lfContains format lfIndented then increase_indent else pure ())
        let prev ← list5_loop ctx emitChild childSpan parent_node format cs start mayEIC
          0 count none sEIC
        emit_trailing_comma_step format
        (match prev with
          | some p =>
            if lfContains format lfDelimitersMask && p.hi != parent_node.hi then
              emit_leading_comments_of_pos ctx p.hi
            else pure ()
          | none => pure ())
        (if lfContains format lfIndented then decrease_indent else pure ())
        (if ctx.shouldClosingLT parent_node (cs.map childSpan) format then write_line
        else if lfContains format lfSpaceBetweenBraces then write_space
        else pure ()))
      (if lfContains format lfBracketsMask then do
        (if is_empty then emit_leading_comments_of_pos ctx parent_node.hi
        else pure ())
        write_punct (lfClosingBracket format)
      else pure ())

/-- `emit_list` (lib.rs:841): `emit_list5` over the whole child list. -/
def emit_list (ctx : Ctx) (emitChild : α → EmitM Unit) (childSpan : α → Span)
    (parent_node : Span) (children : Option (List α)) (format : LF) : EmitM Unit :=
  emit_list5 ctx emitChild childSpan parent_node children format 0
    ((children.map List.length).getD 0)

/-!  ## Per-routine emitters

One definition per emitter routine of `lib.rs`.  `recur` is the
recursive dispatcher (`Node::emit_with`), tied at `emitN` below with an
explicit fuel. -/

/-- The argument of one emitter routine; one constructor per routine of
`lib.rs` (plus the `decl.rs` routines modelled from the spec). -/
inductive ENode where
  | module (m : Module)
  | moduleItem (n : ModuleItem)
  | moduleDecl (n : ModuleDecl)
  | exportDefaultDecl (n : ExportDefaultDecl)
  | importDecl (n : ImportDecl)
  | importSpecific (n : ImportSpecific)
  | exportSpecifierN (n : ExportSpecifier)
  | namedExport (n : NamedExport)
  | exportAllD (n : ExportAll)
  | lit (l : Lit)
  | strLit (s : Str)
  | numLit (n : Number)
  | exprOrSuper (n : ExprOrSuper)
  | expr (e : Expr)
  | callExpr (span : Span) (callee : ExprOrSuper) (args : List ExprOrSpread)
  | newExpr (span : Span) (callee : Expr) (args : Option (List ExprOrSpread))
  | memberExpr (span : Span) (obj : ExprOrSuper) (prop : Expr) (computed : Bool)
  | arrowExpr (span : Span) (params : List Pat) (body : BlockStmtOrExpr)
      (asyncTok genTok : Option Span)
  | metaPropExpr (span : Span) (meta prop : Ident)
  | seqExpr (span : Span) (exprs : List Expr)
  | assignExpr (span : Span) (left : PatOrExpr) (op : String) (right : Expr)
  | binExpr (span : Span) (op : String) (left right : Expr)
  | classExpr (ident : Option Ident) (k : ClassDef)
  | classTrailing (k : ClassDef)
  | classMethod (m : ClassMethod)
  | propName (n : PropName)
  | condExpr (span : Span) (test cons alt : Expr)
  | fnExpr (ident : Option Ident) (fn : FunctionDef)
  | fnTrailing (fn : FunctionDef)
  | blockStmtOrExpr (n : BlockStmtOrExpr)
  | thisExpr (span : Span)
  | tplLit (span : Span) (tag : Option Expr) (exprs : List Expr)
      (quasis : List TplElement)
  | quasi (n : TplElement)
  | unaryExpr (span : Span) (op : UnaryOp) (arg : Expr)
  | updateExpr (span : Span) (op : UpdateOp) (pfx : Bool) (arg : Expr)
  | yieldExpr (span : Span) (arg : Option Expr) (delegate : Bool)
  | exprOrSpread (n : ExprOrSpread)
  | awaitExpr (span : Span) (arg : Expr)
  | arrayLit (span : Span) (elems : List (Option ExprOrSpread))
  | objectLit (span : Span) (props : List PropOrSpread)
  | propJs (p : PropJs)
  | kvProp (key : PropName) (value : Expr)
  | assignProp (key : Ident) (value : Expr)
  | getterProp (span : Span) (key : PropName) (body : BlockStmt)
  | setterProp (span : Span) (key : PropName) (param : Pat) (body : BlockStmt)
  | methodProp (key : PropName) (fn : FunctionDef)
  | parenExpr (span : Span) (e : Expr)
  | ident (i : Ident)
  | pat (p : Pat)
  | restPat (span : Span) (arg : Pat)
  | propOrSpread (n : PropOrSpread)
  | spreadElement (span : Span) (e : Expr)
  | patOrExpr (n : PatOrExpr)
  | arrayPat (span : Span) (elems : List (Option Pat))
  | assignPat (span : Span) (left : Pat) (right : Expr)
  | objectPat (span : Span) (props : List ObjectPatProp)
  | objectPatProp (n : ObjectPatProp)
  | objectKvPat (key : PropName) (value : Pat)
  | objectAssignPat (key : Ident) (value : Option Expr)
  | varDeclOrPat (n : VarDeclOrPat)
  | stmt (s : Stmt)
  | blockStmt (b : BlockStmt)
  | emptyStmt (span : Span)
  | debuggerStmt (span : Span)
  | withStmt (span : Span) (obj : Expr) (body : Stmt)
  | returnStmt (span : Span) (arg : Option Expr)
  | labeledStmt (span : Span) (label : Ident) (body : Stmt)
  | breakStmt (span : Span) (label : Option Ident)
  | continueStmt (span : Span) (label : Option Ident)
  | ifStmt (span : Span) (test : Expr) (cons : Stmt) (alt : Option Stmt)
  | switchStmt (span : Span) (disc : Expr) (cases : List SwitchCase)
  | catchClause (c : CatchClause)
  | switchCase (c : SwitchCase)
  | throwStmt (span : Span) (arg : Expr)
  | tryStmt (span : Span) (blk : BlockStmt) (handler : Option CatchClause)
      (finalizer : Option BlockStmt)
  | whileStmt (span : Span) (test : Expr) (body : Stmt)
  | doWhileStmt (span : Span) (body : Stmt) (test : Expr)
  | forStmt (span : Span) (init : Option VarDeclOrExpr) (test upd : Option Expr)
      (body : Stmt)
  | forInStmt (span : Span) (left : VarDeclOrPat) (right : Expr) (body : Stmt)
  | forOfStmt (span : Span) (left : VarDeclOrPat) (right : Expr) (body : Stmt)
  | varDeclOrExpr (n : VarDeclOrExpr)
  | decl (d : Decl)
  | classDecl (ident : Ident) (k : ClassDef)
  | fnDecl (ident : Ident) (fn : FunctionDef)
  | varDecl (v : VarDecl)
  | varDeclarator (v : VarDeclarator)

/-- Emit every element of a list in order. -/
def emitEach (f : α → EmitM Unit) : List α → EmitM Unit
  | [] => pure ()
  | x :: r => do
    f x
    emitEach f r

/-- Modelled from the spec: `opt!` — emit an optional node
(`Node for Option`, lib.rs:1565). -/
def optEmit (f : α → EmitM Unit) : Option α → EmitM Unit
  | none => pure ()
  | some x => f x

/-- Modelled from the spec: `opt_leading_space!` — a hard space then
the node, when present. -/
def optLeadingSpace (f : α → EmitM Unit) : Option α → EmitM Unit
  | none => pure ()
  | some x => do
    spaceM
    f x

/-- `emit_module` (lib.rs:89). -/
def emit_module (recur : ENode → EmitM Unit) (m : Module) : EmitM Unit :=
  emitEach (fun it => recur (.moduleItem it)) m.body

/-- `emit_module_item` (lib.rs:96). -/
def emit_module_item (recur : ENode → EmitM Unit) : ModuleItem → EmitM Unit
  | .stmt s => recur (.stmt s)
  | .moduleDecl d => recur (.moduleDecl d)

/-- `emit_module_decl` (lib.rs:104). -/
def emit_module_decl (recur : ENode → EmitM Unit) : ModuleDecl → EmitM Unit
  | .importD d => recur (.importDecl d)
  | .exportDecl d => do
    keywordM "export"
    spaceM
    recur (.decl d)
    semiM
  | .exportNamed d => recur (.namedExport d)
  | .exportDefaultDecl d => recur (.exportDefaultDecl d)
  | .exportDefaultExpr e => do
    keywordM "export"
    spaceM
    keywordM "default"
    spaceM
    recur (.expr e)
    semiM
  | .exportAll d => recur (.exportAllD d)

/-- `emit_export_default_decl` (lib.rs:128). -/
def emit_export_default_decl (recur : ENode → EmitM Unit) (n : ExportDefaultDecl) :
    EmitM Unit := do
  keywordM "export"
  spaceM
  keywordM "default"
  spaceM
  (match n with
    | .cls i k => recur (.classExpr i k)
    | .fnD i fn => recur (.fnExpr i fn)
    | .var v => recur (.varDecl v))
  semiM

/-- The specifier loop of `emit_import` (lib.rs:146-166): named
specifiers are collected, default and namespace specifiers are emitted
inline; the namespace arm asserts `node.specifiers.len() <= 2`. -/
def import_spec_loop (recur : ENode → EmitM Unit) (total : Nat) :
    List ImportSpecifier → EmitM (List ImportSpecific)
  | [] => pure []
  | sp :: rest => do
    let here ← (match sp with
      | .specific s => pure [s]
      | .defaultS lcl => do
        recur (.ident lcl)
        spaceM
        pure ([] : List ImportSpecific)
      | .nsSpec _ lcl => do
        (if total ≤ 2 then pure () else throwPanic)
        punctM "*"
        spaceM
        keywordM "as"
        spaceM
        recur (.ident lcl)
        spaceM
        pure ([] : List ImportSpecific))
    let r ← import_spec_loop recur total rest
    pure (here ++ r)

/-- `emit_import` (lib.rs:142). -/
def emit_import (ctx : Ctx) (recur : ENode → EmitM Unit) (d : ImportDecl) :
    EmitM Unit := do
  keywordM "import"
  spaceM
  let specifiers ← import_spec_loop recur d.specifiers.length d.specifiers
  (if !specifiers.isEmpty then do
    punctM "\x7b"
    emit_list ctx (fun s => recur (.importSpecific s)) ImportSpecific.span d.span
      (some specifiers) lfNamedImportsOrExportsElements
    punctM "\x7d"
  else pure ())
  keywordM "from"
  spaceM
  recur (.strLit d.src)
  semiM

/-- `emit_import_specific` (lib.rs:185). -/
def emit_import_specific (recur : ENode → EmitM Unit) (s : ImportSpecific) :
    EmitM Unit := do
  (match s.imported with
    | some im => do
      recur (.ident im)
      spaceM
      keywordM "as"
      spaceM
    | none => pure ())
  recur (.ident s.lcl)

/-- `emit_export_specifier` (lib.rs:197). -/
def emit_export_specifier (recur : ENode → EmitM Unit) (n : ExportSpecifier) :
    EmitM Unit :=
  match n.exported with
  | some ex => do
    recur (.ident n.orig)
    spaceM
    keywordM "as"
    spaceM
    recur (.ident ex)
  | none => recur (.ident n.orig)

/-- `emit_named_export` (lib.rs:210). -/
def emit_named_export (ctx : Ctx) (recur : ENode → EmitM Unit) (n : NamedExport) :
    EmitM Unit := do
  keywordM "export"
  formattingSpaceM ctx
  punctM "\x7b"
  emit_list ctx (fun s => recur (.exportSpecifierN s)) ExportSpecifier.span n.span
    (some n.specifiers) lfNamedImportsOrExportsElements
  punctM "\x7d"
  (match n.src with
    | some src => do
      spaceM
      keywordM "from"
      recur (.strLit src)
      semiM
    | none => pure ())

/-- `emit_export_all` (lib.rs:230). -/
def emit_export_all (ctx : Ctx) (recur : ENode → EmitM Unit) (n : ExportAll) :
    EmitM Unit := do
  keywordM "export"
  spaceM
  punctM "*"
  formattingSpaceM ctx
  keywordM "from"
  spaceM
  recur (.strLit n.src)
  semiM

/-- `emit_js_word` (lib.rs:265). -/
def emit_js_word (sp : Span) (v : String) : EmitM Unit := write_str_lit sp v

/-- `emit_lit` (lib.rs:242). -/
def emit_lit (recur : ENode → EmitM Unit) : Lit → EmitM Unit
  | .boolL sp v => if v then keywordSpM sp "true" else keywordSpM sp "false"
  | .nullL sp => keywordSpM sp "null"
  | .strL s => recur (.strLit s)
  | .numL n => recur (.numLit n)
  | .regex r => do
    punctM "/"
    emit_js_word r.expSpan r.expValue
    punctM "/"
    (match r.flags with
      | some fl => emit_js_word fl.1 fl.2
      | none => pure ())

/-- `emit_str_lit` (lib.rs:272): the original text when available,
otherwise the value in single quotes. -/
def emit_str_lit (ctx : Ctx) (node : Str) : EmitM Unit :=
  match get_text_of_node ctx node.span with
  | some s => write_str_lit node.span s
  | none => do
    punctM "\x27"
    write_str_lit node.span node.value
    punctM "\x27"

/-- `emit_num_lit` (lib.rs:284): the original text when available,
otherwise `-Infinity`/`Infinity` or the `format!` text of the value. -/
def emit_num_lit (ctx : Ctx) (num : Number) : EmitM Unit :=
  match get_text_of_node ctx num.span with
  | some s => write_str_lit num.span s
  | none =>
    if num.value.isInfinite then do
      (if num.value.isNegative then write_str_lit num.span "-" else pure ())
      write_str_lit num.span "Infinity"
    else write_str_lit num.span num.value.repr

/-- `emit_expr_or_super` (lib.rs:330). -/
def emit_expr_or_super (recur : ENode → EmitM Unit) : ExprOrSuper → EmitM Unit
  | .expr e => recur (.expr e)
  | .superE _ => keywordM "super"

/-- `emit_expr` (lib.rs:338): dispatch on the expression variant. -/
def emit_expr (recur : ENode → EmitM Unit) : Expr → EmitM Unit
  | .array sp elems => recur (.arrayLit sp elems)
  | .arrow sp ps b a g => recur (.arrowExpr sp ps b a g)
  | .assign sp l op r => recur (.assignExpr sp l op r)
  | .await sp a => recur (.awaitExpr sp a)
  | .bin sp op l r => recur (.binExpr sp op l r)
  | .call sp c args => recur (.callExpr sp c args)
  | .cls i k => recur (.classExpr i k)
  | .cond sp t c a => recur (.condExpr sp t c a)
  | .fnE i fn => recur (.fnExpr i fn)
  | .ident i => recur (.ident i)
  | .lit l => recur (.lit l)
  | .member sp o p c => recur (.memberExpr sp o p c)
  | .metaProp sp m p => recur (.metaPropExpr sp m p)
  | .newE sp c args => recur (.newExpr sp c args)
  | .object sp props => recur (.objectLit sp props)
  | .paren sp e => recur (.parenExpr sp e)
  | .seq sp es => recur (.seqExpr sp es)
  | .this sp => recur (.thisExpr sp)
  | .tpl sp tag es qs => recur (.tplLit sp tag es qs)
  | .unary sp op a => recur (.unaryExpr sp op a)
  | .update sp op pfx a => recur (.updateExpr sp op pfx a)
  | .yieldE sp a d => recur (.yieldExpr sp a d)

/-- `emit_expr_or_spreads` (lib.rs:673). -/
def emit_expr_or_spreads (ctx : Ctx) (recur : ENode → EmitM Unit) (parent : Span)
    (nodes : List ExprOrSpread) (format : LF) : EmitM Unit :=
  emit_list ctx (fun n => recur (.exprOrSpread n)) ExprOrSpread.span parent
    (some nodes) format

/-- `emit_call_expr` (lib.rs:366). -/
def emit_call_expr (ctx : Ctx) (recur : ENode → EmitM Unit) (sp : Span)
    (callee : ExprOrSuper) (args : List ExprOrSpread) : EmitM Unit := do
  recur (.exprOrSuper callee)
  punctM "("
  emit_expr_or_spreads ctx recur sp args lfCallExpressionArguments
  punctM ")"

/-- `emit_new_expr` (lib.rs:374). -/
def emit_new_expr (ctx : Ctx) (recur : ENode → EmitM Unit) (sp : Span)
    (callee : Expr) (args : Option (List ExprOrSpread)) : EmitM Unit := do
  keywordM "new"
  spaceM
  recur (.expr callee)
  (match args with
    | some args => do
      punctM "("
      emit_expr_or_spreads ctx recur sp args lfNewExpressionArguments
      punctM ")"
    | none => pure ())

/-- `emit_member_expr` (lib.rs:388). -/
def emit_member_expr (ctx : Ctx) (recur : ENode → EmitM Unit) (sp : Span)
    (obj : ExprOrSuper) (prop : Expr) (computed : Bool) : EmitM Unit := do
  recur (.exprOrSuper obj)
  if computed then do
    punctM "["
    recur (.expr prop)
    punctM "]"
  else do
    (if needs_2dots_for_property_access ctx obj then punctM "." else pure ())
    punctM "."
    recur (.expr prop)

/-- `emit_arrow_expr` (lib.rs:418). -/
def emit_arrow_expr (ctx : Ctx) (recur : ENode → EmitM Unit) (sp : Span)
    (params : List Pat) (body : BlockStmtOrExpr) (asyncTok genTok : Option Span) :
    EmitM Unit := do
  (if asyncTok.isSome then do
    keywordM "async"
    formattingSpaceM ctx
  else pure ())
  (if genTok.isSome then punctM "*" else pure ())
  punctM "("
  emit_list ctx (fun p => recur (.pat p)) Pat.span sp (some params) lfCommaListElements
  punctM ")"
  punctM "=>"
  recur (.blockStmtOrExpr body)

/-- `emit_meta_prop_expr` (lib.rs:435). -/
def emit_meta_prop_expr (recur : ENode → EmitM Unit) (sp : Span) (meta prop : Ident) :
    EmitM Unit := do
  recur (.ident meta)
  punctM "."
  recur (.ident prop)

/-- The loop of `emit_seq_expr` with its `first` flag. -/
def seq_expr_loop (ctx : Ctx) (recur : ENode → EmitM Unit) :
    Bool → List Expr → EmitM Unit
  | _, [] => pure ()
  | first, e :: rest => do
    (if first then pure () else punctM ",")
    formattingSpaceM ctx
    recur (.expr e)
    seq_expr_loop ctx recur false rest

/-- `emit_seq_expr` (lib.rs:442). -/
def emit_seq_expr (ctx : Ctx) (recur : ENode → EmitM Unit) (sp : Span)
    (exprs : List Expr) : EmitM Unit :=
  seq_expr_loop ctx recur true exprs

/-- `emit_assign_expr` (lib.rs:458). -/
def emit_assign_expr (ctx : Ctx) (recur : ENode → EmitM Unit) (sp : Span)
    (left : PatOrExpr) (op : String) (right : Expr) : EmitM Unit := do
  recur (.patOrExpr left)
  formattingSpaceM ctx
  operatorM op
  formattingSpaceM ctx
  recur (.expr right)

/-- `emit_bin_expr` (lib.rs:467). -/
def emit_bin_expr (ctx : Ctx) (recur : ENode → EmitM Unit) (sp : Span)
    (op : String) (left right : Expr) : EmitM Unit := do
  recur (.expr left)
  formattingSpaceM ctx
  operatorM op
  formattingSpaceM ctx
  recur (.expr right)

/-- `emit_class_expr` (lib.rs:479). -/
def emit_class_expr (recur : ENode → EmitM Unit) (ident : Option Ident)
    (k : ClassDef) : EmitM Unit := do
  keywordM "class"
  optLeadingSpace (fun i => recur (.ident i)) ident
  recur (.classTrailing k)

/-- `emit_class_trailing` (lib.rs:488). -/
def emit_class_trailing (ctx : Ctx) (recur : ENode → EmitM Unit) (k : ClassDef) :
    EmitM Unit := do
  (match k.superClass with
    | some sc => do
      spaceM
      keywordM "extends"
      spaceM
      recur (.expr sc)
    | none => pure ())
  punctM "\x7b"
  emit_list ctx (fun m => recur (.classMethod m)) ClassMethod.span k.span
    (some k.body) lfClassMembers
  punctM "\x7d"

/-- `emit_class_method` (lib.rs:502). -/
def emit_class_method (recur : ENode → EmitM Unit) (m : ClassMethod) :
    EmitM Unit := do
  (if m.staticTok.isSome then do
    keywordM "static"
    spaceM
  else pure ())
  (match m.kind with
    | .constructorK => keywordM "constructor"
    | .methodK => do
      (if m.fn.asyncTok.isSome then keywordM "async" else pure ())
      spaceM
      (if m.fn.genTok.isSome then punctM "*" else pure ())
      recur (.propName m.key)
    | .getterK => do
      keywordM "get"
      spaceM
      recur (.propName m.key)
    | .setterK => do
      keywordM "set"
      spaceM
      recur (.propName m.key))
  recur (.fnTrailing m.fn)

/-- `emit_prop_name` (lib.rs:540). -/
def emit_prop_name (recur : ENode → EmitM Unit) : PropName → EmitM Unit
  | .ident i => recur (.ident i)
  | .str s => recur (.strLit s)
  | .num n => recur (.numLit n)
  | .computed e => recur (.expr e)

/-- `emit_cond_expr` (lib.rs:550). -/
def emit_cond_expr (ctx : Ctx) (recur : ENode → EmitM Unit) (sp : Span)
    (test cons alt : Expr) : EmitM Unit := do
  recur (.expr test)
  formattingSpaceM ctx
  punctM "?"
  formattingSpaceM ctx
  recur (.expr cons)
  formattingSpaceM ctx
  punctM ":"
  formattingSpaceM ctx
  recur (.expr alt)

/-- `emit_fn_expr` (lib.rs:565). -/
def emit_fn_expr (recur : ENode → EmitM Unit) (ident : Option Ident)
    (fn : FunctionDef) : EmitM Unit := do
  (if fn.asyncTok.isSome then keywordM "async" else pure ())
  keywordM "function"
  (if fn.genTok.isSome then punctM "*" else pure ())
  optLeadingSpace (fun i => recur (.ident i)) ident
  recur (.fnTrailing fn)

/-- `emit_fn_trailing` (lib.rs:581). -/
def emit_fn_trailing (ctx : Ctx) (recur : ENode → EmitM Unit) (fn : FunctionDef) :
    EmitM Unit := do
  punctM "("
  emit_list ctx (fun p => recur (.pat p)) Pat.span fn.span (some fn.params)
    lfCommaListElements
  punctM ")"
  formattingSpaceM ctx
  recur (.blockStmt fn.body)

/-- `emit_block_stmt_or_expr` (lib.rs:591): an expression body is
emitted between `increase_indent` and `decrease_indent`. -/
def emit_block_stmt_or_expr (recur : ENode → EmitM Unit) : BlockStmtOrExpr → EmitM Unit
  | .block b => recur (.blockStmt b)
  | .expr e => do
    increase_indent
    recur (.expr e)
    decrease_indent

/-- `emit_this_expr` (lib.rs:603). -/
def emit_this_expr (sp : Span) : EmitM Unit := keywordM "this"

/-- The index loop of `emit_tpl_lit` (lib.rs:618): even indices emit
`quasis[i / 2]`, odd indices emit `$` `{` `exprs[i / 2]` `}`;
out-of-range indexing is a panic. -/
def tpl_loop (recur : ENode → EmitM Unit) (quasis : List TplElement)
    (exprs : List Expr) : Nat → Nat → EmitM Unit
  | _, 0 => pure ()
  | i, rem+1 => do
    (if i % 2 == 0 then
      match quasis.get? (i / 2) with
      | some q => recur (.quasi q)
      | none => throwPanic
    else do
      punctM "$"
      punctM "\x7b"
      (match exprs.get? (i / 2) with
        | some e => recur (.expr e)
        | none => throwPanic)
      punctM "\x7d")
    tpl_loop recur quasis exprs (i+1) rem

/-- `emit_tpl_lit` (lib.rs:608): the `debug_assert!` on the
quasi/expression counts, the optional tag, the backticks, a stray
`println!` to stdout, and the interleaving loop. -/
def emit_tpl_lit (recur : ENode → EmitM Unit) (sp : Span) (tag : Option Expr)
    (exprs : List Expr) (quasis : List TplElement) : EmitM Unit := do
  (if quasis.length == exprs.length + 1 then pure () else throwPanic)
  (match tag with
    | some t => recur (.expr t)
    | none => pure ())
  punctM "`"
  printStdout (Nat.repr (exprs.length + quasis.length))
  tpl_loop recur quasis exprs 0 (quasis.length + exprs.length)
  punctM "`"

/-- `emit_quasi` (lib.rs:633). -/
def emit_quasi (node : TplElement) : EmitM Unit := write_str_lit node.span node.raw

/-- `emit_unary_expr` (lib.rs:639): the operator keyword, a hard space
exactly when `should_emit_whitespace_before_operand` fires, then the
operand. -/
def emit_unary_expr (recur : ENode → EmitM Unit) (sp : Span) (op : UnaryOp)
    (arg : Expr) : EmitM Unit := do
  keywordM op.as_str
  (if should_emit_whitespace_before_operand op arg then spaceM else pure ())
  recur (.expr arg)

/-- `emit_update_expr` (lib.rs:653). -/
def emit_update_expr (recur : ENode → EmitM Unit) (sp : Span) (op : UpdateOp)
    (pfx : Bool) (arg : Expr) : EmitM Unit :=
  if pfx then do
    operatorM op.as_str
    recur (.expr arg)
  else do
    recur (.expr arg)
    operatorM op.as_str

/-- `emit_yield_expr` (lib.rs:665). -/
def emit_yield_expr (recur : ENode → EmitM Unit) (sp : Span) (arg : Option Expr)
    (delegate : Bool) : EmitM Unit := do
  keywordM "yield"
  (if delegate then operatorM "*" else pure ())
  optLeadingSpace (fun e => recur (.expr e)) arg

/-- `emit_expr_or_spread` (lib.rs:683). -/
def emit_expr_or_spread (recur : ENode → EmitM Unit) : ExprOrSpread → EmitM Unit
  | .mk spread e => do
    (if spread.isSome then punctM "..." else pure ())
    recur (.expr e)

/-- `emit_await_expr` (lib.rs:692). -/
def emit_await_expr (recur : ENode → EmitM Unit) (sp : Span) (arg : Expr) :
    EmitM Unit := do
  keywordM "await"
  spaceM
  recur (.expr arg)

/-- `emit_array_lit` (lib.rs:702). -/
def emit_array_lit (ctx : Ctx) (recur : ENode → EmitM Unit) (sp : Span)
    (elems : List (Option ExprOrSpread)) : EmitM Unit := do
  punctM "["
  emit_list ctx (fun c => optEmit (fun x => recur (.exprOrSpread x)) c)
    (optSpan ExprOrSpread.span) sp (some elems) lfArrayLiteralExpressionElements
  punctM "]"

/-- `emit_object_lit` (lib.rs:713): brace, line, indent, the property
list, line, unindent, brace. -/
def emit_object_lit (ctx : Ctx) (recur : ENode → EmitM Unit) (sp : Span)
    (props : List PropOrSpread) : EmitM Unit := do
  punctM "\x7b"
  write_line
  increase_indent
  emit_list ctx (fun p => recur (.propOrSpread p)) PropOrSpread.span sp (some props)
    lfObjectLiteralExpressionProperties
  write_line
  decrease_indent
  punctM "\x7d"

/-- `emit_prop` (lib.rs:737). -/
def emit_prop (recur : ENode → EmitM Unit) : PropJs → EmitM Unit
  | .shorthand i => recur (.ident i)
  | .keyValue k v => recur (.kvProp k v)
  | .assign k v => recur (.assignProp k v)
  | .getter sp k b => recur (.getterProp sp k b)
  | .setter sp k p b => recur (.setterProp sp k p b)
  | .methodP k fn => recur (.methodProp k fn)

/-- `emit_kv_prop` (lib.rs:749). -/
def emit_kv_prop (ctx : Ctx) (recur : ENode → EmitM Unit) (key : PropName)
    (value : Expr) : EmitM Unit := do
  recur (.propName key)
  punctM ":"
  formattingSpaceM ctx
  recur (.expr value)

/-- `emit_assign_prop` (lib.rs:757). -/
def emit_assign_prop (recur : ENode → EmitM Unit) (key : Ident) (value : Expr) :
    EmitM Unit := do
  recur (.ident key)
  punctM "="
  recur (.expr value)

/-- `emit_getter_prop` (lib.rs:764). -/
def emit_getter_prop (ctx : Ctx) (recur : ENode → EmitM Unit) (sp : Span)
    (key : PropName) (body : BlockStmt) : EmitM Unit := do
  keywordM "get"
  spaceM
  recur (.propName key)
  spaceM
  punctM "("
  punctM ")"
  formattingSpaceM ctx
  recur (.blockStmt body)

/-- `emit_setter_prop` (lib.rs:776). -/
def emit_setter_prop (recur : ENode → EmitM Unit) (sp : Span) (key : PropName)
    (param : Pat) (body : BlockStmt) : EmitM Unit := do
  keywordM "set"
  spaceM
  recur (.propName key)
  spaceM
  punctM "("
  recur (.pat param)
  punctM ")"
  recur (.blockStmt body)

/-- `emit_method_prop` (lib.rs:790). -/
def emit_method_prop (recur : ENode → EmitM Unit) (key : PropName)
    (fn : FunctionDef) : EmitM Unit := do
  (if fn.genTok.isSome then punctM "*" else pure ())
  recur (.propName key)
  spaceM
  recur (.fnTrailing fn)

/-- `emit_paren_expr` (lib.rs:802). -/
def emit_paren_expr (recur : ENode → EmitM Unit) (sp : Span) (e : Expr) :
    EmitM Unit := do
  punctM "("
  recur (.expr e)
  punctM ")"

/-- `emit_ident` (lib.rs:809): leading comments, then the original text
when available, otherwise the symbol. -/
def emit_ident (ctx : Ctx) (i : Ident) : EmitM Unit := do
  emit_leading_comments_of_pos ctx i.span.lo
  match get_text_of_node ctx i.span with
  | some s => write_symbol i.span s
  | none => write_symbol i.span i.sym

/-- `emit_pat` (lib.rs:1060). -/
def emit_pat (recur : ENode → EmitM Unit) : Pat → EmitM Unit
  | .array sp elems => recur (.arrayPat sp elems)
  | .assign sp l r => recur (.assignPat sp l r)
  | .expr e => recur (.expr e)
  | .ident i => recur (.ident i)
  | .object sp props => recur (.objectPat sp props)
  | .rest sp a => recur (.restPat sp a)

/-- `emit_rest_pat` (lib.rs:1072). -/
def emit_rest_pat (recur : ENode → EmitM Unit) (sp : Span) (arg : Pat) :
    EmitM Unit := do
  punctM "..."
  recur (.pat arg)

/-- `emit_prop_or_spread` (lib.rs:1078). -/
def emit_prop_or_spread (recur : ENode → EmitM Unit) : PropOrSpread → EmitM Unit
  | .prop p => recur (.propJs p)
  | .spread sp e => recur (.spreadElement sp e)

/-- `emit_spread_element` (lib.rs:1086). -/
def emit_spread_element (recur : ENode → EmitM Unit) (sp : Span) (e : Expr) :
    EmitM Unit := do
  punctM "..."
  recur (.expr e)

/-- `emit_pat_or_expr` (lib.rs:1092). -/
def emit_pat_or_expr (recur : ENode → EmitM Unit) : PatOrExpr → EmitM Unit
  | .expr e => recur (.expr e)
  | .pat p => recur (.pat p)

/-- `emit_array_pat` (lib.rs:1100). -/
def emit_array_pat (ctx : Ctx) (recur : ENode → EmitM Unit) (sp : Span)
    (elems : List (Option Pat)) : EmitM Unit := do
  punctM "["
  emit_list ctx (fun c => optEmit (fun p => recur (.pat p)) c) (optSpan Pat.span)
    sp (some elems) lfArrayBindingPatternElements
  punctM "]"

/-- `emit_assign_pat` (lib.rs:1111). -/
def emit_assign_pat (ctx : Ctx) (recur : ENode → EmitM Unit) (sp : Span)
    (left : Pat) (right : Expr) : EmitM Unit := do
  recur (.pat left)
  formattingSpaceM ctx
  punctM "="
  formattingSpaceM ctx
  recur (.expr right)

/-- `emit_object_pat` (lib.rs:1120). -/
def emit_object_pat (ctx : Ctx) (recur : ENode → EmitM Unit) (sp : Span)
    (props : List ObjectPatProp) : EmitM Unit := do
  punctM "\x7b"
  emit_list ctx (fun p => recur (.objectPatProp p)) ObjectPatProp.span sp
    (some props) lfObjectBindingPatternElements
  punctM "\x7d"

/-- `emit_object_pat_prop` (lib.rs:1131). -/
def emit_object_pat_prop (recur : ENode → EmitM Unit) : ObjectPatProp → EmitM Unit
  | .keyValue k v => recur (.objectKvPat k v)
  | .assign k v => recur (.objectAssignPat k v)
  | .rest sp a => recur (.restPat sp a)

/-- `emit_object_kv_pat` (lib.rs:1140). -/
def emit_object_kv_pat (ctx : Ctx) (recur : ENode → EmitM Unit) (key : PropName)
    (value : Pat) : EmitM Unit := do
  recur (.propName key)
  punctM ":"
  formattingSpaceM ctx
  recur (.pat value)
  spaceM

/-- `emit_object_assign_pat` (lib.rs:1149). -/
def emit_object_assign_pat (recur : ENode → EmitM Unit) (key : Ident)
    (value : Option Expr) : EmitM Unit := do
  recur (.ident key)
  spaceM
  (match value with
    | some v => do
      punctM "="
      recur (.expr v)
      spaceM
    | none => pure ())

/-- `emit_var_decl_or_pat` (lib.rs:1160). -/
def emit_var_decl_or_pat (recur : ENode → EmitM Unit) : VarDeclOrPat → EmitM Unit
  | .pat p => recur (.pat p)
  | .varDecl v => recur (.varDecl v)

/-- The per-variant dispatch of `emit_stmt` (lib.rs:1179), without the
trailing `write_line`. -/
def emit_stmt_kind (recur : ENode → EmitM Unit) : Stmt → EmitM Unit
  | .exprS e => do
    recur (.expr e)
    semiM
  | .block b => recur (.blockStmt b)
  | .empty sp => recur (.emptyStmt sp)
  | .debugger sp => recur (.debuggerStmt sp)
  | .withS sp o b => recur (.withStmt sp o b)
  | .ret sp a => recur (.returnStmt sp a)
  | .labeled sp l b => recur (.labeledStmt sp l b)
  | .brk sp l => recur (.breakStmt sp l)
  | .cont sp l => recur (.continueStmt sp l)
  | .ifS sp t c a => recur (.ifStmt sp t c a)
  | .switch sp d cs => recur (.switchStmt sp d cs)
  | .throwS sp a => recur (.throwStmt sp a)
  | .tryS sp b h f => recur (.tryStmt sp b h f)
  | .whileS sp t b => recur (.whileStmt sp t b)
  | .doWhile sp b t => recur (.doWhileStmt sp b t)
  | .forS sp i t u b => recur (.forStmt sp i t u b)
  | .forIn sp l r b => recur (.forInStmt sp l r b)
  | .forOf sp l r b => recur (.forOfStmt sp l r b)
  | .decl d => recur (.decl d)

/-- `emit_stmt` (lib.rs:1179): every statement is followed by
`write_line`, except a block statement, whose arm returns early. -/
def emit_stmt (recur : ENode → EmitM Unit) (s : Stmt) : EmitM Unit := do
  emit_stmt_kind recur s
  (match s with
    | .block _ => pure ()
    | _ => write_line)

/-- `emit_block_stmt` (lib.rs:1211). -/
def emit_block_stmt (ctx : Ctx) (recur : ENode → EmitM Unit) (b : BlockStmt) :
    EmitM Unit := do
  punctM "\x7b"
  emit_list ctx (fun st => recur (.stmt st)) Stmt.span b.span (some b.stmts)
    lfMultiLineBlockStatements
  punctM "\x7d"

/-- `emit_empty_stmt` (lib.rs:1222). -/
def emit_empty_stmt (sp : Span) : EmitM Unit := punctM ";"

/-- `emit_debugger_stmt` (lib.rs:1227). -/
def emit_debugger_stmt (sp : Span) : EmitM Unit := do
  keywordM "debugger"
  semiM

/-- `emit_with_stmt` (lib.rs:1233). -/
def emit_with_stmt (ctx : Ctx) (recur : ENode → EmitM Unit) (sp : Span)
    (obj : Expr) (body : Stmt) : EmitM Unit := do
  keywordM "with"
  formattingSpaceM ctx
  punctM "("
  recur (.expr obj)
  punctM ")"
  recur (.stmt body)

/-- `emit_return_stmt` (lib.rs:1245). -/
def emit_return_stmt (recur : ENode → EmitM Unit) (sp : Span) (arg : Option Expr) :
    EmitM Unit := do
  keywordM "return"
  (match arg with
    | some a => do
      spaceM
      recur (.expr a)
    | none => pure ())
  semiM

/-- `emit_labeled_stmt` (lib.rs:1255). -/
def emit_labeled_stmt (recur : ENode → EmitM Unit) (sp : Span) (label : Ident)
    (body : Stmt) : EmitM Unit := do
  recur (.ident label)
  punctM ":"
  spaceM
  recur (.stmt body)

/-- `emit_break_stmt` (lib.rs:1266). -/
def emit_break_stmt (recur : ENode → EmitM Unit) (sp : Span)
    (label : Option Ident) : EmitM Unit := do
  keywordM "break"
  optLeadingSpace (fun i => recur (.ident i)) label
  semiM

/-- `emit_continue_stmt` (lib.rs:1273). -/
def emit_continue_stmt (recur : ENode → EmitM Unit) (sp : Span)
    (label : Option Ident) : EmitM Unit := do
  keywordM "continue"
  optLeadingSpace (fun i => recur (.ident i)) label
  semiM

/-- `emit_if_stmt` (lib.rs:1280). -/
def emit_if_stmt (recur : ENode → EmitM Unit) (sp : Span) (test : Expr)
    (cons : Stmt) (alt : Option Stmt) : EmitM Unit := do
  keywordM "if"
  spaceM
  punctM "("
  recur (.expr test)
  punctM ")"
  spaceM
  let is_block_stmt := match cons with
    | .block _ => true
    | _ => false
  recur (.stmt cons)
  (match alt with
    | some a => do
      (if is_block_stmt then spaceM else pure ())
      keywordM "else"
      spaceM
      recur (.stmt a)
    | none => pure ())

/-- `emit_switch_stmt` (lib.rs:1306). -/
def emit_switch_stmt (ctx : Ctx) (recur : ENode → EmitM Unit) (sp : Span)
    (disc : Expr) (cases : List SwitchCase) : EmitM Unit := do
  keywordM "switch"
  punctM "("
  recur (.expr disc)
  punctM ")"
  punctM "\x7b"
  emit_list ctx (fun c => recur (.switchCase c)) SwitchCase.span sp (some cases)
    lfCaseBlockClauses
  punctM "\x7d"

/-- `emit_catch_clause` (lib.rs:1319). -/
def emit_catch_clause (recur : ENode → EmitM Unit) (c : CatchClause) :
    EmitM Unit := do
  keywordM "catch"
  spaceM
  punctM "("
  recur (.pat c.param)
  punctM ")"
  spaceM
  recur (.blockStmt c.body)

/-- `emit_switch_case` (lib.rs:1333): single synthesized-or-same-line
statements stay on the case's line (the `MultiLine` and `Indented` bits
are cleared). -/
def emit_switch_case (ctx : Ctx) (recur : ENode → EmitM Unit) (c : SwitchCase) :
    EmitM Unit := do
  (match c.test with
    | some t => do
      keywordM "case"
      spaceM
      recur (.expr t)
    | none => keywordM "default")
  let emit_as_single_stmt := match c.cons with
    | [s] => c.span.isSynthesized || (Stmt.span s).isSynthesized
        || ctx.isOnSameLine c.span.lo (Stmt.span s).lo
    | _ => false
  let format := lfCaseOrDefaultClauseStatements
  let format ← (if emit_as_single_stmt then do
      punctM ":"
      spaceM
      pure (lfErase format (lfMultiLine ||| lfIndented))
    else do
      punctM ":"
      pure format)
  emit_list ctx (fun st => recur (.stmt st)) Stmt.span c.span (some c.cons) format

/-- `emit_throw_stmt` (lib.rs:1363). -/
def emit_throw_stmt (recur : ENode → EmitM Unit) (sp : Span) (arg : Expr) :
    EmitM Unit := do
  keywordM "throw"
  spaceM
  recur (.expr arg)
  semiM

/-- `emit_try_stmt` (lib.rs:1371). -/
def emit_try_stmt (recur : ENode → EmitM Unit) (sp : Span) (blk : BlockStmt)
    (handler : Option CatchClause) (finalizer : Option BlockStmt) : EmitM Unit := do
  keywordM "try"
  recur (.blockStmt blk)
  (match handler with
    | some h => recur (.catchClause h)
    | none => pure ())
  (match finalizer with
    | some f => do
      keywordM "finally"
      recur (.blockStmt f)
    | none => pure ())

/-- `emit_while_stmt` (lib.rs:1390). -/
def emit_while_stmt (recur : ENode → EmitM Unit) (sp : Span) (test : Expr)
    (body : Stmt) : EmitM Unit := do
  keywordM "while"
  punctM "("
  recur (.expr test)
  punctM ")"
  recur (.stmt body)

/-- `emit_do_while_stmt` (lib.rs:1401): `do`, the body, `while`, a
space, the test — with no parentheses around the test and no
terminating semicolon. -/
def emit_do_while_stmt (recur : ENode → EmitM Unit) (sp : Span) (body : Stmt)
    (test : Expr) : EmitM Unit := do
  keywordM "do"
  spaceM
  recur (.stmt body)
  keywordM "while"
  spaceM
  recur (.expr test)

/-- `emit_for_stmt` (lib.rs:1412). -/
def emit_for_stmt (recur : ENode → EmitM Unit) (sp : Span)
    (init : Option VarDeclOrExpr) (test upd : Option Expr) (body : Stmt) :
    EmitM Unit := do
  keywordM "for"
  punctM "("
  optEmit (fun i => recur (.varDeclOrExpr i)) init
  semiM
  optLeadingSpace (fun e => recur (.expr e)) test
  semiM
  optLeadingSpace (fun e => recur (.expr e)) upd
  punctM ")"
  recur (.stmt body)

/-- `emit_for_in_stmt` (lib.rs:1426). -/
def emit_for_in_stmt (recur : ENode → EmitM Unit) (sp : Span)
    (left : VarDeclOrPat) (right : Expr) (body : Stmt) : EmitM Unit := do
  keywordM "for"
  punctM "("
  recur (.varDeclOrPat left)
  spaceM
  keywordM "in"
  spaceM
  recur (.expr right)
  punctM ")"
  recur (.stmt body)

/-- `emit_for_of_stmt` (lib.rs:1440). -/
def emit_for_of_stmt (recur : ENode → EmitM Unit) (sp : Span)
    (left : VarDeclOrPat) (right : Expr) (body : Stmt) : EmitM Unit := do
  keywordM "for"
  punctM "("
  recur (.varDeclOrPat left)
  spaceM
  keywordM "of"
  spaceM
  recur (.expr right)
  punctM ")"
  recur (.stmt body)

/-- `emit_var_decl_or_expr` (lib.rs:1473). -/
def emit_var_decl_or_expr (recur : ENode → EmitM Unit) : VarDeclOrExpr → EmitM Unit
  | .expr e => recur (.expr e)
  | .varDecl v => recur (.varDecl v)

/-- Modelled from the spec: `decl.rs`'s `emit_decl` dispatch (the
module is not under `src/`; spec section 4.4 gives the surface). -/
def emit_decl (recur : ENode → EmitM Unit) : Decl → EmitM Unit
  | .cls i k => recur (.classDecl i k)
  | .fnD i fn => recur (.fnDecl i fn)
  | .var v => recur (.varDecl v)

/-- Modelled from the spec: `decl.rs`'s class declaration emitter —
`class` name, then the class tail. -/
def emit_class_decl (recur : ENode → EmitM Unit) (ident : Ident) (k : ClassDef) :
    EmitM Unit := do
  keywordM "class"
  spaceM
  recur (.ident ident)
  recur (.classTrailing k)

/-- Modelled from the spec: `decl.rs`'s function declaration emitter —
optional `async`, `function`, optional `*`, the name, then the
function tail. -/
def emit_fn_decl (recur : ENode → EmitM Unit) (ident : Ident) (fn : FunctionDef) :
    EmitM Unit := do
  (if fn.asyncTok.isSome then do
    keywordM "async"
    spaceM
  else pure ())
  keywordM "function"
  (if fn.genTok.isSome then punctM "*" else pure ())
  spaceM
  recur (.ident ident)
  recur (.fnTrailing fn)

/-- Modelled from the spec: `decl.rs`'s variable declaration emitter —
the kind keyword, a space, the comma list of declarators. -/
def emit_var_decl (ctx : Ctx) (recur : ENode → EmitM Unit) (v : VarDecl) :
    EmitM Unit := do
  keywordM v.kind
  spaceM
  emit_list ctx (fun d => recur (.varDeclarator d)) VarDeclarator.span v.span
    (some v.decls) lfCommaListElements

/-- Modelled from the spec: `decl.rs`'s declarator emitter — the name
pattern, then `=` and the initialiser when present. -/
def emit_var_declarator (ctx : Ctx) (recur : ENode → EmitM Unit)
    (v : VarDeclarator) : EmitM Unit := do
  recur (.pat v.name)
  (match v.init with
    | some i => do
      formattingSpaceM ctx
      punctM "="
      formattingSpaceM ctx
      recur (.expr i)
    | none => pure ())

/-- One step of the dispatcher: route an `ENode` to its emitter,
feeding `recur` to the recursive positions. -/
def emitNBody (ctx : Ctx) (recur : ENode → EmitM Unit) : ENode → EmitM Unit
  | .module m => emit_module recur m
  | .moduleItem n => emit_module_item recur n
  | .moduleDecl n => emit_module_decl recur n
  | .exportDefaultDecl n => emit_export_default_decl recur n
  | .importDecl n => emit_import ctx recur n
  | .importSpecific n => emit_import_specific recur n
  | .exportSpecifierN n => emit_export_specifier recur n
  | .namedExport n => emit_named_export ctx recur n
  | .exportAllD n => emit_export_all ctx recur n
  | .lit l => emit_lit recur l
  | .strLit s => emit_str_lit ctx s
  | .numLit n => emit_num_lit ctx n
  | .exprOrSuper n => emit_expr_or_super recur n
  | .expr e => emit_expr recur e
  | .callExpr sp c a => emit_call_expr ctx recur sp c a
  | .newExpr sp c a => emit_new_expr ctx recur sp c a
  | .memberExpr sp o p c => emit_member_expr ctx recur sp o p c
  | .arrowExpr sp ps b a g => emit_arrow_expr ctx recur sp ps b a g
  | .metaPropExpr sp m p => emit_meta_prop_expr recur sp m p
  | .seqExpr sp es => emit_seq_expr ctx recur sp es
  | .assignExpr sp l o r => emit_assign_expr ctx recur sp l o r
  | .binExpr sp o l r => emit_bin_expr ctx recur sp o l r
  | .classExpr i k => emit_class_expr recur i k
  | .classTrailing k => emit_class_trailing ctx recur k
  | .classMethod m => emit_class_method recur m
  | .propName n => emit_prop_name recur n
  | .condExpr sp t c a => emit_cond_expr ctx recur sp t c a
  | .fnExpr i fn => emit_fn_expr recur i fn
  | .fnTrailing fn => emit_fn_trailing ctx recur fn
  | .blockStmtOrExpr n => emit_block_stmt_or_expr recur n
  | .thisExpr sp => emit_this_expr sp
  | .tplLit sp t e q => emit_tpl_lit recur sp t e q
  | .quasi n => emit_quasi n
  | .unaryExpr sp o a => emit_unary_expr recur sp o a
  | .updateExpr sp o p a => emit_update_expr recur sp o p a
  | .yieldExpr sp a d => emit_yield_expr recur sp a d
  | .exprOrSpread n => emit_expr_or_spread recur n
  | .awaitExpr sp a => emit_await_expr recur sp a
  | .arrayLit sp e => emit_array_lit ctx recur sp e
  | .objectLit sp p => emit_object_lit ctx recur sp p
  | .propJs p => emit_prop recur p
  | .kvProp k v => emit_kv_prop ctx recur k v
  | .assignProp k v => emit_assign_prop recur k v
  | .getterProp sp k b => emit_getter_prop ctx recur sp k b
  | .setterProp sp k p b => emit_setter_prop recur sp k p b
  | .methodProp k f => emit_method_prop recur k f
  | .parenExpr sp e => emit_paren_expr recur sp e
  | .ident i => emit_ident ctx i
  | .pat p => emit_pat recur p
  | .restPat sp a => emit_rest_pat recur sp a
  | .propOrSpread n => emit_prop_or_spread recur n
  | .spreadElement sp e => emit_spread_element recur sp e
  | .patOrExpr n => emit_pat_or_expr recur n
  | .arrayPat sp e => emit_array_pat ctx recur sp e
  | .assignPat sp l r => emit_assign_pat ctx recur sp l r
  | .objectPat sp p => emit_object_pat ctx recur sp p
  | .objectPatProp n => emit_object_pat_prop recur n
  | .objectKvPat k v => emit_object_kv_pat ctx recur k v
  | .objectAssignPat k v => emit_object_assign_pat recur k v
  | .varDeclOrPat n => emit_var_decl_or_pat recur n
  | .stmt s => emit_stmt recur s
  | .blockStmt b => emit_block_stmt ctx recur b
  | .emptyStmt sp => emit_empty_stmt sp
  | .debuggerStmt sp => emit_debugger_stmt sp
  | .withStmt sp o b => emit_with_stmt ctx recur sp o b
  | .returnStmt sp a => emit_return_stmt recur sp a
  | .labeledStmt sp l b => emit_labeled_stmt recur sp l b
  | .breakStmt sp l => emit_break_stmt recur sp l
  | .continueStmt sp l => emit_continue_stmt recur sp l
  | .ifStmt sp t c a => emit_if_stmt recur sp t c a
  | .switchStmt sp d cs => emit_switch_stmt ctx recur sp d cs
  | .catchClause c => emit_catch_clause recur c
  | .switchCase c => emit_switch_case ctx recur c
  | .throwStmt sp a => emit_throw_stmt recur sp a
  | .tryStmt sp b h f => emit_try_stmt recur sp b h f
  | .whileStmt sp t b => emit_while_stmt recur sp t b
  | .doWhileStmt sp b t => emit_do_while_stmt recur sp b t
  | .forStmt sp i t u b => emit_for_stmt recur sp i t u b
  | .forInStmt sp l r b => emit_for_in_stmt recur sp l r b
  | .forOfStmt sp l r b => emit_for_of_stmt recur sp l r b
  | .varDeclOrExpr n => emit_var_decl_or_expr recur n
  | .decl d => emit_decl recur d
  | .classDecl i k => emit_class_decl recur i k
  | .fnDecl i fn => emit_fn_decl recur i fn
  | .varDecl v => emit_var_decl ctx recur v
  | .varDeclarator v => emit_var_declarator ctx recur v

/-- The tied dispatcher (`Node::emit_with`): recursion is paid for with
fuel; fuel 0 is the out-of-fuel error. -/
def emitN : Nat → Ctx → ENode → EmitM Unit
  | 0, _, _ => throwFuel
  | fuel+1, ctx, n => emitNBody ctx (emitN fuel ctx) n

/-- `emit_script` (lib.rs:71): the statements as a
`SourceFileStatements` list under the span of the whole script. -/
def emit_script (ctx : Ctx) (fuel : Nat) (stmts : List Stmt) : EmitM Unit :=
  let span := match stmts with
    | [] => dummySpan
    | s0 :: _ =>
      (Stmt.span s0).withHi
        (match stmts.getLast? with
          | some l => (Stmt.span l).hi
          | none => (Stmt.span s0).lo)
  emit_list ctx (fun s => emitN fuel ctx (.stmt s)) Stmt.span span (some stmts)
    lfSourceFileStatements

/-- `emit_stmts` (lib.rs:1170). -/
def emit_stmts (ctx : Ctx) (fuel : Nat) (stmts : List Stmt) : EmitM Unit :=
  emitEach (fun s => emitN fuel ctx (.stmt s)) stmts

/-!  ## Properties of runs -/

/-- A computation is indent-balanced: every run that ends in `Ok`
leaves the writer's indent depth exactly where it started. -/
def Balanced (m : EmitM α) : Prop :=
  ∀ s a s1, m s = (.ok a, s1) → s1.indent = s.indent

/-- A computation that ends each increase/decrease pairing shifted by
one when its Boolean result is true (the shape of the separator step of
the list loop, which may leave an `increase_indent` pending for the
`should_decrease_indent_after_emit` flag). -/
def BalancedShift (m : EmitM (Bool × α)) : Prop :=
  ∀ s b a s1, m s = (.ok (b, a), s1) →
    s1.indent = s.indent + (if b then 1 else 0)

/-- A computation that can never end in a Rust panic. -/
def NoPanic (m : EmitM α) : Prop := ∀ s, (m s).1 ≠ Except.error Err.panicked

/-- A computation that never writes a `*` punctuator (whatever else it
writes), phrased as preservation: if no `*` punctuator has been written
yet, none has been written afterwards either. -/
def NoStar (m : EmitM α) : Prop :=
  ∀ s, WTok.punct "*" ∉ s.out → WTok.punct "*" ∉ (m s).2.out

/-- A namespace (`* as x`) import specifier occurs in the list. -/
def has_namespace_specifier : List ImportSpecifier → Bool
  | [] => false
  | .nsSpec _ _ :: _ => true
  | _ :: rest => has_namespace_specifier rest

/-- The computation fails from every start state, and a star-free
output stays star-free: the run ends in some error without a `*`
punctuator ever reaching the sink. -/
def AbortsStarFree (m : EmitM α) : Prop :=
  ∀ s, WTok.punct "*" ∉ s.out →
    ∃ e s2, m s = (Except.error e, s2) ∧ WTok.punct "*" ∉ s2.out

/-!  ## Spec-side formulation of the template-literal interleaving

For claim C6 the spec's description of the interleaving — quasis and
interpolated expressions strictly alternating, starting and ending with
a quasi — is stated structurally, to be compared with `tpl_loop`'s
index arithmetic. -/

/-- The spec's interleaving: one quasi, then for each expression the
`$ { expr }` group followed by the next quasi. -/
def tpl_spec_interleave (recur : ENode → EmitM Unit) :
    List TplElement → List Expr → EmitM Unit
  | [], _ => pure ()
  | q :: qs, es =>
    match es, qs with
    | [], [] => recur (.quasi q)
    | [], _ :: _ => pure ()
    | e :: es2, _ => do
      recur (.quasi q)
      punctM "$"
      punctM "\x7b"
      recur (.expr e)
      punctM "\x7d"
      tpl_spec_interleave recur qs es2

/-!  ## Concrete inputs for witnesses and counterexamples -/

/-- A stub context: no minification, an empty source map (every snippet
empty, every layout question `false`) and an empty comment store. -/
def ctx0 : Ctx :=
  ⟨false, fun _ => "", fun _ => "", fun _ _ _ => false, fun _ _ _ => false,
    fun _ _ _ => false, fun _ _ => false, fun _ => [], fun _ => []⟩

/-- A witness context: like `ctx0` but the spans `⟨10,11⟩`, `⟨30,35⟩`
and `⟨40,43⟩` have original text (`1`, `zz` and `0x5`). -/
def ctxW : Ctx :=
  { ctx0 with
    snippet := fun sp =>
      if sp = ⟨10, 11, 0⟩ then "1"
      else if sp = ⟨30, 35, 0⟩ then "zz"
      else if sp = ⟨40, 43, 0⟩ then "0x5"
      else ""
    spanToString := fun sp => if sp = ⟨10, 11, 0⟩ then "1" else "" }

/-- The initial writer state: empty output, indent 0, infallible sink. -/
def st0 : St := ⟨[], [], 0, none, []⟩

/-- Like `st0` but the sink fails at the fourth write. -/
def stB3 : St := ⟨[], [], 0, some 3, []⟩

/-- The do-while statement `do ; while (x)` of claim C1's failing
input. -/
def stmtDoWhile : Stmt :=
  .doWhile ⟨1, 5, 0⟩ (.empty ⟨2, 3, 0⟩) (.ident ⟨⟨4, 5, 0⟩, "x"⟩)

/-- An arrow function with an expression body, `() => x`, as an
expression statement (claim C2's counterexample input). -/
def stmtArrow : Stmt :=
  .exprS (.arrow ⟨1, 9, 0⟩ [] (.expr (.ident ⟨⟨5, 6, 0⟩, "x"⟩)) none none)

/-- The member expression `1..toString` of the spec's scenario 1: a
numeric literal written `1` in the original source, property access on
`toString`. -/
def memberOneToString : Expr :=
  .member ⟨10, 20, 0⟩ (.expr (.lit (.numL ⟨⟨10, 11, 0⟩, ⟨false, false, "1"⟩⟩)))
    (.ident ⟨⟨12, 20, 0⟩, "toString"⟩) false

/-- The unary expression `+ ++x` of the spec's scenario 2. -/
def unaryPlusPlusPlus : Expr :=
  .unary dummySpan .plus (.update dummySpan .plusPlus true (.ident ⟨dummySpan, "x"⟩))

/-- A string literal whose span is original but empty (`lo = hi = 5`),
so its snippet is the empty string (claim C7's counterexample). -/
def strEmptySnippet : Str := ⟨⟨5, 5, 0⟩, "x"⟩

/-- A string literal over the span `⟨30,35⟩`, whose original text in
`ctxW` is `zz` (claim C7's witness). -/
def strWithSnippet : Str := ⟨⟨30, 35, 0⟩, "hello"⟩

/-- A numeric literal over the span `⟨40,43⟩`, whose original text in
`ctxW` is `0x5` (claim C7's witness). -/
def numWithSnippet : Number := ⟨⟨40, 43, 0⟩, ⟨false, false, "5"⟩⟩

/-- An import declaration with a namespace specifier and three
specifiers in total (claim C10's aborting input):
`import d, * as ns, {a} from "m"`. -/
def importThree : ImportDecl :=
  ⟨⟨1, 40, 0⟩,
    [.defaultS ⟨⟨8, 9, 0⟩, "d"⟩,
      .nsSpec ⟨11, 18, 0⟩ ⟨⟨16, 18, 0⟩, "ns"⟩,
      .specific ⟨⟨21, 22, 0⟩, ⟨⟨21, 22, 0⟩, "a"⟩, none⟩],
    ⟨⟨30, 33, 0⟩, "m"⟩⟩

/-- An import declaration with a namespace specifier accompanied by one
default specifier (claim C10's passing input): `import d, * as ns from
"m"`. -/
def importTwo : ImportDecl :=
  ⟨⟨1, 30, 0⟩,
    [.defaultS ⟨⟨8, 9, 0⟩, "d"⟩, .nsSpec ⟨11, 18, 0⟩ ⟨⟨16, 18, 0⟩, "ns"⟩],
    ⟨⟨25, 28, 0⟩, "m"⟩⟩

/-- The template literal `` `a${x}b${y}c` `` of the spec's scenario 3. -/
def tplABC : ENode :=
  .tplLit dummySpan none [.ident ⟨dummySpan, "x"⟩, .ident ⟨dummySpan, "y"⟩]
    [⟨dummySpan, "a"⟩, ⟨dummySpan, "b"⟩, ⟨dummySpan, "c"⟩]

/-!  ## Running the monad -/

theorem bind_run (m : EmitM α) (f : α → EmitM β) (s : St) :
    (m >>= f) s = match m s with
      | (.ok a, s1) => f a s1
      | (.error e, s1) => (.error e, s1) := rfl

theorem pure_run (a : α) (s : St) : (pure a : EmitM α) s = (.ok a, s) := rfl

/-- Inversion of a successful bind. -/
theorem bind_ok {m : EmitM α} {f : α → EmitM β} {s s2 : St} {b : β}
    (h : (m >>= f) s = (.ok b, s2)) :
    ∃ a s1, m s = (.ok a, s1) ∧ f a s1 = (.ok b, s2) := by
  rw [bind_run] at h
  rcases hm : m s with ⟨r, s1⟩
  rw [hm] at h
  cases r with
  | ok a => exact ⟨a, s1, rfl, h⟩
  | error e => simp at h

/-- A successful bind in the forward direction. -/
theorem bind_ok_forward {m : EmitM α} {f : α → EmitM β} {s s1 : St} {a : α}
    (h : m s = (.ok a, s1)) : (m >>= f) s = f a s1 := by
  rw [bind_run, h]

/-!  ## Indent balance: atoms and combinators -/

theorem balanced_pure (a : α) : Balanced (pure a : EmitM α) := by
  intro s b s1 h
  rw [pure_run] at h
  injection h with h1 h2
  rw [← h2]

theorem balanced_bind {m : EmitM α} {f : α → EmitM β}
    (hm : Balanced m) (hf : ∀ a, Balanced (f a)) : Balanced (m >>= f) := by
  intro s b s2 h
  obtain ⟨a, s1, h1, h2⟩ := bind_ok h
  exact (hf a s1 b s2 h2).trans (hm s a s1 h1)

theorem balanced_seq {m : EmitM α} {k : EmitM β}
    (hm : Balanced m) (hk : Balanced k) : Balanced (m >>= fun _ => k) :=
  balanced_bind hm fun _ => hk

theorem balanced_wput (t : WTok) : Balanced (wput t) := by
  intro s a s1 h
  unfold wput at h
  rcases hb : s.budget with _ | n
  · rw [hb] at h
    injection h with h1 h2
    rw [← h2]
  · rw [hb] at h
    cases n with
    | zero => simp at h
    | succ n =>
      injection h with h1 h2
      rw [← h2]

theorem balanced_getSt : Balanced getSt := by
  intro s a s1 h
  injection h with h1 h2
  rw [← h2]

theorem balanced_throwPanic : Balanced (throwPanic : EmitM α) := by
  intro s a s1 h
  simp [throwPanic] at h

theorem balanced_throwFuel : Balanced (throwFuel : EmitM α) := by
  intro s a s1 h
  simp [throwFuel] at h

theorem balanced_recordPos (pos : Nat) : Balanced (recordPos pos) := by
  intro s a s1 h
  injection h with h1 h2
  rw [← h2]

theorem balanced_printStdout (msg : String) : Balanced (printStdout msg) := by
  intro s a s1 h
  injection h with h1 h2
  rw [← h2]

theorem balanced_ite {c : Prop} [Decidable c] {m1 m2 : EmitM α}
    (h1 : Balanced m1) (h2 : Balanced m2) : Balanced (if c then m1 else m2) := by
  by_cases hc : c
  · rw [if_pos hc]
    exact h1
  · rw [if_neg hc]
    exact h2

theorem balanced_formattingSpace (ctx : Ctx) : Balanced (formattingSpaceM ctx) :=
  balanced_ite (balanced_pure _) (balanced_wput _)

theorem balanced_writeComments : ∀ l, Balanced (writeComments l)
  | [] => balanced_pure ()
  | c :: r => balanced_seq (balanced_wput _) (balanced_writeComments r)

theorem balanced_elcp (ctx : Ctx) (pos : Nat) :
    Balanced (emit_leading_comments_of_pos ctx pos) := by
  unfold emit_leading_comments_of_pos
  refine balanced_bind balanced_getSt fun s => ?_
  refine balanced_ite (balanced_pure _) ?_
  rcases hl : ctx.leadingAt pos with _ | ⟨c, r⟩
  · exact balanced_pure _
  · exact balanced_seq (balanced_writeComments _) (balanced_recordPos _)

theorem balanced_etcp (ctx : Ctx) (pos : Nat) (b : Bool) :
    Balanced (emit_trailing_comments_of_pos ctx pos b) :=
  balanced_writeComments _

theorem balanced_write_delim (f : LF) : Balanced (write_delim f) := by
  unfold write_delim
  refine balanced_ite (balanced_pure _) ?_
  refine balanced_ite (balanced_wput _) ?_
  refine balanced_ite (balanced_seq (balanced_wput _) (balanced_wput _)) ?_
  exact balanced_ite (balanced_seq (balanced_wput _) (balanced_wput _))
    balanced_throwPanic

theorem balanced_optEmit {f : α → EmitM Unit} (hf : ∀ x, Balanced (f x)) :
    ∀ o, Balanced (optEmit f o)
  | none => balanced_pure ()
  | some x => hf x

theorem balanced_optLeadingSpace {f : α → EmitM Unit} (hf : ∀ x, Balanced (f x)) :
    ∀ o, Balanced (optLeadingSpace f o)
  | none => balanced_pure ()
  | some x => balanced_seq (balanced_wput _) (hf x)

theorem balanced_emitEach {f : α → EmitM Unit} (hf : ∀ x, Balanced (f x)) :
    ∀ l, Balanced (emitEach f l)
  | [] => balanced_pure ()
  | x :: r => balanced_seq (hf x) (balanced_emitEach hf r)

/-!  ## Indent balance of the list emitter -/

theorem run_dec_if {b : Bool} {s sD : St} {u : Unit}
    (h : (if b then decrease_indent else pure ()) s = (.ok u, sD)) :
    sD.indent = s.indent - (if b then 1 else 0) := by
  cases b
  · have h' : (pure () : EmitM Unit) s = (.ok u, sD) := h
    rw [pure_run] at h'
    injection h' with h1 h2
    rw [← h2]
    simp
  · have h' : decrease_indent s = (.ok u, sD) := h
    injection h' with h1 h2
    rw [← h2]
    simp

theorem run_inc_ifP {c : Prop} [Decidable c] {s sB : St} {u : Unit}
    (h : (if c then increase_indent else pure ()) s = (.ok u, sB)) :
    sB.indent = s.indent + (if c then 1 else 0) := by
  by_cases hc : c
  · rw [if_pos hc] at h
    injection h with h1 h2
    rw [← h2, if_pos hc]
  · rw [if_neg hc] at h
    rw [pure_run] at h
    injection h with h1 h2
    rw [← h2, if_neg hc]
    simp

theorem run_dec_ifP {c : Prop} [Decidable c] {s sB : St} {u : Unit}
    (h : (if c then decrease_indent else pure ()) s = (.ok u, sB)) :
    sB.indent = s.indent - (if c then 1 else 0) := by
  by_cases hc : c
  · rw [if_pos hc] at h
    injection h with h1 h2
    rw [← h2, if_pos hc]
  · rw [if_neg hc] at h
    rw [pure_run] at h
    injection h with h1 h2
    rw [← h2, if_neg hc]
    simp

theorem run_inc_flag {c : Prop} [Decidable c] {s sC : St} {d : Bool}
    (h : (if c then (do increase_indent; pure true) else pure false) s
      = (.ok d, sC)) :
    sC.indent = s.indent + (if d then 1 else 0) := by
  by_cases hc : c
  · rw [if_pos hc] at h
    obtain ⟨u, sE, hinc, hp⟩ := bind_ok h
    injection hinc with h1 h2
    rw [pure_run] at hp
    injection hp with hp1 hp2
    injection hp1 with hd
    rw [← hp2, ← h2, ← hd]
    simp
  · rw [if_neg hc] at h
    rw [pure_run] at h
    injection h with h1 h2
    injection h1 with hd
    rw [← h2, ← hd]
    simp

theorem balancedShift_sep_step (ctx : Ctx) (csp parent : Span) (format : LF)
    (prev : Option Span) (sEIC : Bool) :
    BalancedShift (list5_sep_step ctx csp parent format prev sEIC) := by
  intro s b a s1 h
  cases prev with
  | none =>
    have h' : (pure ((false, sEIC) : Bool × Bool) : EmitM (Bool × Bool)) s
        = (.ok (b, a), s1) := h
    rw [pure_run] at h'
    injection h' with h1 h2
    injection h1 with h3
    injection h3 with hb ha
    rw [← h2, ← hb]
    simp
  | some p =>
    unfold list5_sep_step at h
    obtain ⟨u1, sA, hA, h⟩ := bind_ok h
    have eA : sA.indent = s.indent :=
      balanced_ite (balanced_elcp ctx p.hi) (balanced_pure ()) s u1 sA hA
    obtain ⟨u2, sB, hB, h⟩ := bind_ok h
    have eB : sB.indent = sA.indent := balanced_write_delim format sA u2 sB hB
    by_cases hsep : ctx.shouldSepLT (some p) (some csp) format = true
    · rw [if_pos hsep] at h
      obtain ⟨d, sC, hd, h⟩ := bind_ok h
      have eC : sC.indent = sB.indent + (if d then 1 else 0) := run_inc_flag hd
      obtain ⟨u3, sD, hline, h⟩ := bind_ok h
      have eD : sD.indent = sC.indent := balanced_wput _ sC u3 sD hline
      rw [pure_run] at h
      injection h with h1 h2
      injection h1 with h3
      injection h3 with hb ha
      rw [← h2, ← hb, eD, eC, eB, eA]
    · rw [if_neg hsep] at h
      obtain ⟨u3, sC, hsp, h⟩ := bind_ok h
      have eC : sC.indent = sB.indent :=
        balanced_ite (balanced_wput _) (balanced_pure ()) sB u3 sC hsp
      rw [pure_run] at h
      injection h with h1 h2
      injection h1 with h3
      injection h3 with hb ha
      rw [← h2, ← hb, eC, eB, eA]
      simp

theorem balanced_list5_loop {α : Type} (ctx : Ctx) (emitChild : α → EmitM Unit)
    (childSpan : α → Span) (parent : Span) (format : LF) (cs : List α)
    (start : Nat) (mayEIC : Bool) (hc : ∀ c, Balanced (emitChild c)) :
    ∀ rem i prev sEIC,
      Balanced (list5_loop ctx emitChild childSpan parent format cs start mayEIC
        i rem prev sEIC) := by
  intro rem
  induction rem with
  | zero =>
    intro i prev sEIC s a s1 h
    have h' : (pure prev : EmitM (Option Span)) s = (.ok a, s1) := h
    rw [pure_run] at h'
    injection h' with h1 h2
    rw [← h2]
  | succ rem ih =>
    intro i prev sEIC s a s1 h
    unfold list5_loop at h
    rcases hg : cs.get? (start + i) with _ | child
    · rw [hg] at h
      simp [throwPanic] at h
    · rw [hg] at h
      obtain ⟨st, sA, hsep, h⟩ := bind_ok h
      rcases st with ⟨d, e⟩
      have eA : sA.indent = s.indent + (if d then 1 else 0) :=
        balancedShift_sep_step ctx (childSpan child) parent format prev sEIC
          s d e sA hsep
      obtain ⟨sEIC2, sB, hcomm, h⟩ := bind_ok h
      have eB : sB.indent = sA.indent :=
        balanced_ite (balanced_seq (balanced_etcp _ _ _) (balanced_pure _))
          (balanced_pure _) sA sEIC2 sB hcomm
      obtain ⟨u, sC, hec, h⟩ := bind_ok h
      have eC : sC.indent = sB.indent := hc child sB u sC hec
      obtain ⟨u2, sD, hdec, h⟩ := bind_ok h
      have eD : sD.indent = sC.indent - (if d then 1 else 0) := run_dec_if hdec
      have eE : s1.indent = sD.indent :=
        ih (i+1) (some (childSpan child)) sEIC2 sD a s1 h
      cases d
      · simp at eA eD
        rw [eE, eD, eC, eB, eA]
      · simp at eA eD
        rw [eE, eD, eC, eB, eA]
        omega

theorem balanced_emit_trailing_comma_step (f : LF) :
    Balanced (emit_trailing_comma_step f) :=
  balanced_ite (balanced_wput _) (balanced_pure _)

theorem balanced_emit_list5 {α : Type} (ctx : Ctx) (emitChild : α → EmitM Unit)
    (childSpan : α → Span) (parent : Span) (children : Option (List α))
    (format : LF) (start count : Nat) (hc : ∀ c, Balanced (emitChild c)) :
    Balanced (emit_list5 ctx emitChild childSpan parent children format
      start count) := by
  unfold emit_list5
  refine balanced_ite (balanced_pure _) ?_
  refine balanced_ite (balanced_pure _) ?_
  refine balanced_seq ?_ (balanced_seq ?_ ?_)
  · exact balanced_ite
      (balanced_seq (balanced_wput _)
        (balanced_ite (balanced_etcp _ _ _) (balanced_pure _)))
      (balanced_pure _)
  · refine balanced_ite
      (balanced_ite (balanced_wput _) (balanced_ite (balanced_wput _)
        (balanced_pure _))) ?_
    intro s a s1 h
    obtain ⟨sEIC, sA, hlead, h⟩ := bind_ok h
    have eA : sA.indent = s.indent :=
      balanced_ite (balanced_seq (balanced_wput _) (balanced_pure _))
        (balanced_seq (balanced_ite (balanced_wput _) (balanced_pure _))
          (balanced_pure _)) s sEIC sA hlead
    obtain ⟨u1, sB, hinc, h⟩ := bind_ok h
    have eB : sB.indent = sA.indent
        + (if lfContains format lfIndented = true then 1 else 0) :=
      run_inc_ifP hinc
    obtain ⟨prev, sC, hloop, h⟩ := bind_ok h
    have eC : sC.indent = sB.indent :=
      balanced_list5_loop ctx emitChild childSpan parent format _ start _ hc
        count 0 none sEIC sB prev sC hloop
    obtain ⟨u2, sD, htc, h⟩ := bind_ok h
    have eD : sD.indent = sC.indent :=
      balanced_emit_trailing_comma_step format sC u2 sD htc
    obtain ⟨u3, sE, hmatch, h⟩ := bind_ok h
    have eE : sE.indent = sD.indent := by
      have hb : Balanced (match prev with
        | some p =>
          if lfContains format lfDelimitersMask && p.hi != parent.hi then
            emit_leading_comments_of_pos ctx p.hi
          else pure ()
        | none => pure ()) := by
        cases prev with
        | none => exact balanced_pure _
        | some p => exact balanced_ite (balanced_elcp ctx p.hi) (balanced_pure _)
      exact hb sD u3 sE hmatch
    obtain ⟨u4, sF, hdec, h⟩ := bind_ok h
    have eF : sF.indent = sE.indent
        - (if lfContains format lfIndented = true then 1 else 0) :=
      run_dec_ifP hdec
    have eG : s1.indent = sF.indent :=
      balanced_ite (balanced_wput _) (balanced_ite (balanced_wput _)
        (balanced_pure _)) sF a s1 h
    rw [eG, eF, eE, eD, eC, eB, eA]
    omega
  · exact balanced_ite
      (balanced_seq (balanced_ite (balanced_elcp _ _) (balanced_pure _))
        (balanced_wput _))
      (balanced_pure _)

theorem balanced_emit_list {α : Type} (ctx : Ctx) (emitChild : α → EmitM Unit)
    (childSpan : α → Span) (parent : Span) (children : Option (List α))
    (format : LF) (hc : ∀ c, Balanced (emitChild c)) :
    Balanced (emit_list ctx emitChild childSpan parent children format) :=
  balanced_emit_list5 ctx emitChild childSpan parent children format _ _ hc

/-!  ## Indent balance of every emitter routine

One lemma per routine, each parametric in the dispatcher `recur`; the
master theorem ties them together by induction on the fuel. -/

section BalanceLemmas

variable {recur : ENode → EmitM Unit} (hrec : ∀ n, Balanced (recur n)) (ctx : Ctx)

include hrec

theorem bal_emit_module (m : Module) : Balanced (emit_module recur m) :=
  balanced_emitEach (fun _ => hrec _) _

theorem bal_emit_module_item : ∀ n, Balanced (emit_module_item recur n)
  | .stmt _ => hrec _
  | .moduleDecl _ => hrec _

theorem bal_emit_module_decl : ∀ n, Balanced (emit_module_decl recur n)
  | .importD _ => hrec _
  | .exportDecl _ =>
    balanced_seq (balanced_wput _) (balanced_seq (balanced_wput _)
      (balanced_seq (hrec _) (balanced_wput _)))
  | .exportNamed _ => hrec _
  | .exportDefaultDecl _ => hrec _
  | .exportDefaultExpr _ =>
    balanced_seq (balanced_wput _) (balanced_seq (balanced_wput _)
      (balanced_seq (balanced_wput _) (balanced_seq (balanced_wput _)
        (balanced_seq (hrec _) (balanced_wput _)))))
  | .exportAll _ => hrec _

theorem bal_emit_export_default_decl (n : ExportDefaultDecl) :
    Balanced (emit_export_default_decl recur n) := by
  unfold emit_export_default_decl
  cases n <;>
    exact balanced_seq (balanced_wput _) (balanced_seq (balanced_wput _)
      (balanced_seq (balanced_wput _) (balanced_seq (balanced_wput _)
        (balanced_seq (hrec _) (balanced_wput _)))))

theorem bal_import_spec_loop (total : Nat) :
    ∀ l, Balanced (import_spec_loop recur total l)
  | [] => balanced_pure _
  | sp :: rest => by
    unfold import_spec_loop
    refine balanced_bind ?_ fun here =>
      balanced_bind (bal_import_spec_loop total rest) fun r => balanced_pure _
    cases sp with
    | specific s => exact balanced_pure _
    | defaultS lcl =>
      exact balanced_seq (hrec _) (balanced_seq (balanced_wput _)
        (balanced_pure _))
    | nsSpec sp lcl =>
      exact balanced_seq (balanced_ite (balanced_pure _) balanced_throwPanic)
        (balanced_seq (balanced_wput _) (balanced_seq (balanced_wput _)
          (balanced_seq (balanced_wput _) (balanced_seq (balanced_wput _)
            (balanced_seq (hrec _) (balanced_seq (balanced_wput _)
              (balanced_pure _)))))))

theorem bal_emit_import (d : ImportDecl) : Balanced (emit_import ctx recur d) := by
  unfold emit_import
  refine balanced_seq (balanced_wput _) (balanced_seq (balanced_wput _)
    (balanced_bind (bal_import_spec_loop hrec _ _) fun specifiers => ?_))
  refine balanced_seq (balanced_ite ?_ (balanced_pure _))
    (balanced_seq (balanced_wput _) (balanced_seq (balanced_wput _)
      (balanced_seq (hrec _) (balanced_wput _))))
  exact balanced_seq (balanced_wput _)
    (balanced_seq (balanced_emit_list _ _ _ _ _ _ fun _ => hrec _)
      (balanced_wput _))

theorem bal_emit_import_specific (s : ImportSpecific) :
    Balanced (emit_import_specific recur s) := by
  unfold emit_import_specific
  rcases s with ⟨sp, lcl, _ | im⟩
  · exact balanced_seq (balanced_pure _) (hrec _)
  · exact balanced_seq (balanced_seq (hrec _) (balanced_seq (balanced_wput _)
      (balanced_seq (balanced_wput _) (balanced_wput _)))) (hrec _)

theorem bal_emit_export_specifier (n : ExportSpecifier) :
    Balanced (emit_export_specifier recur n) := by
  unfold emit_export_specifier
  rcases n with ⟨sp, orig, _ | ex⟩
  · exact hrec _
  · exact balanced_seq (hrec _) (balanced_seq (balanced_wput _)
      (balanced_seq (balanced_wput _) (balanced_seq (balanced_wput _) (hrec _))))

theorem bal_emit_named_export (n : NamedExport) :
    Balanced (emit_named_export ctx recur n) := by
  unfold emit_named_export
  refine balanced_seq (balanced_wput _)
    (balanced_seq (balanced_formattingSpace ctx) (balanced_seq (balanced_wput _)
      (balanced_seq (balanced_emit_list _ _ _ _ _ _ fun _ => hrec _)
        (balanced_seq (balanced_wput _) ?_))))
  rcases n with ⟨sp, specs, _ | src⟩
  · exact balanced_pure _
  · exact balanced_seq (balanced_wput _) (balanced_seq (balanced_wput _)
      (balanced_seq (hrec _) (balanced_wput _)))

theorem bal_emit_export_all (n : ExportAll) :
    Balanced (emit_export_all ctx recur n) :=
  balanced_seq (balanced_wput _) (balanced_seq (balanced_wput _)
    (balanced_seq (balanced_wput _) (balanced_seq (balanced_formattingSpace ctx)
      (balanced_seq (balanced_wput _) (balanced_seq (balanced_wput _)
        (balanced_seq (hrec _) (balanced_wput _)))))))

theorem bal_emit_lit : ∀ l, Balanced (emit_lit recur l) := by
  intro l
  unfold emit_lit
  cases l with
  | boolL sp v => exact balanced_ite (balanced_wput _) (balanced_wput _)
  | nullL sp => exact balanced_wput _
  | strL s => exact hrec _
  | numL n => exact hrec _
  | regex r =>
    rcases r with ⟨es, ev, _ | fl⟩
    · exact balanced_seq (balanced_wput _) (balanced_seq (balanced_wput _)
        (balanced_seq (balanced_wput _) (balanced_pure _)))
    · exact balanced_seq (balanced_wput _) (balanced_seq (balanced_wput _)
        (balanced_seq (balanced_wput _) (balanced_wput _)))

theorem bal_emit_str_lit (node : Str) : Balanced (emit_str_lit ctx node) := by
  unfold emit_str_lit
  cases get_text_of_node ctx node.span with
  | some s => exact balanced_wput _
  | none =>
    exact balanced_seq (balanced_wput _) (balanced_seq (balanced_wput _)
      (balanced_wput _))

theorem bal_emit_num_lit (num : Number) : Balanced (emit_num_lit ctx num) := by
  unfold emit_num_lit
  cases get_text_of_node ctx num.span with
  | some s => exact balanced_wput _
  | none =>
    refine balanced_ite ?_ (balanced_wput _)
    exact balanced_seq (balanced_ite (balanced_wput _) (balanced_pure _))
      (balanced_wput _)

theorem bal_emit_expr_or_super : ∀ n, Balanced (emit_expr_or_super recur n)
  | .expr _ => hrec _
  | .superE _ => balanced_wput _

theorem bal_emit_expr (e : Expr) : Balanced (emit_expr recur e) := by
  cases e <;> exact hrec _

theorem bal_emit_expr_or_spreads (parent : Span) (nodes : List ExprOrSpread)
    (format : LF) : Balanced (emit_expr_or_spreads ctx recur parent nodes format) :=
  balanced_emit_list _ _ _ _ _ _ fun _ => hrec _

theorem bal_emit_call_expr (sp : Span) (c : ExprOrSuper) (a : List ExprOrSpread) :
    Balanced (emit_call_expr ctx recur sp c a) :=
  balanced_seq (hrec _) (balanced_seq (balanced_wput _)
    (balanced_seq (bal_emit_expr_or_spreads hrec ctx sp a _) (balanced_wput _)))

theorem bal_emit_new_expr (sp : Span) (c : Expr) (a : Option (List ExprOrSpread)) :
    Balanced (emit_new_expr ctx recur sp c a) := by
  unfold emit_new_expr
  refine balanced_seq (balanced_wput _) (balanced_seq (balanced_wput _)
    (balanced_seq (hrec _) ?_))
  cases a with
  | none => exact balanced_pure _
  | some args =>
    exact balanced_seq (balanced_wput _)
      (balanced_seq (bal_emit_expr_or_spreads hrec ctx sp args _)
        (balanced_wput _))

theorem bal_emit_member_expr (sp : Span) (o : ExprOrSuper) (p : Expr) (c : Bool) :
    Balanced (emit_member_expr ctx recur sp o p c) := by
  unfold emit_member_expr
  refine balanced_seq (hrec _) ?_
  refine balanced_ite
    (balanced_seq (balanced_wput _) (balanced_seq (hrec _) (balanced_wput _))) ?_
  exact balanced_seq (balanced_ite (balanced_wput _) (balanced_pure _))
    (balanced_seq (balanced_wput _) (hrec _))

theorem bal_emit_arrow_expr (sp : Span) (ps : List Pat) (b : BlockStmtOrExpr)
    (a g : Option Span) : Balanced (emit_arrow_expr ctx recur sp ps b a g) := by
  unfold emit_arrow_expr
  exact balanced_seq
    (balanced_ite (balanced_seq (balanced_wput _) (balanced_formattingSpace ctx))
      (balanced_pure _))
    (balanced_seq (balanced_ite (balanced_wput _) (balanced_pure _))
      (balanced_seq (balanced_wput _)
        (balanced_seq (balanced_emit_list _ _ _ _ _ _ fun _ => hrec _)
          (balanced_seq (balanced_wput _) (balanced_seq (balanced_wput _)
            (hrec _))))))

theorem bal_emit_meta_prop_expr (sp : Span) (m p : Ident) :
    Balanced (emit_meta_prop_expr recur sp m p) :=
  balanced_seq (hrec _) (balanced_seq (balanced_wput _) (hrec _))

theorem bal_seq_expr_loop : ∀ first l, Balanced (seq_expr_loop ctx recur first l)
  | _, [] => balanced_pure _
  | first, e :: rest =>
    balanced_seq (balanced_ite (balanced_pure _) (balanced_wput _))
      (balanced_seq (balanced_formattingSpace ctx) (balanced_seq (hrec _)
        (bal_seq_expr_loop false rest)))

theorem bal_emit_seq_expr (sp : Span) (es : List Expr) :
    Balanced (emit_seq_expr ctx recur sp es) :=
  bal_seq_expr_loop hrec ctx true es

theorem bal_emit_assign_expr (sp : Span) (l : PatOrExpr) (op : String) (r : Expr) :
    Balanced (emit_assign_expr ctx recur sp l op r) :=
  balanced_seq (hrec _) (balanced_seq (balanced_formattingSpace ctx)
    (balanced_seq (balanced_wput _) (balanced_seq (balanced_formattingSpace ctx)
      (hrec _))))

theorem bal_emit_bin_expr (sp : Span) (op : String) (l r : Expr) :
    Balanced (emit_bin_expr ctx recur sp op l r) :=
  balanced_seq (hrec _) (balanced_seq (balanced_formattingSpace ctx)
    (balanced_seq (balanced_wput _) (balanced_seq (balanced_formattingSpace ctx)
      (hrec _))))

theorem bal_emit_class_expr (i : Option Ident) (k : ClassDef) :
    Balanced (emit_class_expr recur i k) :=
  balanced_seq (balanced_wput _)
    (balanced_seq (balanced_optLeadingSpace (fun _ => hrec _) i) (hrec _))

theorem bal_emit_class_trailing (k : ClassDef) :
    Balanced (emit_class_trailing ctx recur k) := by
  unfold emit_class_trailing
  refine balanced_seq ?_ (balanced_seq (balanced_wput _)
    (balanced_seq (balanced_emit_list _ _ _ _ _ _ fun _ => hrec _)
      (balanced_wput _)))
  cases k.superClass with
  | none => exact balanced_pure _
  | some sc =>
    exact balanced_seq (balanced_wput _) (balanced_seq (balanced_wput _)
      (balanced_seq (balanced_wput _) (hrec _)))

theorem bal_emit_class_method (m : ClassMethod) :
    Balanced (emit_class_method recur m) := by
  unfold emit_class_method
  refine balanced_seq
    (balanced_ite (balanced_seq (balanced_wput _) (balanced_wput _))
      (balanced_pure _)) (balanced_seq ?_ (hrec _))
  cases m.kind with
  | constructorK => exact balanced_wput _
  | methodK =>
    exact balanced_seq (balanced_ite (balanced_wput _) (balanced_pure _))
      (balanced_seq (balanced_wput _)
        (balanced_seq (balanced_ite (balanced_wput _) (balanced_pure _))
          (hrec _)))
  | getterK =>
    exact balanced_seq (balanced_wput _) (balanced_seq (balanced_wput _) (hrec _))
  | setterK =>
    exact balanced_seq (balanced_wput _) (balanced_seq (balanced_wput _) (hrec _))

theorem bal_emit_prop_name (n : PropName) : Balanced (emit_prop_name recur n) := by
  cases n <;> exact hrec _

theorem bal_emit_cond_expr (sp : Span) (t c a : Expr) :
    Balanced (emit_cond_expr ctx recur sp t c a) :=
  balanced_seq (hrec _) (balanced_seq (balanced_formattingSpace ctx)
    (balanced_seq (balanced_wput _) (balanced_seq (balanced_formattingSpace ctx)
      (balanced_seq (hrec _) (balanced_seq (balanced_formattingSpace ctx)
        (balanced_seq (balanced_wput _)
          (balanced_seq (balanced_formattingSpace ctx) (hrec _))))))))

theorem bal_emit_fn_expr (i : Option Ident) (fn : FunctionDef) :
    Balanced (emit_fn_expr recur i fn) :=
  balanced_seq (balanced_ite (balanced_wput _) (balanced_pure _))
    (balanced_seq (balanced_wput _)
      (balanced_seq (balanced_ite (balanced_wput _) (balanced_pure _))
        (balanced_seq (balanced_optLeadingSpace (fun _ => hrec _) i) (hrec _))))

theorem bal_emit_fn_trailing (fn : FunctionDef) :
    Balanced (emit_fn_trailing ctx recur fn) :=
  balanced_seq (balanced_wput _)
    (balanced_seq (balanced_emit_list _ _ _ _ _ _ fun _ => hrec _)
      (balanced_seq (balanced_wput _)
        (balanced_seq (balanced_formattingSpace ctx) (hrec _))))

theorem bal_emit_block_stmt_or_expr :
    ∀ n, Balanced (emit_block_stmt_or_expr recur n)
  | .block _ => hrec _
  | .expr e => by
    intro s a s1 h
    obtain ⟨u1, sA, hinc, h⟩ := bind_ok h
    injection hinc with h1 h2
    obtain ⟨u2, sB, he, h⟩ := bind_ok h
    have eB : sB.indent = sA.indent := hrec _ sA u2 sB he
    injection h with h3 h4
    rw [← h4]
    simp only [← h2] at eB
    rw [eB]
    simp

theorem bal_emit_this_expr (sp : Span) : Balanced (emit_this_expr sp) :=
  balanced_wput _

theorem bal_tpl_loop (quasis : List TplElement) (exprs : List Expr) :
    ∀ rem i, Balanced (tpl_loop recur quasis exprs i rem) := by
  intro rem
  induction rem with
  | zero => intro i; exact balanced_pure _
  | succ rem ih =>
    intro i
    unfold tpl_loop
    refine balanced_seq ?_ (ih (i+1))
    refine balanced_ite ?_ ?_
    · cases quasis.get? (i / 2) with
      | none => exact balanced_throwPanic
      | some q => exact hrec _
    · refine balanced_seq (balanced_wput _) (balanced_seq (balanced_wput _)
        (balanced_seq ?_ (balanced_wput _)))
      cases exprs.get? (i / 2) with
      | none => exact balanced_throwPanic
      | some e => exact hrec _

theorem bal_emit_tpl_lit (sp : Span) (tag : Option Expr) (exprs : List Expr)
    (quasis : List TplElement) :
    Balanced (emit_tpl_lit recur sp tag exprs quasis) := by
  unfold emit_tpl_lit
  refine balanced_seq (balanced_ite (balanced_pure _) balanced_throwPanic)
    (balanced_seq ?_ (balanced_seq (balanced_wput _)
      (balanced_seq (balanced_printStdout _)
        (balanced_seq (bal_tpl_loop hrec quasis exprs _ 0) (balanced_wput _)))))
  cases tag with
  | none => exact balanced_pure _
  | some t => exact hrec _

theorem bal_emit_quasi (n : TplElement) : Balanced (emit_quasi n) :=
  balanced_wput _

theorem bal_emit_unary_expr (sp : Span) (op : UnaryOp) (arg : Expr) :
    Balanced (emit_unary_expr recur sp op arg) :=
  balanced_seq (balanced_wput _)
    (balanced_seq (balanced_ite (balanced_wput _) (balanced_pure _)) (hrec _))

theorem bal_emit_update_expr (sp : Span) (op : UpdateOp) (pfx : Bool) (arg : Expr) :
    Balanced (emit_update_expr recur sp op pfx arg) := by
  unfold emit_update_expr
  exact balanced_ite (balanced_seq (balanced_wput _) (hrec _))
    (balanced_seq (hrec _) (balanced_wput _))

theorem bal_emit_yield_expr (sp : Span) (arg : Option Expr) (d : Bool) :
    Balanced (emit_yield_expr recur sp arg d) :=
  balanced_seq (balanced_wput _)
    (balanced_seq (balanced_ite (balanced_wput _) (balanced_pure _))
      (balanced_optLeadingSpace (fun _ => hrec _) arg))

theorem bal_emit_expr_or_spread (n : ExprOrSpread) :
    Balanced (emit_expr_or_spread recur n) := by
  rcases n with ⟨spread, e⟩
  exact balanced_seq (balanced_ite (balanced_wput _) (balanced_pure _)) (hrec _)

theorem bal_emit_await_expr (sp : Span) (arg : Expr) :
    Balanced (emit_await_expr recur sp arg) :=
  balanced_seq (balanced_wput _) (balanced_seq (balanced_wput _) (hrec _))

theorem bal_emit_array_lit (sp : Span) (elems : List (Option ExprOrSpread)) :
    Balanced (emit_array_lit ctx recur sp elems) :=
  balanced_seq (balanced_wput _)
    (balanced_seq
      (balanced_emit_list _ _ _ _ _ _ fun c =>
        balanced_optEmit (fun _ => hrec _) c)
      (balanced_wput _))

theorem bal_emit_object_lit (sp : Span) (props : List PropOrSpread) :
    Balanced (emit_object_lit ctx recur sp props) := by
  intro s a s1 h
  obtain ⟨u1, sA, hp1, h⟩ := bind_ok h
  have eA : sA.indent = s.indent := balanced_wput _ s u1 sA hp1
  obtain ⟨u2, sB, hl1, h⟩ := bind_ok h
  have eB : sB.indent = sA.indent := balanced_wput _ sA u2 sB hl1
  obtain ⟨u3, sC, hinc, h⟩ := bind_ok h
  injection hinc with h1 h2
  obtain ⟨u4, sD, hlist, h⟩ := bind_ok h
  have eD : sD.indent = sC.indent :=
    balanced_emit_list _ _ _ _ _ _ (fun _ => hrec _) sC u4 sD hlist
  obtain ⟨u5, sE, hl2, h⟩ := bind_ok h
  have eE : sE.indent = sD.indent := balanced_wput _ sD u5 sE hl2
  obtain ⟨u6, sF, hdec, h⟩ := bind_ok h
  injection hdec with h3 h4
  have eG : s1.indent = sF.indent := balanced_wput _ sF a s1 h
  rw [eG, ← h4]
  simp only [← h2] at eD
  simp only [St.indent] at *
  rw [eE, eD]
  simp
  omega

theorem bal_emit_prop (p : PropJs) : Balanced (emit_prop recur p) := by
  cases p <;> exact hrec _

theorem bal_emit_kv_prop (k : PropName) (v : Expr) :
    Balanced (emit_kv_prop ctx recur k v) :=
  balanced_seq (hrec _) (balanced_seq (balanced_wput _)
    (balanced_seq (balanced_formattingSpace ctx) (hrec _)))

theorem bal_emit_assign_prop (k : Ident) (v : Expr) :
    Balanced (emit_assign_prop recur k v) :=
  balanced_seq (hrec _) (balanced_seq (balanced_wput _) (hrec _))

theorem bal_emit_getter_prop (sp : Span) (k : PropName) (b : BlockStmt) :
    Balanced (emit_getter_prop ctx recur sp k b) :=
  balanced_seq (balanced_wput _) (balanced_seq (balanced_wput _)
    (balanced_seq (hrec _) (balanced_seq (balanced_wput _)
      (balanced_seq (balanced_wput _) (balanced_seq (balanced_wput _)
        (balanced_seq (balanced_formattingSpace ctx) (hrec _)))))))

theorem bal_emit_setter_prop (sp : Span) (k : PropName) (p : Pat) (b : BlockStmt) :
    Balanced (emit_setter_prop recur sp k p b) :=
  balanced_seq (balanced_wput _) (balanced_seq (balanced_wput _)
    (balanced_seq (hrec _) (balanced_seq (balanced_wput _)
      (balanced_seq (balanced_wput _) (balanced_seq (hrec _)
        (balanced_seq (balanced_wput _) (hrec _)))))))

theorem bal_emit_method_prop (k : PropName) (fn : FunctionDef) :
    Balanced (emit_method_prop recur k fn) :=
  balanced_seq (balanced_ite (balanced_wput _) (balanced_pure _))
    (balanced_seq (hrec _) (balanced_seq (balanced_wput _) (hrec _)))

theorem bal_emit_paren_expr (sp : Span) (e : Expr) :
    Balanced (emit_paren_expr recur sp e) :=
  balanced_seq (balanced_wput _) (balanced_seq (hrec _) (balanced_wput _))

theorem bal_emit_ident (i : Ident) : Balanced (emit_ident ctx i) := by
  unfold emit_ident
  refine balanced_seq (balanced_elcp ctx _) ?_
  cases get_text_of_node ctx i.span with
  | some s => exact balanced_wput _
  | none => exact balanced_wput _

theorem bal_emit_pat (p : Pat) : Balanced (emit_pat recur p) := by
  cases p <;> exact hrec _

theorem bal_emit_rest_pat (sp : Span) (arg : Pat) :
    Balanced (emit_rest_pat recur sp arg) :=
  balanced_seq (balanced_wput _) (hrec _)

theorem bal_emit_prop_or_spread (n : PropOrSpread) :
    Balanced (emit_prop_or_spread recur n) := by
  cases n <;> exact hrec _

theorem bal_emit_spread_element (sp : Span) (e : Expr) :
    Balanced (emit_spread_element recur sp e) :=
  balanced_seq (balanced_wput _) (hrec _)

theorem bal_emit_pat_or_expr (n : PatOrExpr) :
    Balanced (emit_pat_or_expr recur n) := by
  cases n <;> exact hrec _

theorem bal_emit_array_pat (sp : Span) (elems : List (Option Pat)) :
    Balanced (emit_array_pat ctx recur sp elems) :=
  balanced_seq (balanced_wput _)
    (balanced_seq
      (balanced_emit_list _ _ _ _ _ _ fun c =>
        balanced_optEmit (fun _ => hrec _) c)
      (balanced_wput _))

theorem bal_emit_assign_pat (sp : Span) (l : Pat) (r : Expr) :
    Balanced (emit_assign_pat ctx recur sp l r) :=
  balanced_seq (hrec _) (balanced_seq (balanced_formattingSpace ctx)
    (balanced_seq (balanced_wput _) (balanced_seq (balanced_formattingSpace ctx)
      (hrec _))))

theorem bal_emit_object_pat (sp : Span) (props : List ObjectPatProp) :
    Balanced (emit_object_pat ctx recur sp props) :=
  balanced_seq (balanced_wput _)
    (balanced_seq (balanced_emit_list _ _ _ _ _ _ fun _ => hrec _)
      (balanced_wput _))

theorem bal_emit_object_pat_prop (n : ObjectPatProp) :
    Balanced (emit_object_pat_prop recur n) := by
  cases n <;> exact hrec _

theorem bal_emit_object_kv_pat (k : PropName) (v : Pat) :
    Balanced (emit_object_kv_pat ctx recur k v) :=
  balanced_seq (hrec _) (balanced_seq (balanced_wput _)
    (balanced_seq (balanced_formattingSpace ctx) (balanced_seq (hrec _)
      (balanced_wput _))))

theorem bal_emit_object_assign_pat (k : Ident) (v : Option Expr) :
    Balanced (emit_object_assign_pat recur k v) := by
  unfold emit_object_assign_pat
  refine balanced_seq (hrec _) (balanced_seq (balanced_wput _) ?_)
  cases v with
  | none => exact balanced_pure _
  | some v =>
    exact balanced_seq (balanced_wput _) (balanced_seq (hrec _) (balanced_wput _))

theorem bal_emit_var_decl_or_pat (n : VarDeclOrPat) :
    Balanced (emit_var_decl_or_pat recur n) := by
  cases n <;> exact hrec _

theorem bal_emit_stmt_kind (s : Stmt) : Balanced (emit_stmt_kind recur s) := by
  cases s with
  | exprS e => exact balanced_seq (hrec _) (balanced_wput _)
  | _ => exact hrec _

theorem bal_emit_stmt (s : Stmt) : Balanced (emit_stmt recur s) := by
  unfold emit_stmt
  refine balanced_seq (bal_emit_stmt_kind hrec s) ?_
  cases s <;> first
    | exact balanced_pure _
    | exact balanced_wput _

theorem bal_emit_block_stmt (b : BlockStmt) :
    Balanced (emit_block_stmt ctx recur b) :=
  balanced_seq (balanced_wput _)
    (balanced_seq (balanced_emit_list _ _ _ _ _ _ fun _ => hrec _)
      (balanced_wput _))

theorem bal_emit_empty_stmt (sp : Span) : Balanced (emit_empty_stmt sp) :=
  balanced_wput _

theorem bal_emit_debugger_stmt (sp : Span) : Balanced (emit_debugger_stmt sp) :=
  balanced_seq (balanced_wput _) (balanced_wput _)

theorem bal_emit_with_stmt (sp : Span) (o : Expr) (b : Stmt) :
    Balanced (emit_with_stmt ctx recur sp o b) :=
  balanced_seq (balanced_wput _) (balanced_seq (balanced_formattingSpace ctx)
    (balanced_seq (balanced_wput _) (balanced_seq (hrec _)
      (balanced_seq (balanced_wput _) (hrec _)))))

theorem bal_emit_return_stmt (sp : Span) (arg : Option Expr) :
    Balanced (emit_return_stmt recur sp arg) := by
  unfold emit_return_stmt
  refine balanced_seq (balanced_wput _) (balanced_seq ?_ (balanced_wput _))
  cases arg with
  | none => exact balanced_pure _
  | some a => exact balanced_seq (balanced_wput _) (hrec _)

theorem bal_emit_labeled_stmt (sp : Span) (l : Ident) (b : Stmt) :
    Balanced (emit_labeled_stmt recur sp l b) :=
  balanced_seq (hrec _) (balanced_seq (balanced_wput _)
    (balanced_seq (balanced_wput _) (hrec _)))

theorem bal_emit_break_stmt (sp : Span) (l : Option Ident) :
    Balanced (emit_break_stmt recur sp l) :=
  balanced_seq (balanced_wput _)
    (balanced_seq (balanced_optLeadingSpace (fun _ => hrec _) l)
      (balanced_wput _))

theorem bal_emit_continue_stmt (sp : Span) (l : Option Ident) :
    Balanced (emit_continue_stmt recur sp l) :=
  balanced_seq (balanced_wput _)
    (balanced_seq (balanced_optLeadingSpace (fun _ => hrec _) l)
      (balanced_wput _))

theorem bal_emit_if_stmt (sp : Span) (t : Expr) (c : Stmt) (a : Option Stmt) :
    Balanced (emit_if_stmt recur sp t c a) := by
  unfold emit_if_stmt
  refine balanced_seq (balanced_wput _) (balanced_seq (balanced_wput _)
    (balanced_seq (balanced_wput _) (balanced_seq (hrec _)
      (balanced_seq (balanced_wput _) (balanced_seq (balanced_wput _)
        (balanced_seq (hrec _) ?_))))))
  cases a with
  | none => exact balanced_pure _
  | some alt =>
    exact balanced_seq (balanced_ite (balanced_wput _) (balanced_pure _))
      (balanced_seq (balanced_wput _) (balanced_seq (balanced_wput _) (hrec _)))

theorem bal_emit_switch_stmt (sp : Span) (d : Expr) (cs : List SwitchCase) :
    Balanced (emit_switch_stmt ctx recur sp d cs) :=
  balanced_seq (balanced_wput _) (balanced_seq (balanced_wput _)
    (balanced_seq (hrec _) (balanced_seq (balanced_wput _)
      (balanced_seq (balanced_wput _)
        (balanced_seq (balanced_emit_list _ _ _ _ _ _ fun _ => hrec _)
          (balanced_wput _))))))

theorem bal_emit_catch_clause (c : CatchClause) :
    Balanced (emit_catch_clause recur c) :=
  balanced_seq (balanced_wput _) (balanced_seq (balanced_wput _)
    (balanced_seq (balanced_wput _) (balanced_seq (hrec _)
      (balanced_seq (balanced_wput _) (balanced_seq (balanced_wput _)
        (hrec _))))))

theorem bal_emit_switch_case (c : SwitchCase) :
    Balanced (emit_switch_case ctx recur c) := by
  unfold emit_switch_case
  refine balanced_seq ?_ (balanced_bind
    (balanced_ite
      (balanced_seq (balanced_wput _) (balanced_seq (balanced_wput _)
        (balanced_pure _)))
      (balanced_seq (balanced_wput _) (balanced_pure _)))
    fun format => balanced_emit_list _ _ _ _ _ _ fun _ => hrec _)
  cases c.test with
  | none => exact balanced_wput _
  | some t =>
    exact balanced_seq (balanced_wput _) (balanced_seq (balanced_wput _)
      (hrec _))

theorem bal_emit_throw_stmt (sp : Span) (arg : Expr) :
    Balanced (emit_throw_stmt recur sp arg) :=
  balanced_seq (balanced_wput _) (balanced_seq (balanced_wput _)
    (balanced_seq (hrec _) (balanced_wput _)))

theorem bal_emit_try_stmt (sp : Span) (b : BlockStmt) (h : Option CatchClause)
    (f : Option BlockStmt) : Balanced (emit_try_stmt recur sp b h f) := by
  unfold emit_try_stmt
  refine balanced_seq (balanced_wput _) (balanced_seq (hrec _)
    (balanced_seq ?_ ?_))
  · cases h with
    | none => exact balanced_pure _
    | some hh => exact hrec _
  · cases f with
    | none => exact balanced_pure _
    | some ff => exact balanced_seq (balanced_wput _) (hrec _)

theorem bal_emit_while_stmt (sp : Span) (t : Expr) (b : Stmt) :
    Balanced (emit_while_stmt recur sp t b) :=
  balanced_seq (balanced_wput _) (balanced_seq (balanced_wput _)
    (balanced_seq (hrec _) (balanced_seq (balanced_wput _) (hrec _))))

theorem bal_emit_do_while_stmt (sp : Span) (b : Stmt) (t : Expr) :
    Balanced (emit_do_while_stmt recur sp b t) :=
  balanced_seq (balanced_wput _) (balanced_seq (balanced_wput _)
    (balanced_seq (hrec _) (balanced_seq (balanced_wput _)
      (balanced_seq (balanced_wput _) (hrec _)))))

theorem bal_emit_for_stmt (sp : Span) (i : Option VarDeclOrExpr)
    (t u : Option Expr) (b : Stmt) : Balanced (emit_for_stmt recur sp i t u b) :=
  balanced_seq (balanced_wput _) (balanced_seq (balanced_wput _)
    (balanced_seq (balanced_optEmit (fun _ => hrec _) i)
      (balanced_seq (balanced_wput _)
        (balanced_seq (balanced_optLeadingSpace (fun _ => hrec _) t)
          (balanced_seq (balanced_wput _)
            (balanced_seq (balanced_optLeadingSpace (fun _ => hrec _) u)
              (balanced_seq (balanced_wput _) (hrec _))))))))

theorem bal_emit_for_in_stmt (sp : Span) (l : VarDeclOrPat) (r : Expr) (b : Stmt) :
    Balanced (emit_for_in_stmt recur sp l r b) :=
  balanced_seq (balanced_wput _) (balanced_seq (balanced_wput _)
    (balanced_seq (hrec _) (balanced_seq (balanced_wput _)
      (balanced_seq (balanced_wput _) (balanced_seq (balanced_wput _)
        (balanced_seq (hrec _) (balanced_seq (balanced_wput _) (hrec _))))))))

theorem bal_emit_for_of_stmt (sp : Span) (l : VarDeclOrPat) (r : Expr) (b : Stmt) :
    Balanced (emit_for_of_stmt recur sp l r b) :=
  balanced_seq (balanced_wput _) (balanced_seq (balanced_wput _)
    (balanced_seq (hrec _) (balanced_seq (balanced_wput _)
      (balanced_seq (balanced_wput _) (balanced_seq (balanced_wput _)
        (balanced_seq (hrec _) (balanced_seq (balanced_wput _) (hrec _))))))))

theorem bal_emit_var_decl_or_expr (n : VarDeclOrExpr) :
    Balanced (emit_var_decl_or_expr recur n) := by
  cases n <;> exact hrec _

theorem bal_emit_decl (d : Decl) : Balanced (emit_decl recur d) := by
  cases d <;> exact hrec _

theorem bal_emit_class_decl (i : Ident) (k : ClassDef) :
    Balanced (emit_class_decl recur i k) :=
  balanced_seq (balanced_wput _) (balanced_seq (balanced_wput _)
    (balanced_seq (hrec _) (hrec _)))

theorem bal_emit_fn_decl (i : Ident) (fn : FunctionDef) :
    Balanced (emit_fn_decl recur i fn) :=
  balanced_seq
    (balanced_ite (balanced_seq (balanced_wput _) (balanced_wput _))
      (balanced_pure _))
    (balanced_seq (balanced_wput _)
      (balanced_seq (balanced_ite (balanced_wput _) (balanced_pure _))
        (balanced_seq (balanced_wput _) (balanced_seq (hrec _) (hrec _)))))

theorem bal_emit_var_decl (v : VarDecl) : Balanced (emit_var_decl ctx recur v) :=
  balanced_seq (balanced_wput _) (balanced_seq (balanced_wput _)
    (balanced_emit_list _ _ _ _ _ _ fun _ => hrec _))

theorem bal_emit_var_declarator (v : VarDeclarator) :
    Balanced (emit_var_declarator ctx recur v) := by
  unfold emit_var_declarator
  refine balanced_seq (hrec _) ?_
  cases v.init with
  | none => exact balanced_pure _
  | some i =>
    exact balanced_seq (balanced_formattingSpace ctx) (balanced_seq
      (balanced_wput _) (balanced_seq (balanced_formattingSpace ctx) (hrec _)))

end BalanceLemmas

/-- Every emitter routine, at every fuel, is indent-balanced on `Ok`
exits. -/
theorem balanced_emitN : ∀ (fuel : Nat) (ctx : Ctx) (n : ENode),
    Balanced (emitN fuel ctx n) := by
  intro fuel
  induction fuel with
  | zero => intro ctx n; exact balanced_throwFuel
  | succ fuel ih =>
    intro ctx n
    have hrec : ∀ n2, Balanced (emitN fuel ctx n2) := ih ctx
    show Balanced (emitNBody ctx (emitN fuel ctx) n)
    cases n with
    | module m => exact bal_emit_module hrec m
    | moduleItem n => exact bal_emit_module_item hrec n
    | moduleDecl n => exact bal_emit_module_decl hrec n
    | exportDefaultDecl n => exact bal_emit_export_default_decl hrec n
    | importDecl n => exact bal_emit_import hrec ctx n
    | importSpecific n => exact bal_emit_import_specific hrec n
    | exportSpecifierN n => exact bal_emit_export_specifier hrec n
    | namedExport n => exact bal_emit_named_export hrec ctx n
    | exportAllD n => exact bal_emit_export_all hrec ctx n
    | lit l => exact bal_emit_lit hrec l
    | strLit s => exact bal_emit_str_lit hrec ctx s
    | numLit n => exact bal_emit_num_lit hrec ctx n
    | exprOrSuper n => exact bal_emit_expr_or_super hrec n
    | expr e => exact bal_emit_expr hrec e
    | callExpr sp c a => exact bal_emit_call_expr hrec ctx sp c a
    | newExpr sp c a => exact bal_emit_new_expr hrec ctx sp c a
    | memberExpr sp o p c => exact bal_emit_member_expr hrec ctx sp o p c
    | arrowExpr sp ps b a g => exact bal_emit_arrow_expr hrec ctx sp ps b a g
    | metaPropExpr sp m p => exact bal_emit_meta_prop_expr hrec sp m p
    | seqExpr sp es => exact bal_emit_seq_expr hrec ctx sp es
    | assignExpr sp l o r => exact bal_emit_assign_expr hrec ctx sp l o r
    | binExpr sp o l r => exact bal_emit_bin_expr hrec ctx sp o l r
    | classExpr i k => exact bal_emit_class_expr hrec i k
    | classTrailing k => exact bal_emit_class_trailing hrec ctx k
    | classMethod m => exact bal_emit_class_method hrec m
    | propName n => exact bal_emit_prop_name hrec n
    | condExpr sp t c a => exact bal_emit_cond_expr hrec ctx sp t c a
    | fnExpr i fn => exact bal_emit_fn_expr hrec i fn
    | fnTrailing fn => exact bal_emit_fn_trailing hrec ctx fn
    | blockStmtOrExpr n => exact bal_emit_block_stmt_or_expr hrec n
    | thisExpr sp => exact bal_emit_this_expr hrec sp
    | tplLit sp t e q => exact bal_emit_tpl_lit hrec sp t e q
    | quasi n => exact bal_emit_quasi hrec n
    | unaryExpr sp o a => exact bal_emit_unary_expr hrec sp o a
    | updateExpr sp o p a => exact bal_emit_update_expr hrec sp o p a
    | yieldExpr sp a d => exact bal_emit_yield_expr hrec sp a d
    | exprOrSpread n => exact bal_emit_expr_or_spread hrec n
    | awaitExpr sp a => exact bal_emit_await_expr hrec sp a
    | arrayLit sp e => exact bal_emit_array_lit hrec ctx sp e
    | objectLit sp p => exact bal_emit_object_lit hrec ctx sp p
    | propJs p => exact bal_emit_prop hrec p
    | kvProp k v => exact bal_emit_kv_prop hrec ctx k v
    | assignProp k v => exact bal_emit_assign_prop hrec k v
    | getterProp sp k b => exact bal_emit_getter_prop hrec ctx sp k b
    | setterProp sp k p b => exact bal_emit_setter_prop hrec sp k p b
    | methodProp k f => exact bal_emit_method_prop hrec k f
    | parenExpr sp e => exact bal_emit_paren_expr hrec sp e
    | ident i => exact bal_emit_ident hrec ctx i
    | pat p => exact bal_emit_pat hrec p
    | restPat sp a => exact bal_emit_rest_pat hrec sp a
    | propOrSpread n => exact bal_emit_prop_or_spread hrec n
    | spreadElement sp e => exact bal_emit_spread_element hrec sp e
    | patOrExpr n => exact bal_emit_pat_or_expr hrec n
    | arrayPat sp e => exact bal_emit_array_pat hrec ctx sp e
    | assignPat sp l r => exact bal_emit_assign_pat hrec ctx sp l r
    | objectPat sp p => exact bal_emit_object_pat hrec ctx sp p
    | objectPatProp n => exact bal_emit_object_pat_prop hrec n
    | objectKvPat k v => exact bal_emit_object_kv_pat hrec ctx k v
    | objectAssignPat k v => exact bal_emit_object_assign_pat hrec k v
    | varDeclOrPat n => exact bal_emit_var_decl_or_pat hrec n
    | stmt s => exact bal_emit_stmt hrec s
    | blockStmt b => exact bal_emit_block_stmt hrec ctx b
    | emptyStmt sp => exact bal_emit_empty_stmt hrec sp
    | debuggerStmt sp => exact bal_emit_debugger_stmt hrec sp
    | withStmt sp o b => exact bal_emit_with_stmt hrec ctx sp o b
    | returnStmt sp a => exact bal_emit_return_stmt hrec sp a
    | labeledStmt sp l b => exact bal_emit_labeled_stmt hrec sp l b
    | breakStmt sp l => exact bal_emit_break_stmt hrec sp l
    | continueStmt sp l => exact bal_emit_continue_stmt hrec sp l
    | ifStmt sp t c a => exact bal_emit_if_stmt hrec sp t c a
    | switchStmt sp d cs => exact bal_emit_switch_stmt hrec ctx sp d cs
    | catchClause c => exact bal_emit_catch_clause hrec c
    | switchCase c => exact bal_emit_switch_case hrec ctx c
    | throwStmt sp a => exact bal_emit_throw_stmt hrec sp a
    | tryStmt sp b h f => exact bal_emit_try_stmt hrec sp b h f
    | whileStmt sp t b => exact bal_emit_while_stmt hrec sp t b
    | doWhileStmt sp b t => exact bal_emit_do_while_stmt hrec sp b t
    | forStmt sp i t u b => exact bal_emit_for_stmt hrec sp i t u b
    | forInStmt sp l r b => exact bal_emit_for_in_stmt hrec sp l r b
    | forOfStmt sp l r b => exact bal_emit_for_of_stmt hrec sp l r b
    | varDeclOrExpr n => exact bal_emit_var_decl_or_expr hrec n
    | decl d => exact bal_emit_decl hrec d
    | classDecl i k => exact bal_emit_class_decl hrec i k
    | fnDecl i fn => exact bal_emit_fn_decl hrec i fn
    | varDecl v => exact bal_emit_var_decl hrec ctx v
    | varDeclarator v => exact bal_emit_var_declarator hrec ctx v

/-- `emit_script` is indent-balanced on `Ok` exits. -/
theorem balanced_emit_script (ctx : Ctx) (fuel : Nat) (stmts : List Stmt) :
    Balanced (emit_script ctx fuel stmts) :=
  balanced_emit_list _ _ _ _ _ _ fun _ => balanced_emitN fuel ctx _

/-- `emit_stmts` is indent-balanced on `Ok` exits. -/
theorem balanced_emit_stmts (ctx : Ctx) (fuel : Nat) (stmts : List Stmt) :
    Balanced (emit_stmts ctx fuel stmts) :=
  balanced_emitEach (fun _ => balanced_emitN fuel ctx _) stmts

/-!  ## Small run equations -/

theorem run_wput_none {t : WTok} {s : St} (hb : s.budget = none) :
    wput t s = (.ok (), { s with out := s.out ++ [t] }) := by
  unfold wput
  rw [hb]

theorem emit_pure_bind (a : α) (f : α → EmitM β) : (pure a >>= f) = f a := rfl

theorem emit_bind_assoc (m : EmitM α) (f : α → EmitM β) (g : β → EmitM γ) :
    ((m >>= f) >>= g) = (m >>= fun x => f x >>= g) := by
  funext s
  simp only [bind_run]
  rcases m s with ⟨r, s1⟩
  cases r with
  | ok a => rfl
  | error e => rfl

theorem bind_pure_unit (m : EmitM Unit) : (m >>= fun _ => pure ()) = m := by
  funext s
  rw [bind_run]
  rcases m s with ⟨r, s1⟩
  cases r with
  | ok a => cases a; rfl
  | error e => rfl

/-!  ## Claims -/

/-- C1: the spec claims that the text emitted for any parser-producible
AST re-parses to a structurally equal AST (I1/P1).  The code refutes
this: for the do-while statement `do ; while (x);` the emitted token
stream is `do ;` newline `while x` newline — the mandatory parentheses
around the do-while test (and the terminating semicolon) are missing,
so the output is not parseable ECMAScript at all, and `parse(emit(A))`
cannot equal `A`.  This theorem evaluates `emit_script` at that failing
input: the exact output contains no `(` token, and its text is
`do ;\nwhile x\n`. -/
theorem claim_C1_reparse_counterexample :
    emit_script ctx0 10 [stmtDoWhile] st0
      = (.ok (), ⟨[.keyword none "do", .space, .punct ";", .line,
          .keyword none "while", .space, .symbol ⟨4, 5, 0⟩ "x", .line],
          [], 0, none, []⟩)
    ∧ ([WTok.keyword none "do", .space, .punct ";", .line,
        .keyword none "while", .space, .symbol ⟨4, 5, 0⟩ "x", .line].contains
          (WTok.punct "(")) = false
    ∧ emittedText [.keyword none "do", .space, .punct ";", .line,
        .keyword none "while", .space, .symbol ⟨4, 5, 0⟩ "x", .line]
      = "do ;\nwhile x\n" :=
  ⟨rfl, by decide, by decide⟩

/-- C9: the spec claims all bytes produced by emission go only to the
writer sink (plus source-map events).  The code refutes this:
`emit_tpl_lit` contains a stray `println!`, so emitting the template
literal `` `a` `` writes the line `1` to stdout. -/
theorem claim_C9_stdout_leak :
    emitN 5 ctx0 (.tplLit dummySpan none [] [⟨dummySpan, "a"⟩]) st0
      = (.ok (), ⟨[.punct "`", .strLit dummySpan "a", .punct "`"],
          ["1"], 0, none, []⟩)
    ∧ (⟨[WTok.punct "`", .strLit dummySpan "a", .punct "`"],
        ["1"], 0, none, []⟩ : St).stdout ≠ ([] : List String) :=
  ⟨rfl, by decide⟩

/-- C2 (counterexample): the claim demands indent balance on every exit
path including early returns caused by sink errors.  Refuted: emitting
the script `() => x` against a sink whose fourth write fails leaves the
writer with indent depth 1 — the `increase_indent` in
`emit_block_stmt_or_expr` is never matched because the failing
`write_symbol` makes `?` return early, skipping `decrease_indent`. -/
theorem claim_C2_counterexample :
    emit_script ctx0 10 [stmtArrow] stB3
      = (.error .sink, ⟨[.punct "(", .punct ")", .punct "=>"], [], 1,
          some 0, []⟩)
    ∧ (⟨[WTok.punct "(", .punct ")", .punct "=>"], [], 1, some 0, []⟩ : St).indent
        ≠ stB3.indent :=
  ⟨rfl, by decide⟩

/-- C2 (amended): on every exit that returns `Ok` — though not on early
error returns — each `increase_indent` in every emitter routine is
matched by a `decrease_indent`, so at the end of a successful
`emit_script` / `emit_module` (and `emit_stmts`) the writer's indent
depth equals its initial value. -/
theorem claim_C2_indent_balance :
    ∀ (ctx : Ctx) (fuel : Nat),
      (∀ n : ENode, Balanced (emitN fuel ctx n))
      ∧ (∀ stmts : List Stmt, Balanced (emit_script ctx fuel stmts))
      ∧ (∀ stmts : List Stmt, Balanced (emit_stmts ctx fuel stmts)) :=
  fun ctx fuel =>
    ⟨fun n => balanced_emitN fuel ctx n,
     fun stmts => balanced_emit_script ctx fuel stmts,
     fun stmts => balanced_emit_stmts ctx fuel stmts⟩

/-- C2 (witness): a successful concrete run of `emit_script` — the
empty script under `SourceFileStatements` emits one line terminator —
to which the balance theorem applies: the final indent equals the
initial one. -/
theorem claim_C2_witness :
    emit_script ctx0 4 [] st0 = (.ok (), ⟨[.line], [], 0, none, []⟩)
    ∧ (⟨[WTok.line], [], 0, none, []⟩ : St).indent = st0.indent :=
  ⟨rfl, (claim_C2_indent_balance ctx0 4).2.1 [] st0 ()
    ⟨[WTok.line], [], 0, none, []⟩ rfl⟩

/-- C8: `emit_list5` writes a trailing comma only when the format has
`CommaDelimited` and `has_trailing_comma` holds; since the AST records
no trailing-comma bit, `has_trailing_comma` is `AllowTrailingComma`
and-ed with a hardcoded `false`, so the trailing-comma step of
`emit_list5` never writes anything, for every format. -/
theorem claim_C8_no_trailing_comma :
    ∀ (format : LF) (s : St),
      list5_has_trailing_comma format = false
      ∧ emit_trailing_comma_step format s = (.ok (), s) := by
  intro format s
  have h : list5_has_trailing_comma format = false := by
    simp [list5_has_trailing_comma]
  refine ⟨h, ?_⟩
  unfold emit_trailing_comma_step
  rw [h]
  rw [if_neg (by simp)]
  rfl

/-- C3 (counterexample): the claim says `emit_list5` treats the list as
empty when `start ≥ len` and then, under `OptionalIfEmpty`, returns
immediately with nothing written.  The code tests `start > len`
instead: with one child, `start = 1`, `count = 1` and a format of just
`OptionalIfEmpty` — empty by the claim's `start ≥ len` — the code takes
the non-empty branch and panics indexing `children[start]`, instead of
returning `Ok` with nothing written. -/
theorem claim_C3_counterexample :
    (1 : Nat) ≥ ([(⟨dummySpan, "x"⟩ : Ident)] : List Ident).length
    ∧ lfContains lfOptionalIfEmpty lfOptionalIfEmpty = true
    ∧ emit_list5 ctx0 (fun i => emitN 3 ctx0 (.ident i)) Ident.span dummySpan
        (some [⟨dummySpan, "x"⟩]) lfOptionalIfEmpty 1 1 st0
      = (.error .panicked, st0) :=
  ⟨by decide, by decide, rfl⟩

/-- C3 (amended): `emit_list5` treats the list as empty exactly when
the children are absent, or `count = 0`, or `start` is strictly greater
than the children's length; and whenever the list is empty in this
sense and the format contains `OptionalIfEmpty`, it returns immediately
with nothing written. -/
theorem claim_C3_list_empty :
    ∀ {α : Type} (children : Option (List α)) (start count : Nat),
      (list_is_empty children start count = true
        ↔ children = none ∨ count = 0 ∨ start > (children.getD []).length)
      ∧ ∀ (ctx : Ctx) (emitChild : α → EmitM Unit) (childSpan : α → Span)
          (parent : Span) (format : LF) (s : St),
          list_is_empty children start count = true →
          lfContains format lfOptionalIfEmpty = true →
          emit_list5 ctx emitChild childSpan parent children format start count s
            = (.ok (), s) := by
  intro α children start count
  constructor
  · cases children with
    | none => simp [list_is_empty]
    | some cs =>
      simp [list_is_empty]
      tauto
  · intro ctx emitChild childSpan parent format s hEmpty hOpt
    unfold emit_list5
    by_cases h1 : (children.isNone && lfContains format lfOptionalIfUndefined) = true
    · rw [if_pos h1]
      rfl
    · rw [if_neg h1]
      simp only [hEmpty, hOpt]
      rfl

/-- C3 (witness): absent children with `OptionalIfEmpty` — the theorem
applies and the call returns `Ok` with the state untouched. -/
theorem claim_C3_witness :
    emit_list5 ctx0 (fun i => emitN 3 ctx0 (.ident i)) Ident.span dummySpan
      (none : Option (List Ident)) lfOptionalIfEmpty 0 5 st0 = (.ok (), st0) :=
  (claim_C3_list_empty (none : Option (List Ident)) 0 5).2 ctx0
    (fun i => emitN 3 ctx0 (.ident i)) Ident.span dummySpan lfOptionalIfEmpty st0
    (by decide) (by decide)

/-- C7 (counterexample): the claim says every numeric or string literal
with a non-dummy span and empty context is emitted verbatim as its
source snippet.  Refuted by a literal whose span is empty (`lo = hi =
5`): the span is not dummy and the context is empty, but its snippet is
the empty string, so `get_text_of_node` rejects it and the emitter
falls back to quoting the cooked value — the emitted text `'x'` is not
the snippet. -/
theorem claim_C7_counterexample :
    strEmptySnippet.span.isDummy = false
    ∧ strEmptySnippet.span.ctxt = 0
    ∧ ctx0.snippet strEmptySnippet.span = ""
    ∧ emit_str_lit ctx0 strEmptySnippet st0
        = (.ok (), ⟨[.punct "\x27", .strLit ⟨5, 5, 0⟩ "x", .punct "\x27"],
            [], 0, none, []⟩)
    ∧ emittedText [.punct "\x27", .strLit ⟨5, 5, 0⟩ "x", .punct "\x27"]
        ≠ ctx0.snippet strEmptySnippet.span :=
  ⟨rfl, rfl, rfl, rfl, by decide⟩

/-- C7 (amended): for every numeric or string literal whose span is not
dummy, whose syntactic context is empty, and whose source snippet is
non-empty, the emitted token is exactly one string-literal token whose
text is the original source snippet, verbatim. -/
theorem claim_C7_literal_preservation :
    ∀ (ctx : Ctx) (s : St),
      s.budget = none →
      (∀ node : Str, node.span.isDummy = false → node.span.ctxt = 0 →
        ctx.snippet node.span ≠ "" →
        emit_str_lit ctx node s
          = (.ok (), { s with
              out := s.out ++ [.strLit node.span (ctx.snippet node.span)] }))
      ∧ (∀ num : Number, num.span.isDummy = false → num.span.ctxt = 0 →
        ctx.snippet num.span ≠ "" →
        emit_num_lit ctx num s
          = (.ok (), { s with
              out := s.out ++ [.strLit num.span (ctx.snippet num.span)] })) := by
  intro ctx s hb
  have hget : ∀ sp : Span, sp.isDummy = false → sp.ctxt = 0 →
      ctx.snippet sp ≠ "" → get_text_of_node ctx sp = some (ctx.snippet sp) := by
    intro sp hD hC hS
    unfold get_text_of_node
    rw [if_neg (by simp [hD, hC])]
    rw [if_neg (by simp [hS])]
  constructor
  · intro node hD hC hS
    unfold emit_str_lit
    rw [hget node.span hD hC hS]
    exact run_wput_none hb
  · intro num hD hC hS
    unfold emit_num_lit
    rw [hget num.span hD hC hS]
    exact run_wput_none hb

theorem punctM_run_none {p : String} {s : St} (hb : s.budget = none) :
    punctM p s = (.ok (), { s with out := s.out ++ [.punct p] }) :=
  run_wput_none hb

theorem keywordM_run_none {k : String} {s : St} (hb : s.budget = none) :
    keywordM k s = (.ok (), { s with out := s.out ++ [.keyword none k] }) :=
  run_wput_none hb

theorem spaceM_run_none {s : St} (hb : s.budget = none) :
    spaceM s = (.ok (), { s with out := s.out ++ [.space] }) :=
  run_wput_none hb

/-- The side condition of rule R1 (`should_emit_whitespace_before_operand`)
characterised the way the spec states it: a word operator before an
alphanumeric-starting operand, `+` before a prefix `++` or unary `+`,
or `-` before a prefix `--` or unary `-`. -/
theorem swbo_iff (op : UnaryOp) (arg : Expr) :
    should_emit_whitespace_before_operand op arg = true
      ↔ (((op = .voidOp ∨ op = .typeofOp ∨ op = .deleteOp)
            ∧ startsWithAlphaNum arg = true)
        ∨ (op = .plus
            ∧ ((∃ sp a, arg = .update sp .plusPlus true a)
              ∨ (∃ sp a, arg = .unary sp .plus a)))
        ∨ (op = .minus
            ∧ ((∃ sp a, arg = .update sp .minusMinus true a)
              ∨ (∃ sp a, arg = .unary sp .minus a)))) := by
  cases op with
  | voidOp => simp [should_emit_whitespace_before_operand]
  | typeofOp => simp [should_emit_whitespace_before_operand]
  | deleteOp => simp [should_emit_whitespace_before_operand]
  | plus =>
    cases arg <;> try simp [should_emit_whitespace_before_operand]
    case update sp2 op2 pfx a2 =>
      cases op2 <;> cases pfx <;> simp [should_emit_whitespace_before_operand]
    case unary sp2 op2 a2 =>
      cases op2 <;> simp [should_emit_whitespace_before_operand]
  | minus =>
    cases arg <;> try simp [should_emit_whitespace_before_operand]
    case update sp2 op2 pfx a2 =>
      cases op2 <;> cases pfx <;> simp [should_emit_whitespace_before_operand]
    case unary sp2 op2 a2 =>
      cases op2 <;> simp [should_emit_whitespace_before_operand]
  | bang => cases arg <;> simp [should_emit_whitespace_before_operand]
  | tilde => cases arg <;> simp [should_emit_whitespace_before_operand]

/-- C4: for every non-computed member expression the emitter writes,
between the object and the property, two dots exactly when
`needs_2dots_for_property_access` fires — which happens exactly when
the object is a numeric literal whose original source text
(`span_to_string`) contains no `.` — and exactly one dot otherwise. -/
theorem claim_C4_member_dots :
    ∀ (ctx : Ctx) (recur : ENode → EmitM Unit) (sp : Span) (obj : ExprOrSuper)
      (prop : Expr) (s s1 : St),
      recur (.exprOrSuper obj) s = (.ok (), s1) →
      s1.budget = none →
      (emit_member_expr ctx recur sp obj prop false s
          = recur (.expr prop)
              { s1 with out := s1.out
                  ++ (if needs_2dots_for_property_access ctx obj then
                        [WTok.punct ".", WTok.punct "."]
                      else [WTok.punct "."]) })
      ∧ (needs_2dots_for_property_access ctx obj = true
          ↔ ∃ n : Number, obj = .expr (.lit (.numL n))
              ∧ strContainsChar (ctx.spanToString n.span) '.' = false) := by
  intro ctx recur sp obj prop s s1 hrun hb
  constructor
  · unfold emit_member_expr
    rw [bind_ok_forward hrun]
    rw [if_neg (by simp)]
    by_cases hn : needs_2dots_for_property_access ctx obj = true
    · simp only [if_pos hn]
      rw [bind_ok_forward (punctM_run_none hb)]
      have hb2 : ({ s1 with out := s1.out ++ [WTok.punct "."] } : St).budget
          = none := hb
      rw [bind_ok_forward (punctM_run_none hb2)]
      rw [List.append_assoc]
      rfl
    · simp only [if_neg hn]
      rw [emit_pure_bind]
      rw [bind_ok_forward (punctM_run_none hb)]
  · constructor
    · intro h
      cases obj with
      | superE sp2 => simp [needs_2dots_for_property_access] at h
      | expr e =>
        cases e <;> try simp [needs_2dots_for_property_access] at h
        case lit l =>
          cases l with
          | numL n =>
            refine ⟨n, rfl, ?_⟩
            simpa [needs_2dots_for_property_access] using h
          | boolL a b => simp [needs_2dots_for_property_access] at h
          | nullL a => simp [needs_2dots_for_property_access] at h
          | strL a => simp [needs_2dots_for_property_access] at h
          | regex a => simp [needs_2dots_for_property_access] at h
    · rintro ⟨n, rfl, hc⟩
      simp [needs_2dots_for_property_access, hc]

/-- C4 (witness): the spec's scenario 1, `1..toString` — the number's
original text `1` has no dot, so two dots are written between it and
`toString`. -/
theorem claim_C4_witness :
    emit_member_expr ctxW (emitN 5 ctxW) ⟨10, 20, 0⟩
        (.expr (.lit (.numL ⟨⟨10, 11, 0⟩, ⟨false, false, "1"⟩⟩)))
        (.ident ⟨⟨12, 20, 0⟩, "toString"⟩) false st0
      = (.ok (), ⟨[.strLit ⟨10, 11, 0⟩ "1", .punct ".", .punct ".",
          .symbol ⟨12, 20, 0⟩ "toString"], [], 0, none, []⟩) := by
  have h := (claim_C4_member_dots ctxW (emitN 5 ctxW) ⟨10, 20, 0⟩
    (.expr (.lit (.numL ⟨⟨10, 11, 0⟩, ⟨false, false, "1"⟩⟩)))
    (.ident ⟨⟨12, 20, 0⟩, "toString"⟩) st0
    ⟨[.strLit ⟨10, 11, 0⟩ "1"], [], 0, none, []⟩ rfl rfl).1
  rw [h]
  rfl

/-- C5: `emit_unary_expr` writes a hard space between the operator and
the operand exactly when `should_emit_whitespace_before_operand` fires,
and that condition holds precisely in the three cases of rule R1: a
word operator (`void`, `typeof`, `delete`) whose operand's text starts
alphanumeric; unary `+` before a prefix `++` update or unary `+`;
unary `-` before a prefix `--` update or unary `-`. -/
theorem claim_C5_unary_space :
    ∀ (recur : ENode → EmitM Unit) (sp : Span) (op : UnaryOp) (arg : Expr)
      (s : St),
      s.budget = none →
      (emit_unary_expr recur sp op arg s
        = recur (.expr arg)
            { s with out := s.out ++ [WTok.keyword none op.as_str]
                ++ (if should_emit_whitespace_before_operand op arg then
                      [WTok.space]
                    else []) })
      ∧ (should_emit_whitespace_before_operand op arg = true
          ↔ (((op = .voidOp ∨ op = .typeofOp ∨ op = .deleteOp)
                ∧ startsWithAlphaNum arg = true)
            ∨ (op = .plus
                ∧ ((∃ sp2 a, arg = .update sp2 .plusPlus true a)
                  ∨ (∃ sp2 a, arg = .unary sp2 .plus a)))
            ∨ (op = .minus
                ∧ ((∃ sp2 a, arg = .update sp2 .minusMinus true a)
                  ∨ (∃ sp2 a, arg = .unary sp2 .minus a))))) := by
  intro recur sp op arg s hb
  refine ⟨?_, swbo_iff op arg⟩
  unfold emit_unary_expr
  rw [bind_ok_forward (keywordM_run_none hb)]
  by_cases hw : should_emit_whitespace_before_operand op arg = true
  · simp only [if_pos hw]
    have hb2 : ({ s with out := s.out ++ [WTok.keyword none op.as_str] } : St).budget
        = none := hb
    rw [bind_ok_forward (spaceM_run_none hb2)]
  · simp only [if_neg hw]
    rw [emit_pure_bind]
    rw [List.append_nil]

/-- C5 (witness): the spec's scenario 2, `+ ++x` — the mandatory
separating space is written between the unary `+` and the prefix
increment. -/
theorem claim_C5_witness :
    emit_unary_expr (emitN 5 ctx0) dummySpan .plus
        (.update dummySpan .plusPlus true (.ident ⟨dummySpan, "x"⟩)) st0
      = (.ok (), ⟨[.keyword none "+", .space, .operator "++",
          .symbol dummySpan "x"], [], 0, none, []⟩) := by
  have h := (claim_C5_unary_space (emitN 5 ctx0) dummySpan .plus
    (.update dummySpan .plusPlus true (.ident ⟨dummySpan, "x"⟩)) st0 rfl).1
  rw [h]
  rfl

/-- C7 (witness): literals over the spans `⟨30,35⟩` and `⟨40,43⟩`,
whose original texts in `ctxW` are `zz` and `0x5`, are emitted as
exactly those snippets. -/
theorem claim_C7_witness :
    emit_str_lit ctxW strWithSnippet st0
      = (.ok (), { st0 with
          out := st0.out ++ [.strLit strWithSnippet.span
            (ctxW.snippet strWithSnippet.span)] })
    ∧ emit_num_lit ctxW numWithSnippet st0
      = (.ok (), { st0 with
          out := st0.out ++ [.strLit numWithSnippet.span
            (ctxW.snippet numWithSnippet.span)] }) :=
  ⟨(claim_C7_literal_preservation ctxW st0 rfl).1 strWithSnippet rfl rfl
      (by decide),
   (claim_C7_literal_preservation ctxW st0 rfl).2 numWithSnippet rfl rfl
      (by decide)⟩

/-- Unfolding one step of the template interleaving loop. -/
theorem tpl_loop_succ (recur : ENode → EmitM Unit) (quasis : List TplElement)
    (exprs : List Expr) (i rem : Nat) :
    tpl_loop recur quasis exprs i (rem+1) = (do
      (if i % 2 == 0 then
        match quasis.get? (i / 2) with
        | some q => recur (.quasi q)
        | none => throwPanic
      else do
        punctM "$"
        punctM "\x7b"
        (match exprs.get? (i / 2) with
          | some e => recur (.expr e)
          | none => throwPanic)
        punctM "\x7d")
      tpl_loop recur quasis exprs (i+1) rem) := rfl

/-- The exhausted template loop does nothing. -/
theorem tpl_loop_zero (recur : ENode → EmitM Unit) (quasis : List TplElement)
    (exprs : List Expr) (i : Nat) :
    tpl_loop recur quasis exprs i 0 = pure () := rfl

/-- At an even index the template loop emits the quasi `i / 2`. -/
theorem tpl_loop_even (recur : ENode → EmitM Unit) (quasis : List TplElement)
    (exprs : List Expr) (k rem : Nat) :
    tpl_loop recur quasis exprs (2*k) (rem+1) = (do
      (match quasis.get? k with
        | some q => recur (.quasi q)
        | none => throwPanic)
      tpl_loop recur quasis exprs (2*k+1) rem) := by
  rw [tpl_loop_succ]
  have h1 : 2*k % 2 = 0 := by omega
  have h2 : 2*k / 2 = k := by omega
  rw [h1, h2]
  exact rfl

/-- At an odd index the template loop emits the interpolation `i / 2`. -/
theorem tpl_loop_odd (recur : ENode → EmitM Unit) (quasis : List TplElement)
    (exprs : List Expr) (k rem : Nat) :
    tpl_loop recur quasis exprs (2*k+1) (rem+1) = (do
      (do punctM "$"
          punctM "\x7b"
          (match exprs.get? k with
            | some e => recur (.expr e)
            | none => throwPanic)
          punctM "\x7d")
      tpl_loop recur quasis exprs (2*k+2) rem) := by
  rw [tpl_loop_succ]
  have h1 : (2*k+1) % 2 = 1 := by omega
  have h2 : (2*k+1) / 2 = k := by omega
  rw [h1, h2]
  exact rfl

/-- Dropping `k < length` elements uncovers element `k`. -/
theorem list_drop_eq_get_cons {α : Type} {l : List α} {k : Nat}
    (h : k < l.length) :
    l.drop k = l.get ⟨k, h⟩ :: l.drop (k+1) := by
  induction l generalizing k with
  | nil => simp at h
  | cons a t ih =>
    cases k with
    | zero => rfl
    | succ m => exact ih (Nat.lt_of_succ_lt_succ h)

/-- The indexed interleaving loop of `emit_tpl_lit`, started at even
index `2*k` with `(quasis.length - k) + (exprs.length - k)` iterations
left, is the straight interleaving of the remaining quasis and
expressions. -/
theorem tpl_loop_eq_spec (recur : ENode → EmitM Unit) (quasis : List TplElement)
    (exprs : List Expr) (hlen : quasis.length = exprs.length + 1) :
    ∀ n k, k + n = exprs.length →
      tpl_loop recur quasis exprs (2*k) (n + n + 1) =
        tpl_spec_interleave recur (quasis.drop k) (exprs.drop k) := by
  intro n
  induction n with
  | zero =>
    intro k hk
    simp only [Nat.add_zero]
    have hq : k < quasis.length := by omega
    have hd1 : quasis.drop k = [quasis.get ⟨k, hq⟩] := by
      rw [list_drop_eq_get_cons hq, List.drop_eq_nil_of_le (by omega)]
    have hd2 : exprs.drop k = [] := List.drop_eq_nil_of_le (by omega)
    rw [tpl_loop_even, tpl_loop_zero, List.get?_eq_get hq, hd1, hd2]
    exact bind_pure_unit _
  | succ m ih =>
    intro k hk
    have hq : k < quasis.length := by omega
    have he : k < exprs.length := by omega
    have er : m + 1 + (m + 1) = (m + m + 1) + 1 := by omega
    rw [tpl_loop_even, er, tpl_loop_odd, List.get?_eq_get hq,
      List.get?_eq_get he]
    rw [show 2*k+2 = 2*(k+1) from by omega, ih (k+1) (by omega)]
    rw [list_drop_eq_get_cons hq, list_drop_eq_get_cons he]
    simp only [emit_bind_assoc]
    exact rfl

/-- C6: for every template literal satisfying the precondition
`quasis.length = exprs.length + 1`, `emit_tpl_lit` is exactly: the
optional tag, a backtick, the stray debug print, the interleaving
(quasi `i/2` at even `i`, `$\x7b expr[i/2] \x7d` at odd `i`, over
`i < quasis.length + exprs.length`), and a closing backtick — stated
against the straight interleaving `tpl_spec_interleave` written from
the spec. -/
theorem claim_C6_tpl (recur : ENode → EmitM Unit) (sp : Span) (tag : Option Expr)
    (exprs : List Expr) (quasis : List TplElement)
    (h : quasis.length = exprs.length + 1) :
    emit_tpl_lit recur sp tag exprs quasis = (do
      (match tag with
        | some t => recur (.expr t)
        | none => pure ())
      punctM "`"
      printStdout (Nat.repr (exprs.length + quasis.length))
      tpl_spec_interleave recur quasis exprs
      punctM "`") := by
  unfold emit_tpl_lit
  rw [if_pos (by simp [h]), emit_pure_bind]
  have hl := tpl_loop_eq_spec recur quasis exprs h exprs.length 0 (by omega)
  simp only [mul_zero, List.drop_zero] at hl
  rw [show quasis.length + exprs.length
      = exprs.length + exprs.length + 1 from by omega, hl]

/-- C6 (witness): the template literal with quasis `a`, `b` and the
single interpolated expression `x` is, by `claim_C6_tpl`, the spec
interleaving, and its run produces exactly the token stream of
`` `a$\x7bx\x7db` ``. -/
theorem claim_C6_witness :
    (emit_tpl_lit (emitN 6 ctx0) dummySpan none
        [Expr.ident ⟨dummySpan, "x"⟩]
        [⟨dummySpan, "a"⟩, ⟨dummySpan, "b"⟩]
      = do
        (match (none : Option Expr) with
          | some t => emitN 6 ctx0 (.expr t)
          | none => pure ())
        punctM "`"
        printStdout (Nat.repr (1 + 2))
        tpl_spec_interleave (emitN 6 ctx0)
          [⟨dummySpan, "a"⟩, ⟨dummySpan, "b"⟩]
          [Expr.ident ⟨dummySpan, "x"⟩]
        punctM "`")
    ∧ emit_tpl_lit (emitN 6 ctx0) dummySpan none
        [Expr.ident ⟨dummySpan, "x"⟩]
        [⟨dummySpan, "a"⟩, ⟨dummySpan, "b"⟩] st0
      = (.ok (), ⟨[.punct "`", .strLit dummySpan "a", .punct "$",
          .punct "\x7b", .symbol dummySpan "x", .punct "\x7d",
          .strLit dummySpan "b", .punct "`"], ["3"], 0, none, []⟩) := by
  constructor
  · rw [claim_C6_tpl (emitN 6 ctx0) dummySpan none
      [Expr.ident ⟨dummySpan, "x"⟩]
      [⟨dummySpan, "a"⟩, ⟨dummySpan, "b"⟩] (by decide)]
    exact rfl
  · exact rfl

/-!  ## NoPanic, NoStar and abort combinators (claim C10) -/

theorem np_pure (a : α) : NoPanic (pure a : EmitM α) :=
  fun s h => Except.noConfusion h

theorem np_wput (t : WTok) : NoPanic (wput t) := by
  intro s
  unfold wput
  rcases hb : s.budget with _ | (_ | n) <;> simp

theorem np_getSt : NoPanic getSt := fun s h => Except.noConfusion h

theorem np_recordPos (p : Nat) : NoPanic (recordPos p) :=
  fun s h => Except.noConfusion h

theorem np_printStdout (m : String) : NoPanic (printStdout m) :=
  fun s h => Except.noConfusion h

theorem np_increase_indent : NoPanic increase_indent :=
  fun s h => Except.noConfusion h

theorem np_decrease_indent : NoPanic decrease_indent :=
  fun s h => Except.noConfusion h

theorem np_throwFuel {α : Type} : NoPanic (throwFuel : EmitM α) := by
  intro s h
  injection h with h2
  exact Err.noConfusion h2

theorem np_bind {m : EmitM α} {f : α → EmitM β} (h1 : NoPanic m)
    (h2 : ∀ a, NoPanic (f a)) : NoPanic (m >>= f) := by
  intro s
  rw [bind_run]
  rcases hm : m s with ⟨r, s1⟩
  cases r with
  | ok a => exact h2 a s1
  | error e =>
    intro h
    injection h with h3
    subst h3
    exact h1 s (by rw [hm])

theorem np_ite {c : Prop} [Decidable c] {m1 m2 : EmitM α} (h1 : NoPanic m1)
    (h2 : NoPanic m2) : NoPanic (if c then m1 else m2) := by
  by_cases hc : c
  · rw [if_pos hc]; exact h1
  · rw [if_neg hc]; exact h2

theorem np_writeComments (l : List String) : NoPanic (writeComments l) := by
  induction l with
  | nil => exact np_pure ()
  | cons c r ih => exact np_bind (np_wput _) (fun _ => ih)

theorem np_leading (ctx : Ctx) (pos : Nat) :
    NoPanic (emit_leading_comments_of_pos ctx pos) := by
  unfold emit_leading_comments_of_pos
  refine np_bind np_getSt ?_
  intro st
  refine np_ite (np_pure ()) ?_
  rcases hl : ctx.leadingAt pos with _ | ⟨c, r⟩
  · exact np_pure ()
  · exact np_bind (np_writeComments _) (fun _ => np_recordPos _)

theorem np_trailing (ctx : Ctx) (pos : Nat) (b : Bool) :
    NoPanic (emit_trailing_comments_of_pos ctx pos b) :=
  np_writeComments _

theorem ns_pure (a : α) : NoStar (pure a : EmitM α) := fun s h => h

theorem ns_throwPanic {α : Type} : NoStar (throwPanic : EmitM α) := fun s h => h

theorem ns_wput {t : WTok} (ht : t ≠ WTok.punct "*") : NoStar (wput t) := by
  intro s h
  unfold wput
  rcases hb : s.budget with _ | (_ | n)
  · simp only [List.mem_append, List.mem_singleton, not_or]
    exact ⟨h, fun he => ht he.symm⟩
  · exact h
  · simp only [List.mem_append, List.mem_singleton, not_or]
    exact ⟨h, fun he => ht he.symm⟩

theorem ns_bind {m : EmitM α} {f : α → EmitM β} (h1 : NoStar m)
    (h2 : ∀ a, NoStar (f a)) : NoStar (m >>= f) := by
  intro s h
  rw [bind_run]
  rcases hm : m s with ⟨r, s1⟩
  have hs1 : WTok.punct "*" ∉ s1.out := by
    have hx := h1 s h
    rw [hm] at hx
    exact hx
  cases r with
  | ok a => exact h2 a s1 hs1
  | error e => exact hs1

theorem aborts_throwPanic {α : Type} : AbortsStarFree (throwPanic : EmitM α) :=
  fun s h => ⟨.panicked, s, rfl, h⟩

theorem aborts_bind_left {m : EmitM α} {f : α → EmitM β}
    (h : AbortsStarFree m) : AbortsStarFree (m >>= f) := by
  intro s hs
  obtain ⟨e, s2, hm, h2⟩ := h s hs
  exact ⟨e, s2, by rw [bind_run, hm], h2⟩

theorem aborts_bind {m : EmitM α} {f : α → EmitM β} (h1 : NoStar m)
    (h2 : ∀ a, AbortsStarFree (f a)) : AbortsStarFree (m >>= f) := by
  intro s hs
  rcases hm : m s with ⟨r, s1⟩
  have hs1 : WTok.punct "*" ∉ s1.out := by
    have hx := h1 s hs
    rw [hm] at hx
    exact hx
  cases r with
  | ok a =>
    obtain ⟨e, s2, hf, h3⟩ := h2 a s1 hs1
    refine ⟨e, s2, ?_, h3⟩
    rw [bind_run, hm]
    exact hf
  | error e => exact ⟨e, s1, by rw [bind_run, hm], hs1⟩

theorem np_write_delim_named : NoPanic (write_delim lfNamedImportsOrExportsElements) :=
  np_wput _

theorem np_list5_sep_step (ctx : Ctx) (childSp parent : Span) (f : LF)
    (hd : NoPanic (write_delim f)) (prev : Option Span) (sEIC : Bool) :
    NoPanic (list5_sep_step ctx childSp parent f prev sEIC) := by
  cases prev with
  | none => exact np_pure _
  | some p =>
    exact np_bind (np_ite (np_leading ctx p.hi) (np_pure ())) (fun _ =>
      np_bind hd (fun _ =>
        np_ite
          (np_bind (np_ite (np_bind np_increase_indent (fun _ => np_pure true))
              (np_pure false)) (fun d =>
            np_bind (np_wput _) (fun _ => np_pure _)))
          (np_bind (np_ite (np_wput _) (np_pure ())) (fun _ => np_pure _))))

theorem np_emit_trailing_comma_step (f : LF) :
    NoPanic (emit_trailing_comma_step f) :=
  np_ite (np_wput _) (np_pure ())

theorem np_list5_loop {α : Type} (ctx : Ctx) (emitChild : α → EmitM Unit)
    (childSpan : α → Span) (parent : Span) (f : LF) (cs : List α)
    (start : Nat) (mayEIC : Bool) (hd : NoPanic (write_delim f))
    (hchild : ∀ c, NoPanic (emitChild c)) :
    ∀ rem i prev sEIC, start + i + rem ≤ cs.length →
      NoPanic (list5_loop ctx emitChild childSpan parent f cs start mayEIC
        i rem prev sEIC) := by
  intro rem
  induction rem with
  | zero =>
    intro i prev sEIC hb
    exact np_pure _
  | succ r ih =>
    intro i prev sEIC hb
    have hlt : start + i < cs.length := by omega
    unfold list5_loop
    rw [List.get?_eq_get hlt]
    exact np_bind (np_list5_sep_step ctx _ parent f hd prev sEIC) (fun st =>
      np_bind (np_ite (np_bind (np_trailing ctx _ false) (fun _ => np_pure _))
          (np_pure _)) (fun sEIC2 =>
        np_bind (hchild _) (fun _ =>
          np_bind (np_ite np_decrease_indent (np_pure ())) (fun _ =>
            ih (i+1) _ sEIC2 (by omega)))))

theorem np_emit_list5 {α : Type} (ctx : Ctx) (emitChild : α → EmitM Unit)
    (childSpan : α → Span) (parent : Span) (cs : List α) (f : LF)
    (start count : Nat) (hd : NoPanic (write_delim f))
    (hchild : ∀ c, NoPanic (emitChild c)) (hb : start + count ≤ cs.length) :
    NoPanic (emit_list5 ctx emitChild childSpan parent (some cs) f
      start count) := by
  unfold emit_list5
  refine np_ite (np_pure ()) ?_
  refine np_ite (np_pure ()) ?_
  refine np_bind ?_ (fun _ => np_bind ?_ (fun _ => ?_))
  · exact np_ite
      (np_bind (np_wput _) (fun _ => np_ite (np_trailing ctx _ true)
        (np_pure ())))
      (np_pure ())
  · refine np_ite (np_ite (np_wput _) (np_ite (np_wput _) (np_pure ()))) ?_
    refine np_bind
      (np_ite (np_bind (np_wput _) (fun _ => np_pure _))
        (np_bind (np_ite (np_wput _) (np_pure ())) (fun _ => np_pure _)))
      (fun sEIC =>
        np_bind (np_ite np_increase_indent (np_pure ())) (fun _ =>
          np_bind (np_list5_loop ctx emitChild childSpan parent f cs start _
              hd hchild count 0 none sEIC (by omega)) (fun prev =>
            np_bind (np_emit_trailing_comma_step f) (fun _ =>
              np_bind ?_ (fun _ =>
                np_bind (np_ite np_decrease_indent (np_pure ())) (fun _ =>
                  np_ite (np_wput _) (np_ite (np_wput _) (np_pure ()))))))))
    cases prev with
    | none => exact np_pure ()
    | some p => exact np_ite (np_leading ctx p.hi) (np_pure ())
  · exact np_ite
      (np_bind (np_ite (np_leading ctx _) (np_pure ())) (fun _ => np_wput _))
      (np_pure ())

theorem np_emit_list {α : Type} (ctx : Ctx) (emitChild : α → EmitM Unit)
    (childSpan : α → Span) (parent : Span) (cs : List α) (f : LF)
    (hd : NoPanic (write_delim f)) (hchild : ∀ c, NoPanic (emitChild c)) :
    NoPanic (emit_list ctx emitChild childSpan parent (some cs) f) := by
  unfold emit_list
  exact np_emit_list5 ctx emitChild childSpan parent cs f 0 _ hd hchild
    (by simp)

theorem np_import_spec_loop (recur : ENode → EmitM Unit) (total : Nat)
    (htot : total ≤ 2) (hrecI : ∀ i, NoPanic (recur (.ident i))) :
    ∀ l, NoPanic (import_spec_loop recur total l) := by
  intro l
  induction l with
  | nil => exact np_pure _
  | cons sp rest ih =>
    unfold import_spec_loop
    refine np_bind ?_ (fun here => np_bind ih (fun r => np_pure _))
    cases sp with
    | specific s0 => exact np_pure _
    | defaultS lcl =>
      exact np_bind (hrecI _) (fun _ => np_bind (np_wput _)
        (fun _ => np_pure _))
    | nsSpec sp2 lcl =>
      refine np_bind ?_ (fun _ =>
        np_bind (np_wput _) (fun _ =>
          np_bind (np_wput _) (fun _ =>
            np_bind (np_wput _) (fun _ =>
              np_bind (np_wput _) (fun _ =>
                np_bind (hrecI _) (fun _ =>
                  np_bind (np_wput _) (fun _ => np_pure _)))))))
      rw [if_pos htot]
      exact np_pure ()

theorem aborts_import_loop (recur : ENode → EmitM Unit) (total : Nat)
    (htot : 2 < total) (hstarI : ∀ i, NoStar (recur (.ident i))) :
    ∀ l, has_namespace_specifier l = true →
      AbortsStarFree (import_spec_loop recur total l) := by
  intro l
  induction l with
  | nil =>
    intro h
    simp [has_namespace_specifier] at h
  | cons sp rest ih =>
    intro h
    unfold import_spec_loop
    cases sp with
    | specific s0 =>
      exact aborts_bind (ns_pure _) (fun here => aborts_bind_left (ih h))
    | defaultS lcl =>
      exact aborts_bind (ns_bind (hstarI _) (fun _ =>
          ns_bind (ns_wput (fun hx => WTok.noConfusion hx)) (fun _ =>
            ns_pure _)))
        (fun here => aborts_bind_left (ih h))
    | nsSpec sp2 lcl =>
      refine aborts_bind_left (aborts_bind_left ?_)
      rw [if_neg (show ¬ (total ≤ 2) from by omega)]
      exact aborts_throwPanic

theorem ns_getSt : NoStar getSt := fun s h => h

theorem ns_recordPos (p : Nat) : NoStar (recordPos p) := fun s h => h

theorem ns_throwFuel {α : Type} : NoStar (throwFuel : EmitM α) := fun s h => h

theorem ns_ite {c : Prop} [Decidable c] {m1 m2 : EmitM α} (h1 : NoStar m1)
    (h2 : NoStar m2) : NoStar (if c then m1 else m2) := by
  by_cases hc : c
  · rw [if_pos hc]; exact h1
  · rw [if_neg hc]; exact h2

theorem ns_writeComments (l : List String) : NoStar (writeComments l) := by
  induction l with
  | nil => exact ns_pure ()
  | cons c r ih =>
    exact ns_bind (ns_wput (fun hx => WTok.noConfusion hx)) (fun _ => ih)

theorem ns_leading (ctx : Ctx) (pos : Nat) :
    NoStar (emit_leading_comments_of_pos ctx pos) := by
  unfold emit_leading_comments_of_pos
  refine ns_bind ns_getSt ?_
  intro st
  refine ns_ite (ns_pure ()) ?_
  rcases hl : ctx.leadingAt pos with _ | ⟨c, r⟩
  · exact ns_pure ()
  · exact ns_bind (ns_writeComments _) (fun _ => ns_recordPos _)

/-- At any fuel, emitting an identifier never panics. -/
theorem np_emitN_ident : ∀ (fuel : Nat) (ctx : Ctx) (i : Ident),
    NoPanic (emitN fuel ctx (.ident i)) := by
  intro fuel ctx i
  cases fuel with
  | zero => exact np_throwFuel
  | succ f =>
    show NoPanic (emit_ident ctx i)
    unfold emit_ident
    refine np_bind (np_leading ctx _) ?_
    intro u
    rcases hg : get_text_of_node ctx i.span with _ | t
    · exact np_wput _
    · exact np_wput _

/-- At any fuel, emitting a string literal never panics. -/
theorem np_emitN_strLit : ∀ (fuel : Nat) (ctx : Ctx) (sl : Str),
    NoPanic (emitN fuel ctx (.strLit sl)) := by
  intro fuel ctx sl
  cases fuel with
  | zero => exact np_throwFuel
  | succ f =>
    show NoPanic (emit_str_lit ctx sl)
    unfold emit_str_lit
    rcases hg : get_text_of_node ctx sl.span with _ | t
    · exact np_bind (np_wput _) (fun _ => np_bind (np_wput _)
        (fun _ => np_wput _))
    · exact np_wput _

/-- At any fuel, emitting a named import specifier never panics. -/
theorem np_emitN_importSpecific : ∀ (fuel : Nat) (ctx : Ctx)
    (sp : ImportSpecific), NoPanic (emitN fuel ctx (.importSpecific sp)) := by
  intro fuel ctx sp
  cases fuel with
  | zero => exact np_throwFuel
  | succ f =>
    show NoPanic (emit_import_specific (emitN f ctx) sp)
    unfold emit_import_specific
    refine np_bind ?_ (fun _ => np_emitN_ident f ctx _)
    rcases hi : sp.imported with _ | im
    · exact np_pure ()
    · exact np_bind (np_emitN_ident f ctx _) (fun _ =>
        np_bind (np_wput _) (fun _ =>
          np_bind (np_wput _) (fun _ => np_wput _)))

/-- At any fuel, emitting an identifier never writes a `*` token. -/
theorem ns_emitN_ident : ∀ (fuel : Nat) (ctx : Ctx) (i : Ident),
    NoStar (emitN fuel ctx (.ident i)) := by
  intro fuel ctx i
  cases fuel with
  | zero => exact ns_throwFuel
  | succ f =>
    show NoStar (emit_ident ctx i)
    unfold emit_ident
    refine ns_bind (ns_leading ctx _) ?_
    intro u
    rcases hg : get_text_of_node ctx i.span with _ | t
    · exact ns_wput (fun hx => WTok.noConfusion hx)
    · exact ns_wput (fun hx => WTok.noConfusion hx)

/-- C10: for every import declaration containing a namespace (`* as x`)
specifier, the `assert!` of `emit_import` (lib.rs:156) behaves as the
spec describes: with at most two specifiers in total the assertion
passes and — provided the recursive emission of identifier,
string-literal and import-specifier children cannot panic — the whole
of `emit_import` cannot panic; with more than two specifiers, every run
of `emit_import` aborts with an error before any `*` punctuator
reaches the sink (provided identifier emission writes no `*`). -/
theorem claim_C10_import_namespace :
    (∀ (ctx : Ctx) (recur : ENode → EmitM Unit) (d : ImportDecl),
      (∀ i, NoPanic (recur (.ident i))) →
      (∀ sl, NoPanic (recur (.strLit sl))) →
      (∀ sp, NoPanic (recur (.importSpecific sp))) →
      has_namespace_specifier d.specifiers = true →
      d.specifiers.length ≤ 2 →
      NoPanic (emit_import ctx recur d))
    ∧ (∀ (ctx : Ctx) (recur : ENode → EmitM Unit) (d : ImportDecl),
      (∀ i, NoStar (recur (.ident i))) →
      has_namespace_specifier d.specifiers = true →
      2 < d.specifiers.length →
      AbortsStarFree (emit_import ctx recur d)) := by
  constructor
  · intro ctx recur d hI hS hSp hns hlen
    unfold emit_import
    refine np_bind (np_wput _) (fun _ =>
      np_bind (np_wput _) (fun _ =>
        np_bind (np_import_spec_loop recur _ hlen hI _) (fun specifiers =>
          np_bind ?_ (fun _ =>
            np_bind (np_wput _) (fun _ =>
              np_bind (np_wput _) (fun _ =>
                np_bind (hS _) (fun _ => np_wput _)))))))
    refine np_ite ?_ (np_pure ())
    exact np_bind (np_wput _) (fun _ =>
      np_bind (np_emit_list ctx _ ImportSpecific.span d.span specifiers
          lfNamedImportsOrExportsElements np_write_delim_named
          (fun c => hSp c)) (fun _ => np_wput _))
  · intro ctx recur d hI hns hlen
    unfold emit_import
    exact aborts_bind (ns_wput (fun hx => WTok.noConfusion hx)) (fun _ =>
      aborts_bind (ns_wput (fun hx => WTok.noConfusion hx)) (fun _ =>
        aborts_bind_left
          (aborts_import_loop recur _ hlen hI d.specifiers hns)))

/-- C10 (witness): `import d, * as ns from "m"` (two specifiers, one of
them a namespace) is emitted panic-free, while the same import with a
third specifier aborts with an error and no `*` token in its output. -/
theorem claim_C10_witness :
    NoPanic (emit_import ctx0 (emitN 6 ctx0) importTwo)
    ∧ ∃ e s2, emit_import ctx0 (emitN 6 ctx0) importThree st0
        = (.error e, s2) ∧ WTok.punct "*" ∉ s2.out := by
  constructor
  · exact claim_C10_import_namespace.1 ctx0 (emitN 6 ctx0) importTwo
      (fun i => np_emitN_ident 6 ctx0 i) (fun sl => np_emitN_strLit 6 ctx0 sl)
      (fun sp => np_emitN_importSpecific 6 ctx0 sp) (by decide) (by decide)
  · exact claim_C10_import_namespace.2 ctx0 (emitN 6 ctx0) importThree
      (fun i => ns_emitN_ident 6 ctx0 i) (by decide) (by decide) st0
      (by decide)

end Swc
